import Mathlib

/-!
# Incremental structure from motion: the reconstruction engine of `basic_sfm.cpp`

A shallow embedding of `BasicSfM::solve`, `BasicSfM::incrementalReconstruction`,
`BasicSfM::bundleAdjustmentIter`, `BasicSfM::rejectOuliers` and
`BasicSfM::checkCheiralityConstraint`.

Conventions of the embedding.

* `int` indices and counters are `Nat`/`Int`; no count in this program can reach `2^31`.
* `double` values are rationals (`ℚ`): the engine only compares, adds, multiplies and
  divides them, and every branch of the source is a comparison of two such values.
  Rounding, NaN and infinities are outside the model.
* `std::vector<T>` is `List T`; a read is `getD` with default `0`, a write is `List.set`.
  A read or write outside the vector is undefined behaviour in the source; the model reads
  the default and drops the write.
* `std::map<int,int>` is a key/value list kept in ascending key order, which is the order
  in which the source iterates over it.
* The calls into OpenCV and Ceres are fields of the record `Ext`: the engine is
  verified for every behaviour of those libraries.
-/

namespace BasicSfM

/-! ## `std::map<int,int>` -/

/-- The type `std::map<int,int>`: pairs (key, value), keys ascending. -/
abbrev IntMap := List (Nat × Nat)

/-- The lookup `m.find(k)`: `none` stands for `m.end()`. -/
def IntMap.find : IntMap → Nat → Option Nat
  | [], _ => none
  | (k', v) :: rest, k => if k' = k then some v else IntMap.find rest k

/-- The assignment `m[k] = v`: inserts the key at its place or overwrites its value. -/
def IntMap.assign : IntMap → Nat → Nat → IntMap
  | [], k, v => [(k, v)]
  | (k', v') :: rest, k, v =>
    if k < k' then (k, v) :: (k', v') :: rest
    else if k = k' then (k, v) :: rest
    else (k', v') :: IntMap.assign rest k v

/-- The read `m[k]` of a key (value-initialised `0` when the key is absent). -/
def IntMap.lookup (m : IntMap) (k : Nat) : Nat := (m.find k).getD 0

/-- The keys of a map, in iteration order. -/
def IntMap.keys (m : IntMap) : List Nat := m.map Prod.fst

/-! ## `Eigen::MatrixXi` -/

/-- An integer matrix `Eigen::MatrixXi`, read by `m r c`. -/
abbrev MatrixXi := Nat → Nat → Int

/-- The matrix `Eigen::MatrixXi::Zero(n, n)`. -/
def MatrixXi.Zero : MatrixXi := fun _ _ => 0

/-- The write `m(r,c) = v`. -/
def MatrixXi.set (m : MatrixXi) (r c : Nat) (v : Int) : MatrixXi :=
  fun i j => if i = r ∧ j = c then v else m i j

/-! ## The object -/

/-- The data members of `BasicSfM` that the reconstruction engine reads and writes. -/
structure Sfm where
  num_cam_poses_ : Nat
  num_points_ : Nat
  num_observations_ : Nat
  /-- Length of the parameter buffer, `6 * num_cam_poses_ + 3 * num_points_`. -/
  num_parameters_ : Nat
  /-- Camera index of each observation. -/
  cam_pose_index_ : List Nat
  /-- Point index of each observation. -/
  point_index_ : List Nat
  /-- Two coordinates per observation. -/
  observations_ : List ℚ
  /-- Six values per camera, then three values per point. -/
  parameters_ : List ℚ
  /-- Status of each camera: `> 0` registered, `0` not yet, `< 0` rejected. -/
  cam_pose_optim_iter_ : List Int
  /-- Status of each point, same coding. -/
  pts_optim_iter_ : List Int
  /-- For each camera the map point index to observation index. -/
  cam_observation_ : List IntMap
  max_reproj_err_ : ℚ
  max_outliers_ : Int
deriving DecidableEq

/-! ## `BasicSfM::solve`: correspondence index -/

/-- Lines 457-462 of `solve`, first `t` rounds of the loop over the observations:
`cam_observation_[cam_pose_index_[i_obs]][point_index_[i_obs]] = i_obs`. -/
def camObservationLoop (s : Sfm) (t : Nat) : List IntMap :=
  (List.range t).foldl
    (fun co i_obs =>
      let i_cam := s.cam_pose_index_.getD i_obs 0
      let i_pt := s.point_index_.getD i_obs 0
      co.set i_cam ((co.getD i_cam []).assign i_pt i_obs))
    (List.replicate s.num_cam_poses_ [])

/-- Lines 457-462 of `solve`: the correspondence index is rebuilt from the observations. -/
def buildCamObservation (s : Sfm) : Sfm :=
  { s with cam_observation_ := camObservationLoop s s.num_observations_ }

/-! ## `BasicSfM::solve`: count matrix -/

/-- Lines 472-477 of `solve`: the counter `nc` for the cameras whose maps are `mr`, `mc`. -/
def countShared (mr mc : IntMap) : Nat :=
  mr.foldl (fun nc co_iter => if (mc.find co_iter.1).isSome then nc + 1 else nc) 0

/-- The column loop `for (c = r + 1; c < n; c++)`. -/
def colRange (n r : Nat) : List Nat := List.range' (r + 1) (n - (r + 1))

/-- Lines 466-480 of `solve`: the matrix `corr`. -/
def corrMatrix (s : Sfm) : MatrixXi :=
  (List.range s.num_cam_poses_).foldl
    (fun corr r =>
      (colRange s.num_cam_poses_ r).foldl
        (fun corr c =>
          corr.set r c (countShared (s.cam_observation_.getD r []) (s.cam_observation_.getD c [])))
        corr)
    MatrixXi.Zero

/-! ## `BasicSfM::solve`: seed search -/

/-- The locals `max_corr`, `seed_pair_idx0`, `seed_pair_idx1` of `solve`. -/
structure SeedScan where
  max_corr : Int
  seed_pair_idx0 : Nat
  seed_pair_idx1 : Nat
deriving DecidableEq, Repr

/-- Lines 499-504 of `solve`: the body of the two loops of the seed search. -/
def seedStep (corr already_tested_pair : MatrixXi) (sc : SeedScan) (r c : Nat) : SeedScan :=
  if already_tested_pair r c = 0 ∧ corr r c > sc.max_corr then
    { max_corr := corr r c, seed_pair_idx0 := r, seed_pair_idx1 := c }
  else sc

/-- Lines 494-506 of `solve`: one scan of the seed search. The indices `idx0`, `idx1` are
the values the two seed variables hold when the scan starts. -/
def seedScan (n : Nat) (corr already_tested_pair : MatrixXi) (idx0 idx1 : Nat) : SeedScan :=
  (List.range n).foldl
    (fun sc r =>
      (colRange n r).foldl (fun sc c => seedStep corr already_tested_pair sc r c) sc)
    { max_corr := -1, seed_pair_idx0 := idx0, seed_pair_idx1 := idx1 }

/-- How `solve` ends. -/
inductive SolveExit where
  /-- The branch "No seed pair found, exiting". -/
  | noSeedPairFound
  /-- The branch "Recostruction completed, exiting". -/
  | reconstructionCompleted
  /-- The model ran out of rounds. -/
  | outOfFuel
deriving DecidableEq, Repr

/-- Lines 492-524 of `solve`: the `while (true)` loop, at most `fuel` rounds. The function
`incRec` stands for `incrementalReconstruction` acting on the object state `σ`. The result
lists the seed pairs handed to `incRec`, in order. -/
def solveLoop {σ : Type} (n : Nat) (corr : MatrixXi) (incRec : σ → Nat → Nat → Bool × σ) :
    Nat → MatrixXi → Nat → Nat → σ → SolveExit × List (Nat × Nat) × σ
  | 0, _, _, _, st => (SolveExit.outOfFuel, [], st)
  | fuel + 1, already_tested_pair, idx0, idx1, st =>
    let sc := seedScan n corr already_tested_pair idx0 idx1
    if sc.max_corr < 0 then (SolveExit.noSeedPairFound, [], st)
    else
      let tested := already_tested_pair.set sc.seed_pair_idx0 sc.seed_pair_idx1 1
      match incRec st sc.seed_pair_idx0 sc.seed_pair_idx1 with
      | (true, st') =>
        (SolveExit.reconstructionCompleted, [(sc.seed_pair_idx0, sc.seed_pair_idx1)], st')
      | (false, st') =>
        let rest := solveLoop n corr incRec fuel tested sc.seed_pair_idx0 sc.seed_pair_idx1 st'
        (rest.1, (sc.seed_pair_idx0, sc.seed_pair_idx1) :: rest.2.1, rest.2.2)

/-! ## Auxiliary definitions for the statements on `solve` -/

/-- The pairs `(r, c)` visited by the nested loops `for r` / `for c = r + 1`, in visiting
order (row-major). -/
def seedPairs (n : Nat) : List (Nat × Nat) :=
  (List.range n).flatMap (fun r => (colRange n r).map (fun c => (r, c)))

/-- A valid observation set: every camera index is a camera of the problem and no
(camera, point) pair is recorded by two observations. -/
def validObservations (s : Sfm) : Prop :=
  (∀ i, i < s.num_observations_ → s.cam_pose_index_.getD i 0 < s.num_cam_poses_) ∧
    ∀ j, j < s.num_observations_ → ∀ i, i < j →
      ¬ (s.cam_pose_index_.getD j 0 = s.cam_pose_index_.getD i 0 ∧
        s.point_index_.getD j 0 = s.point_index_.getD i 0)

/-- Index of the last of the first `t` observations that records camera `c` seeing point
`p`, if there is one. -/
def lastObservation (s : Sfm) : Nat → Nat → Nat → Option Nat
  | 0, _, _ => none
  | t + 1, c, p =>
    if s.cam_pose_index_.getD t 0 = c ∧ s.point_index_.getD t 0 = p then some t
    else lastObservation s t c p

/-! ## Geometry values and the external libraries -/

/-- A `cv::Point2d`. -/
abbrev Point2d := ℚ × ℚ

/-- A 3-vector of doubles (`cv::Point3d`, a 3x1 `cv::Mat`, a rotation vector). -/
abbrev Vec3 := ℚ × ℚ × ℚ

/-- A column of the 4xN matrix `hpoints4D`. -/
abbrev Vec4 := ℚ × ℚ × ℚ × ℚ

/-- A 3x3 matrix, by rows. -/
abbrev Mat33 := Vec3 × Vec3 × Vec3

/-- A 3x4 projection matrix `[R | t]`. -/
abbrev Mat34 := Mat33 × Vec3

/-- The 3x3 identity. -/
def Mat33.eye : Mat33 := ((1, 0, 0), (0, 1, 0), (0, 0, 1))

/-- The product of a 3x3 matrix and a 3-vector. -/
def Mat33.mulVec (m : Mat33) (v : Vec3) : Vec3 :=
  (m.1.1 * v.1 + m.1.2.1 * v.2.1 + m.1.2.2 * v.2.2,
   m.2.1.1 * v.1 + m.2.1.2.1 * v.2.1 + m.2.1.2.2 * v.2.2,
   m.2.2.1 * v.1 + m.2.2.2.1 * v.2.1 + m.2.2.2.2 * v.2.2)

/-- The sum of two 3-vectors. -/
def Vec3.add (a b : Vec3) : Vec3 := (a.1 + b.1, a.2.1 + b.2.1, a.2.2 + b.2.2)

/-- One call of `problem.AddResidualBlock`: the camera block, the point block and the
observation of the cost function. -/
structure ResidualBlock where
  camera : Nat
  point : Nat
  observed_x : ℚ
  observed_y : ℚ
deriving DecidableEq, Repr

/-- A `ceres::Problem` as `bundleAdjustmentIter` builds it. -/
structure Problem where
  /-- The residual blocks, in the order they were added. -/
  residual_blocks : List ResidualBlock
  /-- The camera blocks passed to `SetParameterBlockConstant`, one entry per call. -/
  constant_cameras : List Nat
deriving DecidableEq, Repr

/-- The services of OpenCV, Ceres and the C library that the engine calls. Each field is
the call of the same name with the constant arguments of the source left out. -/
structure Ext where
  /-- The function `std::sqrt`. -/
  sqrt : ℚ → ℚ
  /-- Returns the model `E` and `inlier_mask_E`. -/
  findEssentialMat : List Point2d → List Point2d → Mat33 × List Nat
  /-- Returns `inlier_mask_H`. -/
  findHomography : List Point2d → List Point2d → List Nat
  /-- Takes `E`, the matches and `inlier_mask_E`; returns the number of good points, the
  rotation matrix, the translation and the updated `inlier_mask_E`. -/
  recoverPose : Mat33 → List Point2d → List Point2d → List Nat → Int × Mat33 × Vec3 × List Nat
  /-- The call `cv::Rodrigues` from a rotation matrix to a rotation vector. -/
  Rodrigues : Mat33 → Vec3
  /-- The call `cv::Rodrigues` from a rotation vector to a rotation matrix. -/
  RodriguesMat : Vec3 → Mat33
  /-- Returns the columns of `hpoints4D`. -/
  triangulatePoints : Mat34 → Mat34 → List Point2d → List Point2d → List Vec4
  /-- Takes the scene points, the image points and the reprojection tolerance; returns the
  rotation vector and the translation. -/
  solvePnPRansac : List Vec3 → List Point2d → ℚ → Vec3 × Vec3
  /-- The call `ceres::AngleAxisRotatePoint(rotation vector, point)`. -/
  AngleAxisRotatePoint : Vec3 → Vec3 → Vec3
  /-- The call `ceres::Solve`: takes the problem, the scale of the Cauchy loss and the
  parameter buffer; returns the parameter buffer after the solve. -/
  Solve : Problem → ℚ → List ℚ → List ℚ

/-! ## Accessors of the object -/

/-- Modelled from the spec: the constant `camera_block_size_` of the class declaration
(`basic_sfm.h`), "the fixed per-entity block size (6 for cameras, 3 for points)". -/
def camera_block_size_ : Nat := 6

/-- Modelled from the spec: the constant `point_block_size_` of the class declaration
(`basic_sfm.h`), "the fixed per-entity block size (6 for cameras, 3 for points)". -/
def point_block_size_ : Nat := 3

/-- Modelled from the spec: the accessor `cameraBlockPtr(i)` of the class declaration, as
an offset into `parameters_` ("a camera's storage offset is a deterministic function of
its index and the block size"); the source uses `parameters_.data() + camera_block_size_ * i`
at line 220. -/
def cameraBlockPtr (_s : Sfm) (i : Nat) : Nat := i * camera_block_size_

/-- Modelled from the spec: the accessor `pointBlockPtr(i)` of the class declaration, as
an offset into `parameters_`; the source uses
`parameters_.data() + num_cam_poses_ * camera_block_size_` plus `i * point_block_size_` at
lines 956-962. -/
def pointBlockPtr (s : Sfm) (i : Nat) : Nat :=
  s.num_cam_poses_ * camera_block_size_ + i * point_block_size_

/-- The read `parameters_[off]`. -/
def Sfm.param (s : Sfm) (off : Nat) : ℚ := s.parameters_.getD off 0

/-- The write `parameters_[off] = v`. -/
def Sfm.setParam (s : Sfm) (off : Nat) (v : ℚ) : Sfm :=
  { s with parameters_ := s.parameters_.set off v }

/-- The three values `block[0..2]` at offset `off`. -/
def Sfm.vec3At (s : Sfm) (off : Nat) : Vec3 := (s.param off, s.param (off + 1), s.param (off + 2))

/-- The three writes `block[0..2] = v` at offset `off`. -/
def Sfm.setVec3At (s : Sfm) (off : Nat) (v : Vec3) : Sfm :=
  ((s.setParam off v.1).setParam (off + 1) v.2.1).setParam (off + 2) v.2.2

/-- The rotation vector `camera[0..2]` of camera `i`. -/
def Sfm.camR (s : Sfm) (i : Nat) : Vec3 := s.vec3At (cameraBlockPtr s i)

/-- The translation `camera[3..5]` of camera `i`. -/
def Sfm.camT (s : Sfm) (i : Nat) : Vec3 := s.vec3At (cameraBlockPtr s i + 3)

/-- The coordinates `point[0..2]` of point `i`. -/
def Sfm.pt (s : Sfm) (i : Nat) : Vec3 := s.vec3At (pointBlockPtr s i)

/-- The three writes `pt[0..2] = v` for point `i`. -/
def Sfm.setPt (s : Sfm) (i : Nat) (v : Vec3) : Sfm := s.setVec3At (pointBlockPtr s i) v

/-- The read `cam_pose_optim_iter_[i]`. -/
def Sfm.camStatus (s : Sfm) (i : Nat) : Int := s.cam_pose_optim_iter_.getD i 0

/-- The read `pts_optim_iter_[i]`. -/
def Sfm.ptStatus (s : Sfm) (i : Nat) : Int := s.pts_optim_iter_.getD i 0

/-- The write `cam_pose_optim_iter_[i] = v`. -/
def Sfm.setCamStatus (s : Sfm) (i : Nat) (v : Int) : Sfm :=
  { s with cam_pose_optim_iter_ := s.cam_pose_optim_iter_.set i v }

/-- The write `pts_optim_iter_[i] = v`. -/
def Sfm.setPtStatus (s : Sfm) (i : Nat) (v : Int) : Sfm :=
  { s with pts_optim_iter_ := s.pts_optim_iter_.set i v }

/-- The observation `(observations_[2*i], observations_[2*i + 1])`. -/
def Sfm.obs (s : Sfm) (i : Nat) : Point2d :=
  (s.observations_.getD (2 * i) 0, s.observations_.getD (2 * i + 1) 0)

/-- The map `cam_observation_[i]`. -/
def Sfm.camObs (s : Sfm) (i : Nat) : IntMap := s.cam_observation_.getD i []

/-- The call `initCamParams(new_pose_idx, r_vec, t_vec)` (lines 1116-1126). -/
def initCamParams (s : Sfm) (new_pose_idx : Nat) (r_vec t_vec : Vec3) : Sfm :=
  (s.setVec3At (cameraBlockPtr s new_pose_idx) r_vec).setVec3At
    (cameraBlockPtr s new_pose_idx + 3) t_vec

/-- The call `checkCheiralityConstraint(pos_idx, pt_idx)` (lines 416-427): the depth of
the stored point in the camera, `p[2] + camera[5]`, is compared with 0. -/
def checkCheiralityConstraint (ext : Ext) (s : Sfm) (pos_idx pt_idx : Nat) : Bool :=
  decide ((ext.AngleAxisRotatePoint (s.camR pos_idx) (s.pt pt_idx)).2.2 + (s.camT pos_idx).2.2 > 0)

/-! ## `BasicSfM::incrementalReconstruction`: reset and seed validation -/

/-- The call `v.resize(n, val)` of `std::vector`: the first `n` elements are kept, and
only the elements added beyond the old size are set to `val`. -/
def vectorResize {α : Type} (v : List α) (n : Nat) (val : α) : List α :=
  v.take n ++ List.replicate (n - v.length) val

/-- The call `memset(v.data(), 0, k * sizeof(double))`: the first `k` values become 0. -/
def memsetZero (v : List ℚ) (k : Nat) : List ℚ :=
  List.replicate (min k v.length) 0 ++ v.drop k

/-- Lines 529-533 of `incrementalReconstruction`: what the function does to the object
before it looks at the seed pair. -/
def resetForSeed (s : Sfm) : Sfm :=
  { s with
    parameters_ := memsetZero s.parameters_ s.num_parameters_
    cam_pose_optim_iter_ := vectorResize s.cam_pose_optim_iter_ s.num_cam_poses_ 0
    pts_optim_iter_ := vectorResize s.pts_optim_iter_ s.num_points_ 0 }

/-- The entries of `cam_observation_[idx0]` whose point is also seen by camera `idx1`, in
iteration order (the test of lines 545 and 661). -/
def sharedEntries (s : Sfm) (idx0 idx1 : Nat) : List (Nat × Nat) :=
  (s.camObs idx0).filter (fun co_iter => ((s.camObs idx1).find co_iter.1).isSome)

/-- Lines 543-551: the vector `points0`. -/
def seedPoints0 (s : Sfm) (idx0 idx1 : Nat) : List Point2d :=
  (sharedEntries s idx0 idx1).map (fun co_iter => s.obs co_iter.2)

/-- Lines 543-551: the vector `points1`. -/
def seedPoints1 (s : Sfm) (idx0 idx1 : Nat) : List Point2d :=
  (sharedEntries s idx0 idx1).map (fun co_iter => s.obs ((s.camObs idx1).lookup co_iter.1))

/-- The call `cv::countNonZero` on an inlier mask. -/
def countNonZero (mask : List Nat) : Int := ((mask.filter (fun b => b ≠ 0)).length : Int)

/-- What the seed validation hands to the initialisation. -/
structure SeedPose where
  points0 : List Point2d
  points1 : List Point2d
  inlier_mask_E : List Nat
  init_r_mat : Mat33
  init_t_vec : Vec3
deriving DecidableEq, Repr

/-- Lines 539-611 of `incrementalReconstruction`: the matches, the two models and the three
tests. `none` is `return false`. -/
def validateSeed (ext : Ext) (s : Sfm) (seed_pair_idx0 seed_pair_idx1 : Nat) : Option SeedPose :=
  let points0 := seedPoints0 s seed_pair_idx0 seed_pair_idx1
  let points1 := seedPoints1 s seed_pair_idx0 seed_pair_idx1
  let em := ext.findEssentialMat points0 points1
  let inlier_mask_H := ext.findHomography points0 points1
  let num_inliers_E := countNonZero em.2
  let num_inliers_H := countNonZero inlier_mask_H
  if num_inliers_E ≤ num_inliers_H then none
  else
    let rp := ext.recoverPose em.1 points0 points1 em.2
    let num_good_pts := rp.1
    let init_t_vec := rp.2.2.1
    if num_good_pts < 10 then none
    else
      let tx := |init_t_vec.1|
      let ty := |init_t_vec.2.1|
      let tz := |init_t_vec.2.2|
      let lateral_motion := ext.sqrt (tx * tx + ty * ty)
      if tz > lateral_motion then none
      else
        some { points0 := points0, points1 := points1, inlier_mask_E := rp.2.2.2,
               init_r_mat := rp.2.1, init_t_vec := init_t_vec }

/-! ## `BasicSfM::incrementalReconstruction`: two-view initialisation -/

/-- The value `cv::norm(a - b)` of two `cv::Point2d`. -/
def norm2d (ext : Ext) (a b : Point2d) : ℚ :=
  ext.sqrt ((a.1 - b.1) * (a.1 - b.1) + (a.2 - b.2) * (a.2 - b.2))

/-- The point `(h[0]/h[3], h[1]/h[3], h[2]/h[3])` of a homogeneous column. -/
def hNormalize (h : Vec4) : Vec3 := (h.1 / h.2.2.2, h.2.1 / h.2.2.2, h.2.2.1 / h.2.2.2)

/-- Lines 659-693: the body of the loop over `cam_observation_[ref_cam_pose_idx]`, for the
entry `co_iter`; the state is the object and the counter `r`. The counter is advanced for
every entry of the map (line 693 is outside the test of line 661). -/
def initPointStep (ext : Ext) (new_cam_pose_idx : Nat) (sp : SeedPose) (hpoints4D : List Vec4)
    (acc : Sfm × Nat) (co_iter : Nat × Nat) : Sfm × Nat :=
  let s := acc.1
  let r := acc.2
  let pt_idx := co_iter.1
  let s' :=
    if ((s.camObs new_cam_pose_idx).find pt_idx).isSome then
      if sp.inlier_mask_E.getD r 0 ≠ 0 then
        let s1 := s.setPt pt_idx (hNormalize (hpoints4D.getD r (0, 0, 0, 0)))
        let pt := s1.pt pt_idx
        if pt.2.2 > 0 then
          let pt_3d := (sp.init_r_mat.mulVec pt).add sp.init_t_vec
          let p0 : Point2d := (pt.1 / pt.2.2, pt.2.1 / pt.2.2)
          let p1 : Point2d := (pt_3d.1 / pt_3d.2.2, pt_3d.2.1 / pt_3d.2.2)
          if norm2d ext p0 (sp.points0.getD r (0, 0)) < s.max_reproj_err_ ∧
              norm2d ext p1 (sp.points1.getD r (0, 0)) < s.max_reproj_err_ then
            s1.setPtStatus pt_idx 1
          else s1.setPtStatus pt_idx (-1)
        else s1
      else s
    else s
  (s', r + 1)

/-- Lines 620-694 of `incrementalReconstruction`: the two seed cameras are registered,
their poses stored, the matches triangulated and the points initialised. -/
def twoViewInit (ext : Ext) (s : Sfm) (ref_cam_pose_idx new_cam_pose_idx : Nat) (sp : SeedPose) :
    Sfm :=
  let s1 := (s.setCamStatus new_cam_pose_idx 1).setCamStatus ref_cam_pose_idx 1
  let r_vec := ext.Rodrigues sp.init_r_mat
  let s2 := initCamParams s1 ref_cam_pose_idx (0, 0, 0) (0, 0, 0)
  let s3 := initCamParams s2 new_cam_pose_idx r_vec sp.init_t_vec
  let proj_mat0 : Mat34 := (Mat33.eye, (0, 0, 0))
  let proj_mat1 : Mat34 := (sp.init_r_mat, sp.init_t_vec)
  let hpoints4D := ext.triangulatePoints proj_mat0 proj_mat1 sp.points0 sp.points1
  ((s3.camObs ref_cam_pose_idx).foldl (initPointStep ext new_cam_pose_idx sp hpoints4D) (s3, 0)).1

/-! ## `BasicSfM::bundleAdjustmentIter` and `BasicSfM::rejectOuliers` -/

/-- Lines 1148-1192 of `bundleAdjustmentIter`: the problem handed to the solver. -/
def buildProblem (s : Sfm) : Problem :=
  (List.range s.num_observations_).foldl
    (fun problem i_obs =>
      let cam := s.cam_pose_index_.getD i_obs 0
      let pt := s.point_index_.getD i_obs 0
      if s.camStatus cam > 0 ∧ s.ptStatus pt > 0 then
        { residual_blocks :=
            problem.residual_blocks ++
              [{ camera := cam, point := pt, observed_x := (s.obs i_obs).1,
                 observed_y := (s.obs i_obs).2 }]
          constant_cameras :=
            if cam = 0 then problem.constant_cameras ++ [cam] else problem.constant_cameras }
      else problem)
    { residual_blocks := [], constant_cameras := [] }

/-- Lines 1198-1209 of `bundleAdjustmentIter`: the cheirality check over the observations;
returns the object and `n_cheirality_violation`. -/
def cheiralityPass (ext : Ext) (s : Sfm) : Sfm × Int :=
  (List.range s.num_observations_).foldl
    (fun acc i_obs =>
      let cam := acc.1.cam_pose_index_.getD i_obs 0
      let pt := acc.1.point_index_.getD i_obs 0
      if acc.1.camStatus cam > 0 ∧ acc.1.ptStatus pt = 1 ∧
          checkCheiralityConstraint ext acc.1 cam pt = false then
        (acc.1.setPtStatus pt (acc.1.ptStatus pt - 2), acc.2 + 1)
      else acc)
    (s, 0)

/-- Lines 1229-1261: `rejectOuliers`; returns the object and `num_ouliers`. -/
def rejectOuliers (ext : Ext) (s : Sfm) : Sfm × Int :=
  (List.range s.num_observations_).foldl
    (fun acc i_obs =>
      let cam := acc.1.cam_pose_index_.getD i_obs 0
      let pt := acc.1.point_index_.getD i_obs 0
      if acc.1.camStatus cam > 0 ∧ acc.1.ptStatus pt > 0 then
        let p := (ext.AngleAxisRotatePoint (acc.1.camR cam) (acc.1.pt pt)).add (acc.1.camT cam)
        let predicted_x := p.1 / p.2.2
        let predicted_y := p.2.1 / p.2.2
        if |predicted_x - (acc.1.obs i_obs).1| > acc.1.max_reproj_err_ ∨
            |predicted_y - (acc.1.obs i_obs).2| > acc.1.max_reproj_err_ then
          (acc.1.setPtStatus pt (acc.1.ptStatus pt - 2), acc.2 + 1)
        else acc
      else acc)
    (s, 0)

/-- Lines 1141-1224: the loop `while (keep_optimize)` of `bundleAdjustmentIter`, at most
`fuel` rounds; `none` when the rounds run out. -/
def bundleAdjustmentIter (ext : Ext) : Nat → Sfm → Option Sfm
  | 0, _ => none
  | fuel + 1, s =>
    let bck_parameters := s.parameters_
    let problem := buildProblem s
    let s1 := { s with parameters_ := ext.Solve problem (2 * s.max_reproj_err_) s.parameters_ }
    let cp := cheiralityPass ext s1
    if cp.2 > s.max_outliers_ then
      bundleAdjustmentIter ext fuel { cp.1 with parameters_ := bck_parameters }
    else
      let ro := rejectOuliers ext cp.1
      if ro.2 > s.max_outliers_ then
        bundleAdjustmentIter ext fuel { ro.1 with parameters_ := bck_parameters }
      else some ro.1

/-! ## `BasicSfM::incrementalReconstruction`: next best view -/

/-- The natural number nearest to `n / d`, the even one of the two when `n / d` is half
way between them. -/
def roundHalfEven (n d : Nat) : Nat :=
  if 2 * (n % d) < d then n / d
  else if d < 2 * (n % d) then n / d + 1
  else if (n / d) % 2 = 0 then n / d else n / d + 1

/-- The number of binary digits of `n`, for `n ≤ 2 ^ fuel`. -/
def bitLength : Nat → Nat → Nat
  | 0, _ => 0
  | fuel + 1, n => if n = 0 then 0 else bitLength fuel (n / 2) + 1

/-- The binary exponent `e` of the positive rational `n / d`: `2^e ≤ n / d < 2^(e+1)`. -/
def binaryExponent (n d : Nat) : Int :=
  let e0 : Int := (bitLength n n : Int) - (bitLength d d : Int)
  if 0 ≤ e0 then (if n < d * 2 ^ e0.toNat then e0 - 1 else e0)
  else (if n * 2 ^ (-e0).toNat < d then e0 - 1 else e0)

/-- The `double` nearest to `q` (binary64: 53 significant bits, exponents from -1022,
round to nearest, ties to even), as the sum of line 763 is rounded. Infinite results are
not modelled: the sum of a `double` and `1.0` is never infinite. -/
def roundDouble (q : ℚ) : ℚ :=
  if q = 0 then 0
  else
    let n := q.num.natAbs
    let d := q.den
    let e := max (binaryExponent n d) (-1022)
    let a : ℚ :=
      if e ≤ 52 then (roundHalfEven (n * 2 ^ (52 - e).toNat) d : ℚ) / 2 ^ (52 - e).toNat
      else (roundHalfEven n (d * 2 ^ (e - 52).toNat) : ℚ) * 2 ^ (e - 52).toNat
    if q < 0 then -a else a

/-- The conversion `static_cast<int>(q)` to the 32-bit `int`: truncation towards zero.
When the truncated value is not an `int` the conversion is undefined in C++; the compiled
code (the x86-64 instruction `cvttsd2si`) then yields `INT_MIN`, which is what is
returned here. -/
def castInt (q : ℚ) : Int :=
  if -2147483648 ≤ (if 0 ≤ q then ⌊q⌋ else -⌊-q⌋) ∧ (if 0 ≤ q then ⌊q⌋ else -⌊-q⌋) ≤ 2147483647 then
    (if 0 ≤ q then ⌊q⌋ else -⌊-q⌋)
  else -2147483648

/-- Lines 763-768: the grid index `min(max(static_cast<int>(u * K), 0), K - 1)` of a
coordinate `x`, with `u = (x + 1.0) * 0.5`. The sum is rounded to a `double`; the products
by `0.5` and by `K = 1, 2, 4` are exact in binary arithmetic. -/
def gridIndex (x : ℚ) (K : Nat) : Int :=
  min (max (castInt ((roundDouble (x + 1) * (1 / 2)) * (K : ℚ))) 0) ((K : Int) - 1)

/-- Lines 754-774, one level `l`: the grid starts empty; a point that falls in a cell not
yet occupied marks it and adds `K * K` to the score. -/
def levelScore (s : Sfm) (i_c : Nat) (pts : List Nat) (score : ℚ) (l : Nat) : ℚ :=
  let K := 2 ^ l
  (pts.foldl
    (fun (acc : List (Int × Int) × ℚ) pt_idx =>
      let obs_idx := (s.camObs i_c).lookup pt_idx
      let cell := (gridIndex (s.obs obs_idx).1 K, gridIndex (s.obs obs_idx).2 K)
      if cell ∈ acc.1 then acc else (cell :: acc.1, acc.2 + (K : ℚ) * (K : ℚ)))
    ([], score)).2

/-- Lines 744-749: the registered points seen by camera `i_c`. -/
def registeredPointsSeen (s : Sfm) (i_c : Nat) : List Nat :=
  ((s.camObs i_c).filter (fun obs => decide (s.ptStatus obs.1 > 0))).map Prod.fst

/-- Lines 739-776: the entry `scores[i_c]`. -/
def camScore (s : Sfm) (i_c : Nat) : ℚ :=
  if s.camStatus i_c ≠ 0 then -1
  else if (registeredPointsSeen s i_c).isEmpty then -1
  else (List.range 3).foldl (levelScore s i_c (registeredPointsSeen s i_c)) 0

/-- Lines 739-776: the vector `scores`. -/
def camScores (s : Sfm) : List ℚ := (List.range s.num_cam_poses_).map (camScore s)

/-- The index `std::max_element(v.begin(), v.end()) - v.begin()`: the first largest
element. -/
def maxElement (v : List ℚ) : Nat :=
  ((v.drop 1).foldl
    (fun (acc : Nat × ℚ × Nat) x =>
      if acc.2.1 < x then (acc.2.2, x, acc.2.2 + 1) else (acc.1, acc.2.1, acc.2.2 + 1))
    (0, v.getD 0 0, 1)).1

/-- Line 779: the next camera. -/
def nextBestView (s : Sfm) : Nat := maxElement (camScores s)

/-! ## `BasicSfM::incrementalReconstruction`: growth -/

/-- Lines 788-798: the indices of the points pushed to `scene_pts` and `img_pts`. -/
def scenePointIdx (s : Sfm) (new_cam_pose_idx : Nat) : List Nat :=
  (List.range s.num_points_).filter
    (fun i_p => decide (s.ptStatus i_p > 0) && ((s.camObs new_cam_pose_idx).find i_p).isSome)

/-- Lines 823-913: the body of the loop over `cam_observation_[cam_idx]` for the entry
`co_iter`; the state is the object and `n_new_pts`. -/
def growStep (ext : Ext) (new_cam_pose_idx cam_idx : Nat) (acc : Sfm × Int) (co_iter : Nat × Nat) :
    Sfm × Int :=
  let s := acc.1
  let pt_idx := co_iter.1
  if s.ptStatus pt_idx = 0 ∧ ((s.camObs new_cam_pose_idx).find pt_idx).isSome then
    let points0 := [s.obs ((s.camObs new_cam_pose_idx).lookup pt_idx)]
    let points1 := [s.obs co_iter.2]
    let R0 := ext.RodriguesMat (s.camR new_cam_pose_idx)
    let R1 := ext.RodriguesMat (s.camR cam_idx)
    let proj_mat0 : Mat34 := (R0, s.camT new_cam_pose_idx)
    let proj_mat1 : Mat34 := (R1, s.camT cam_idx)
    let hpoints4D := ext.triangulatePoints proj_mat0 proj_mat1 points0 points1
    let xyz := hNormalize (hpoints4D.getD 0 (0, 0, 0, 0))
    let cheirality0 := checkCheiralityConstraint ext s new_cam_pose_idx pt_idx
    let backup := s.pt pt_idx
    let s1 := s.setPt pt_idx xyz
    let cheirality1 := checkCheiralityConstraint ext s1 cam_idx pt_idx
    if cheirality0 = true ∧ cheirality1 = true ∧ xyz.2.2 > 0 then
      ((s1.setPtStatus pt_idx 1).setPt pt_idx xyz, acc.2 + 1)
    else (s1.setPt pt_idx backup, acc.2)
  else acc

/-- Lines 816-916: the loops over the registered cameras and their observations. -/
def growPoints (ext : Ext) (s : Sfm) (new_cam_pose_idx : Nat) : Sfm × Int :=
  (List.range s.num_cam_poses_).foldl
    (fun acc cam_idx =>
      if acc.1.camStatus cam_idx > 0 then
        (acc.1.camObs cam_idx).foldl (growStep ext new_cam_pose_idx cam_idx) acc
      else acc)
    (s, 0)

/-! ## `BasicSfM::incrementalReconstruction`: far points and divergence -/

/-- The value `std::numeric_limits<double>::max()`. -/
def DBL_MAX : ℚ := (2 ^ 53 - 1) * 2 ^ 971

/-- Lines 930-950: `vol_min` and `vol_max` over the translations of the cameras whose
status is not 0. -/
def volBounds (s : Sfm) : Vec3 × Vec3 :=
  (List.range s.num_cam_poses_).foldl
    (fun (acc : Vec3 × Vec3) i_c =>
      if s.camStatus i_c ≠ 0 then
        let t := s.camT i_c
        let vmax : Vec3 :=
          (if t.1 > acc.2.1 then t.1 else acc.2.1, if t.2.1 > acc.2.2.1 then t.2.1 else acc.2.2.1,
            if t.2.2 > acc.2.2.2 then t.2.2 else acc.2.2.2)
        let vmin : Vec3 :=
          (if t.1 < acc.1.1 then t.1 else acc.1.1, if t.2.1 < acc.1.2.1 then t.2.1 else acc.1.2.1,
            if t.2.2 < acc.1.2.2 then t.2.2 else acc.1.2.2)
        (vmin, vmax)
      else acc)
    ((DBL_MAX, DBL_MAX, DBL_MAX), (-DBL_MAX, -DBL_MAX, -DBL_MAX))

/-- The Euclidean norm of a 3-vector, `sqrt(x*x + y*y + z*z)`. -/
def norm3 (ext : Ext) (v : Vec3) : ℚ := ext.sqrt (v.1 * v.1 + v.2.1 * v.2.1 + v.2.2 * v.2.2)

/-- Lines 952-954: `max_dist`. -/
def maxDist (ext : Ext) (s : Sfm) : ℚ :=
  let vb := volBounds s
  let d := 5 * norm3 ext (vb.2.1 - vb.1.1, vb.2.2.1 - vb.1.2.1, vb.2.2.2 - vb.1.2.2)
  if d < 10 then 10 else d

/-- Lines 956-966: registered points with a coordinate beyond `max_dist` become rejected. -/
def farPointFilter (ext : Ext) (s : Sfm) : Sfm :=
  let max_dist := maxDist ext s
  (List.range s.num_points_).foldl
    (fun acc i =>
      if acc.ptStatus i > 0 ∧
          (|(acc.pt i).1| > max_dist ∨ |(acc.pt i).2.1| > max_dist ∨ |(acc.pt i).2.2| > max_dist) then
        acc.setPtStatus i (-1)
      else acc)
    s

/-- Lines 1049-1056: the sum of the distances of the registered points and `valid_points`. -/
def pointDistances (ext : Ext) (s : Sfm) : ℚ × Int :=
  (List.range s.num_points_).foldl
    (fun (acc : ℚ × Int) i =>
      if s.ptStatus i > 0 then (acc.1 + norm3 ext (s.pt i), acc.2 + 1) else acc)
    (0, 0)

/-- Lines 1065-1072: the sum of the distances of the registered cameras and
`valid_cameras`. -/
def cameraDistances (ext : Ext) (s : Sfm) : ℚ × Int :=
  (List.range s.num_cam_poses_).foldl
    (fun (acc : ℚ × Int) i =>
      if s.camStatus i > 0 then (acc.1 + norm3 ext (s.camT i), acc.2 + 1) else acc)
    (0, 0)

/-- Lines 1097-1102: `rejected_points`, the number of points of status `-1`. -/
def rejectedPoints (s : Sfm) : Int :=
  (List.range s.num_points_).foldl (fun (acc : Int) i => if s.ptStatus i = -1 then acc + 1 else acc) 0

/-- Lines 1044-1108: the divergence tests at round `iter`; `true` is `return false`. -/
def diverged (ext : Ext) (s : Sfm) (iter : Nat) : Bool :=
  let pd := pointDistances ext s
  let valid_points := pd.2
  let avg_point_distance := if valid_points > 0 then pd.1 / (valid_points : ℚ) else pd.1
  let cd := cameraDistances ext s
  let valid_cameras := cd.2
  let avg_camera_distance := if valid_cameras > 0 then cd.1 / (valid_cameras : ℚ) else cd.1
  if avg_point_distance > 100 ∨ avg_camera_distance > 100 then true
  else if valid_points < 20 ∧ iter > 3 then true
  else
    let rejected_points := rejectedPoints s
    if rejected_points > 0 ∧ valid_points > 0 ∧
        (rejected_points : ℚ) / ((rejected_points + valid_points : Int) : ℚ) > 1 / 2 then true
    else false

/-! ## `BasicSfM::incrementalReconstruction` -/

/-- Lines 737-810: the next camera is chosen, its pose estimated from the registered
points it sees and the camera registered; returns the camera and the object. `none` is the
`return false` of line 802. -/
def registerNextCamera (ext : Ext) (s : Sfm) : Option (Nat × Sfm) :=
  let new_cam_pose_idx := nextBestView s
  let idx := scenePointIdx s new_cam_pose_idx
  if idx.length ≤ 3 then none
  else
    let scene_pts := idx.map (fun i_p => s.pt i_p)
    let img_pts := idx.map (fun i_p => s.obs ((s.camObs new_cam_pose_idx).lookup i_p))
    let rt := ext.solvePnPRansac scene_pts img_pts s.max_reproj_err_
    some (new_cam_pose_idx,
      (initCamParams s new_cam_pose_idx rt.1 rt.2).setCamStatus new_cam_pose_idx 1)

/-- Lines 701-1110: one round of the loop `for (iter = 1; iter < num_cam_poses_ - 1; iter++)`.
The result `(false, _)` is `return false`, `(true, _)` goes on to the next round, `none`
means that the bundle adjustment ran out of rounds. -/
def growthIter (ext : Ext) (fuel : Nat) (s : Sfm) (iter : Nat) : Option (Bool × Sfm) :=
  match registerNextCamera ext s with
  | none => some (false, s)
  | some (new_cam_pose_idx, s1) =>
    let s2 := (growPoints ext s1 new_cam_pose_idx).1
    match bundleAdjustmentIter ext fuel s2 with
    | none => none
    | some s3 =>
      let s4 := farPointFilter ext s3
      if diverged ext s4 iter then some (false, s4) else some (true, s4)

/-- Lines 700-1113: the loop over `iter` and the final `return true`. -/
def growthLoop (ext : Ext) (fuel : Nat) : List Nat → Sfm → Option (Bool × Sfm)
  | [], s => some (true, s)
  | iter :: rest, s =>
    match growthIter ext fuel s iter with
    | none => none
    | some (false, s') => some (false, s')
    | some (true, s') => growthLoop ext fuel rest s'

/-- Lines 527-694 of `incrementalReconstruction`: reset, seed validation and two-view
initialisation. `none` is `return false`. -/
def seedInit (ext : Ext) (s : Sfm) (seed_pair_idx0 seed_pair_idx1 : Nat) : Option Sfm :=
  match validateSeed ext (resetForSeed s) seed_pair_idx0 seed_pair_idx1 with
  | none => none
  | some sp => some (twoViewInit ext (resetForSeed s) seed_pair_idx0 seed_pair_idx1 sp)

/-- The function `incrementalReconstruction(seed_pair_idx0, seed_pair_idx1)`: the returned
Boolean and the object after the call. Each call of `bundleAdjustmentIter` may run `fuel`
rounds; `none` means that one of them ran out. -/
def incrementalReconstruction (ext : Ext) (fuel : Nat) (s : Sfm)
    (seed_pair_idx0 seed_pair_idx1 : Nat) : Option (Bool × Sfm) :=
  match seedInit ext s seed_pair_idx0 seed_pair_idx1 with
  | none => some (false, resetForSeed s)
  | some s1 =>
    match bundleAdjustmentIter ext fuel s1 with
    | none => none
    | some s2 => growthLoop ext fuel (List.range' 1 (s.num_cam_poses_ - 2)) s2

/-- Lines 527-810 of the call `incrementalReconstruction(idx0, idx1)`: the camera that the
first growth round registers and the object at that moment, before the round triangulates
new points. `none` when the call has returned before. -/
def firstGrowthCamera (ext : Ext) (fuel : Nat) (s : Sfm) (idx0 idx1 : Nat) : Option (Nat × Sfm) :=
  Option.bind (Option.bind (seedInit ext s idx0 idx1) (bundleAdjustmentIter ext fuel))
    (registerNextCamera ext)

/-! ## The values tested by the seed validation -/

/-- The local `num_inliers_E` of the call `incrementalReconstruction(idx0, idx1)`. -/
def numInliersE (ext : Ext) (s : Sfm) (idx0 idx1 : Nat) : Int :=
  countNonZero
    (ext.findEssentialMat (seedPoints0 (resetForSeed s) idx0 idx1)
      (seedPoints1 (resetForSeed s) idx0 idx1)).2

/-- The local `num_inliers_H` of the call `incrementalReconstruction(idx0, idx1)`. -/
def numInliersH (ext : Ext) (s : Sfm) (idx0 idx1 : Nat) : Int :=
  countNonZero
    (ext.findHomography (seedPoints0 (resetForSeed s) idx0 idx1)
      (seedPoints1 (resetForSeed s) idx0 idx1))

/-- What `cv::recoverPose` returns in the call `incrementalReconstruction(idx0, idx1)`. -/
def recoveredPose (ext : Ext) (s : Sfm) (idx0 idx1 : Nat) : Int × Mat33 × Vec3 × List Nat :=
  ext.recoverPose
    (ext.findEssentialMat (seedPoints0 (resetForSeed s) idx0 idx1)
      (seedPoints1 (resetForSeed s) idx0 idx1)).1
    (seedPoints0 (resetForSeed s) idx0 idx1) (seedPoints1 (resetForSeed s) idx0 idx1)
    (ext.findEssentialMat (seedPoints0 (resetForSeed s) idx0 idx1)
      (seedPoints1 (resetForSeed s) idx0 idx1)).2

/-- The local `num_good_pts`. -/
def numGoodPts (ext : Ext) (s : Sfm) (idx0 idx1 : Nat) : Int := (recoveredPose ext s idx0 idx1).1

/-- The local `init_t_vec` after pose recovery. -/
def recoveredT (ext : Ext) (s : Sfm) (idx0 idx1 : Nat) : Vec3 := (recoveredPose ext s idx0 idx1).2.2.1

/-! ## A concrete scene and a concrete behaviour of the libraries -/

/-- The object after `readFromFile` without initial guess: one row
(camera index, point index, x, y) per observation, parameters zeroed, nothing registered.
The thresholds `max_reproj_err_` and `max_outliers_` are members set by the class
declaration. -/
def Sfm.load (nc np : Nat) (rows : List (Nat × Nat × ℚ × ℚ)) (max_reproj_err : ℚ)
    (max_outliers : Int) : Sfm :=
  { num_cam_poses_ := nc, num_points_ := np, num_observations_ := rows.length,
    num_parameters_ := camera_block_size_ * nc + point_block_size_ * np,
    cam_pose_index_ := rows.map (fun row => row.1),
    point_index_ := rows.map (fun row => row.2.1),
    observations_ := rows.flatMap (fun row => [row.2.2.1, row.2.2.2]),
    parameters_ := List.replicate (camera_block_size_ * nc + point_block_size_ * np) 0,
    cam_pose_optim_iter_ := List.replicate nc 0, pts_optim_iter_ := List.replicate np 0,
    cam_observation_ := [], max_reproj_err_ := max_reproj_err, max_outliers_ := max_outliers }

/-- An object holding only observations: `nc` cameras, `np` points and one observation
per entry of `obs` (camera index, point index), every image point at `(0, 0)`. -/
def Sfm.ofObservations (nc np : Nat) (obs : List (Nat × Nat)) : Sfm :=
  Sfm.load nc np (obs.map (fun cp => (cp.1, cp.2, 0, 0))) (1 / 1000) 5

/-! ## Concrete observation sets -/

/-- One camera, one point, and the same (camera, point) pair recorded twice. -/
def repeatedObservation : Sfm := Sfm.ofObservations 1 1 [(0, 0), (0, 0)]

/-- Two cameras and two points; camera 0 sees both points, camera 1 sees point 0, and the
pair (camera 0, point 0) is recorded twice. -/
def fourObservations : Sfm := Sfm.ofObservations 2 2 [(0, 0), (1, 0), (0, 1), (0, 0)]

/-- Two cameras that both see point 0. -/
def twoCamsOnePoint : Sfm := Sfm.ofObservations 2 1 [(0, 0), (1, 0)]

/-- Two cameras that see different points: camera 0 sees point 0, camera 1 sees point 1. -/
def twoCamsNoSharedPoint : Sfm := Sfm.ofObservations 2 2 [(0, 0), (1, 1)]

/-- Three cameras: 1 and 2 share two points, camera 0 shares one point with each. -/
def threeCams : Sfm := Sfm.ofObservations 3 2 [(0, 0), (1, 0), (2, 0), (1, 1), (2, 1)]

/-- A square root on the rationals that is exact on squares. -/
def sqrtQ (q : ℚ) : ℚ := (Nat.sqrt q.num.toNat : ℚ) / (Nat.sqrt q.den : ℚ)

/-- A behaviour of the libraries for two cameras without rotation that differ by a
translation along x (a rectified stereo pair). The essential model keeps every match, the
homography keeps four; the recovered pose is the identity rotation and the translation
`(-1, 0, 0)`; triangulation solves `x1 - x0 = (t1 - t0) / Z` exactly; the pose from
points is the translation that maps the first scene point to its image point; rotation
vectors are 0, so rotating a point returns it; the solver leaves the parameters where
they are. -/
def stereoExt : Ext :=
  { sqrt := sqrtQ
    findEssentialMat := fun points0 _ =>
      (((0, 0, 0), (0, 0, 1), (0, -1, 0)), List.replicate points0.length 1)
    findHomography := fun points0 _ =>
      List.replicate (min 4 points0.length) 1 ++ List.replicate (points0.length - 4) 0
    recoverPose := fun _ _ _ mask => (countNonZero mask, Mat33.eye, (-1, 0, 0), mask)
    Rodrigues := fun _ => (0, 0, 0)
    RodriguesMat := fun _ => Mat33.eye
    triangulatePoints := fun P0 P1 points0 points1 =>
      List.zipWith
        (fun (a b : Point2d) =>
          ((a.1 * (P1.2.1 - P0.2.1) - P0.2.1 * (b.1 - a.1),
            a.2 * (P1.2.1 - P0.2.1) - P0.2.2.1 * (b.1 - a.1), P1.2.1 - P0.2.1, b.1 - a.1) : Vec4))
        points0 points1
    solvePnPRansac := fun scene_pts img_pts _ =>
      match scene_pts, img_pts with
      | P :: _, p :: _ => ((0, 0, 0), (p.1 * P.2.2 - P.1, p.2 * P.2.2 - P.2.1, 0))
      | _, _ => ((0, 0, 0), (0, 0, 0))
    AngleAxisRotatePoint := fun _ p => p
    Solve := fun _ _ parameters => parameters }

/-- Ten scene points in front of both cameras of the stereo pair. -/
def stereoPoints : List Vec3 :=
  [(1, 2, 2), (2, 1, 2), (2, 3, 6), (3, 2, 6), (1, 4, 8), (4, 1, 8), (4, 4, 7), (0, 3, 4),
    (3, 0, 4), (6, 2, 9)]

/-- The observation rows of the stereo pair, the ten points numbered from `first`: camera
0 sits at the origin and sees the point `(X, Y, Z)` at `(X/Z, Y/Z)`, camera 1 has
translation `(-1, 0, 0)` and sees it at `((X-1)/Z, Y/Z)`. -/
def stereoRows (first : Nat) : List (Nat × Nat × ℚ × ℚ) :=
  (List.zip (List.range' first 10) stereoPoints).flatMap
    (fun kp =>
      [(0, kp.1, kp.2.1 / kp.2.2.2, kp.2.2.1 / kp.2.2.2),
       (1, kp.1, (kp.2.1 - 1) / kp.2.2.2, kp.2.2.1 / kp.2.2.2)])

/-- Three cameras and twelve points: cameras 0 and 1 are the stereo pair and see points
0 to 9; camera 2 sees points 10 and 11, which no other camera sees. -/
def isolatedCameraScene : Sfm :=
  Sfm.load 3 12 (stereoRows 0 ++ [(2, 10, 1 / 4, 1 / 4), (2, 11, -1 / 4, 1 / 2)]) (1 / 1000) 5

/-- Three cameras and ten points: cameras 0 and 1 are the stereo pair and see all ten
points; camera 2 has translation `(-2, 0, 0)` and sees points 0 and 1 only. -/
def sparseThirdCameraScene : Sfm :=
  Sfm.load 3 10 (stereoRows 0 ++ [(2, 0, -1 / 2, 1), (2, 1, 0, 1 / 2)]) (1 / 1000) 5

/-- Two cameras and eleven points: point 0 is seen by camera 0 only; points 1 to 10 are
the ten points of the stereo pair, seen by both cameras. -/
def extraPointScene : Sfm :=
  Sfm.load 2 11 ((0, 0, 1 / 10, 1 / 10) :: stereoRows 1) (1 / 1000) 5

/-- The quarter turn about the y axis that maps `(x, y, z)` to `(-z, y, x)`. -/
def quarterTurn : Mat33 := ((0, 0, -1), (0, 1, 0), (1, 0, 0))

/-- A behaviour of the libraries for the stereo pair and a third camera turned by a
quarter turn about the y axis, with translation `(4, 0, 1)`: it sits at `(-1, 0, 4)` and
looks along the x axis. The rotation vector `(0, -11/7, 0)` stands for that quarter turn
(`11/7` is `π/2` to three decimals) and every non-zero rotation vector is read as it.
The pose from points is the pose of the third camera. Triangulation is exact for a
second camera without rotation: the point is `λ d - t1` with `d = (x1, y1, 1)` the ray
of the second image point, and `λ` solves the x coordinate of the first projection. -/
def sideCameraExt : Ext :=
  { stereoExt with
    RodriguesMat := fun v => if v = (0, 0, 0) then Mat33.eye else quarterTurn
    AngleAxisRotatePoint := fun v p => if v = (0, 0, 0) then p else quarterTurn.mulVec p
    solvePnPRansac := fun _ _ _ => ((0, -11 / 7, 0), (4, 0, 1))
    triangulatePoints := fun P0 P1 points0 points1 =>
      List.zipWith
        (fun (p0 p1 : Point2d) =>
          let d : Vec3 := (p1.1, p1.2, 1)
          let a := P0.1.mulVec d
          let Rt1 := P0.1.mulVec P1.2
          let c : Vec3 := (P0.2.1 - Rt1.1, P0.2.2.1 - Rt1.2.1, P0.2.2.2 - Rt1.2.2)
          let num := c.1 - p0.1 * c.2.2
          let den := p0.1 * a.2.2 - a.1
          ((num * d.1 - den * P1.2.1, num * d.2.1 - den * P1.2.2.1, num * d.2.2 - den * P1.2.2.2,
            den) : Vec4))
        points0 points1 }

/-- Three cameras and eleven points: cameras 0 and 1 are the stereo pair and see points 0
to 9; camera 2 is the side camera and sees points 0 to 3 where they project; point 10 is
a wrong match between camera 0, at `(-1/2, 0)`, and camera 2, at `(0, 0)`: the two lines
of sight meet at `(-2, 0, 4)`, behind camera 2. -/
def sideCameraScene : Sfm :=
  Sfm.load 3 11
    (stereoRows 0 ++
      [(2, 0, 1, 1), (2, 1, 2 / 3, 1 / 3), (2, 2, -2 / 3, 1), (2, 3, -1 / 2, 1 / 2),
        (0, 10, -1 / 2, 0), (2, 10, 0, 0)])
    (1 / 1000) 5

/-- The libraries of `stereoExt`, except that pose recovery answers the forward
translation `(0, 0, 5)`. -/
def forwardExt : Ext :=
  { stereoExt with recoverPose := fun _ _ _ mask => (countNonZero mask, Mat33.eye, (0, 0, 5), mask) }

/-! ## Auxiliary definitions for the statements on the next best view -/

/-- Truncation of a rational towards zero, in the words of the specification (`trunc`). -/
def truncQ (q : ℚ) : Int := if 0 ≤ q then ⌊q⌋ else ⌈q⌉

/-- The value `clamp(v, lo, hi)`. -/
def clampInt (v lo hi : Int) : Int := if v < lo then lo else if hi < v then hi else v

/-- The grid cell of an observation `(x, y)` at level `l`, in the words of the
specification: `(clamp(trunc((x+1)/2 * 2^l), 0, 2^l - 1), clamp(trunc((y+1)/2 * 2^l), 0, 2^l - 1))`. -/
def levelCell (l : Nat) (xy : Point2d) : Int × Int :=
  (clampInt (truncQ ((xy.1 + 1) / 2 * 2 ^ l)) 0 (2 ^ l - 1),
   clampInt (truncQ ((xy.2 + 1) / 2 * 2 ^ l)) 0 (2 ^ l - 1))

/-- The distinct grid cells at level `l` occupied by the observations that camera `i_c`
has of registered points. -/
def occupiedCells (s : Sfm) (i_c l : Nat) : Finset (Int × Int) :=
  (registeredPointsSeen s i_c).toFinset.image
    (fun pt_idx => levelCell l (s.obs ((s.camObs i_c).lookup pt_idx)))

/-- The grid indices of the coordinate `x` are computed without rounding and within the
range of `int` at the levels 0, 1 and 2: the sum `x + 1.0` is a `double` and
`|x + 1| * 2`, the size of `u * K` at the finest level, is below `2^31`. -/
def exactCoordinate (x : ℚ) : Prop := roundDouble (x + 1) = x + 1 ∧ |x + 1| * 2 < 2 ^ 31

/-- Three cameras and ten points: cameras 1 and 2 are the stereo pair and see all ten
points; camera 0 sees point 0 at `(x, 0)` and point 1 at `(-1/2, 0)`. -/
def twoObservationScene (x : ℚ) : Sfm :=
  Sfm.load 3 10
    ((stereoRows 0).map (fun row => (row.1 + 1, row.2)) ++ [(0, 0, x, 0), (0, 1, -1 / 2, 0)])
    (1 / 1000) 5

/-- The object of `twoObservationScene x` when the call `incrementalReconstruction(1, 2)`
enters its first growth round: cameras 1 and 2 and the ten points are registered. -/
def twoObservationState (x : ℚ) : Sfm :=
  (Option.bind (seedInit stereoExt (buildCamObservation (twoObservationScene x)) 1 2)
    (bundleAdjustmentIter stereoExt 3)).getD (twoObservationScene x)

/-- The score in the words of the specification: the sum over the levels `l = 0, 1, 2` of
`4^l` times the number of distinct occupied cells. -/
def coverageScore (s : Sfm) (i_c : Nat) : ℚ :=
  ∑ l ∈ Finset.range 3, (4 : ℚ) ^ l * ((occupiedCells s i_c l).card : ℚ)

/-- The object of `sideCameraScene` when the call `incrementalReconstruction(0, 1)` enters
its first growth round: cameras 0 and 1 and points 0 to 9 are registered. -/
def sideCameraSeedState : Sfm :=
  (Option.bind (seedInit sideCameraExt (buildCamObservation sideCameraScene) 0 1)
    (bundleAdjustmentIter sideCameraExt 3)).getD sideCameraScene

/-- The number of pairs `r < c` of cameras that the mask `already_tested_pair` leaves
untested. -/
def untestedCount (n : Nat) (already_tested_pair : MatrixXi) : Nat :=
  ((seedPairs n).filter (fun p => decide (already_tested_pair p.1 p.2 = 0))).length

/-! ## Auxiliary definitions for the statements on the bundle adjustment -/

/-- Lines 1143-1223: one round of the loop of `bundleAdjustmentIter`; returns the object
after the round and the value of `keep_optimize` (`true`: the solve was rejected, the
parameters rolled back and the loop goes on). -/
def bundleAdjustmentRound (ext : Ext) (s : Sfm) : Sfm × Bool :=
  let bck_parameters := s.parameters_
  let problem := buildProblem s
  let s1 := { s with parameters_ := ext.Solve problem (2 * s.max_reproj_err_) s.parameters_ }
  let cp := cheiralityPass ext s1
  if cp.2 > s.max_outliers_ then ({ cp.1 with parameters_ := bck_parameters }, true)
  else
    let ro := rejectOuliers ext cp.1
    if ro.2 > s.max_outliers_ then ({ ro.1 with parameters_ := bck_parameters }, true)
    else (ro.1, false)

/-- The object of one round after the solve and before the checks. -/
def solvedState (ext : Ext) (s : Sfm) : Sfm :=
  { s with parameters_ := ext.Solve (buildProblem s) (2 * s.max_reproj_err_) s.parameters_ }

/-- The test of lines 1201-1203 on observation `i_obs`, apart from the status of its
point: the camera is registered and the stored point fails the cheirality check. -/
def cheiralityFlag (ext : Ext) (s : Sfm) (i_obs : Nat) : Bool :=
  decide (s.camStatus (s.cam_pose_index_.getD i_obs 0) > 0) &&
    !(checkCheiralityConstraint ext s (s.cam_pose_index_.getD i_obs 0)
      (s.point_index_.getD i_obs 0))

/-- The predicted projection of observation `i_obs` (lines 1240-1249). -/
def predictedProjection (ext : Ext) (s : Sfm) (i_obs : Nat) : Point2d :=
  let cam := s.cam_pose_index_.getD i_obs 0
  let pt := s.point_index_.getD i_obs 0
  let p := (ext.AngleAxisRotatePoint (s.camR cam) (s.pt pt)).add (s.camT cam)
  (p.1 / p.2.2, p.2.1 / p.2.2)

/-- The test of lines 1234-1252 on observation `i_obs`, apart from the status of its
point: the camera is registered and the predicted projection is further than
`max_reproj_err_` from the observation on one axis. -/
def outlierFlag (ext : Ext) (s : Sfm) (i_obs : Nat) : Bool :=
  decide (s.camStatus (s.cam_pose_index_.getD i_obs 0) > 0) &&
    decide (|(predictedProjection ext s i_obs).1 - (s.obs i_obs).1| > s.max_reproj_err_ ∨
      |(predictedProjection ext s i_obs).2 - (s.obs i_obs).2| > s.max_reproj_err_)

/-- One step of a pass over the observations that lowers point statuses, on the mask of
point statuses and the counter alone: when observation `i_obs` is flagged and the status of
its point passes the test `ok`, the status is lowered by 2 and the counter advanced. -/
def penaltyStep (ok : Int → Bool) (flag : Nat → Bool) (ptOf : Nat → Nat) (acc : List Int × Int)
    (i_obs : Nat) : List Int × Int :=
  if flag i_obs = true ∧ ok (acc.1.getD (ptOf i_obs) 0) = true then
    (acc.1.set (ptOf i_obs) (acc.1.getD (ptOf i_obs) 0 - 2), acc.2 + 1)
  else acc

/-- The number of entries `> 0` of a mask. -/
def countPositive (mask : List Int) : Nat := (mask.filter (fun x => decide (x > 0))).length

/-- The number of points with status registered. -/
def registeredCount (s : Sfm) : Nat := countPositive s.pts_optim_iter_

/-- The object of `extraPointScene` after the two-view initialisation of the call
`incrementalReconstruction(0, 1)`: points 1 to 9 are registered with the coordinates of
their successors. -/
def misalignedSeedState : Sfm :=
  (seedInit stereoExt (buildCamObservation extraPointScene) 0 1).getD extraPointScene

/-- The object of `isolatedCameraScene` after the two-view initialisation of the call
`incrementalReconstruction(0, 1)`: the ten points of the stereo pair are registered where
they are. -/
def stereoSeedState : Sfm :=
  (seedInit stereoExt (buildCamObservation isolatedCameraScene) 0 1).getD isolatedCameraScene

/-- One camera at the origin without rotation, registered, and one registered point at
`(0, 0, 1)`, observed at `(1/100, 0)`: ten times the threshold `1/1000` away from its
projection `(0, 0)`. -/
def tenTimesOutlierState : Sfm :=
  { Sfm.load 1 1 [(0, 0, 1 / 100, 0)] (1 / 1000) 5 with
    parameters_ := [0, 0, 0, 0, 0, 0, 0, 0, 1]
    cam_pose_optim_iter_ := [1]
    pts_optim_iter_ := [1] }

/-- The cheirality pass on the mask of point statuses: the mask and the counter after the
pass over the observations of `s`. -/
def cheiralityMask (ext : Ext) (s : Sfm) : List Int × Int :=
  (List.range s.num_observations_).foldl
    (penaltyStep (fun st => decide (st = 1)) (cheiralityFlag ext s)
      (fun i => s.point_index_.getD i 0)) (s.pts_optim_iter_, 0)

/-- The outlier pass on the mask of point statuses: the mask and the counter after the
pass over the observations of `s`. -/
def outlierMask (ext : Ext) (s : Sfm) : List Int × Int :=
  (List.range s.num_observations_).foldl
    (penaltyStep (fun st => decide (st > 0)) (outlierFlag ext s)
      (fun i => s.point_index_.getD i 0)) (s.pts_optim_iter_, 0)

/-- The object of `extraPointScene` after the first bundle adjustment of the call
`incrementalReconstruction(0, 1)`. -/
def misalignedAdjustedState : Sfm :=
  (bundleAdjustmentIter stereoExt 3 misalignedSeedState).getD misalignedSeedState

/-- The object of `isolatedCameraScene` after the first bundle adjustment of the call
`incrementalReconstruction(0, 1)`. -/
def stereoAdjustedState : Sfm :=
  (bundleAdjustmentIter stereoExt 3 stereoSeedState).getD stereoSeedState

/-- Three cameras and ten points: cameras 1 and 2 are the stereo pair and see all ten
points; camera 0 sees points 0 and 1 only, so `solve` proposes the pair (1, 2) first. -/
def lateStereoScene : Sfm :=
  Sfm.load 3 10
    ((stereoRows 0).map (fun row => (row.1 + 1, row.2)) ++ [(0, 0, -1 / 2, 1), (0, 1, 0, 1 / 2)])
    (1 / 1000) 5

/-! ## Auxiliary definitions for the statements on the two-view initialisation -/

/-- Lines 670-672: the point written for the counter value `r`, column `r` of `hpoints4D`
after h-normalisation. -/
def triangulatedPoint (hpoints4D : List Vec4) (r : Nat) : Vec3 :=
  hNormalize (hpoints4D.getD r (0, 0, 0, 0))

/-- Lines 678-686: the reprojection test of the point `pt` against the matches
`points0[r]` and `points1[r]`. -/
def reprojectionOk (ext : Ext) (sp : SeedPose) (max_reproj_err : ℚ) (r : Nat) (pt : Vec3) : Bool :=
  decide
    (norm2d ext (pt.1 / pt.2.2, pt.2.1 / pt.2.2) (sp.points0.getD r (0, 0)) < max_reproj_err ∧
      norm2d ext
          (((sp.init_r_mat.mulVec pt).add sp.init_t_vec).1 /
              ((sp.init_r_mat.mulVec pt).add sp.init_t_vec).2.2,
            ((sp.init_r_mat.mulVec pt).add sp.init_t_vec).2.1 /
              ((sp.init_r_mat.mulVec pt).add sp.init_t_vec).2.2)
          (sp.points1.getD r (0, 0)) < max_reproj_err)

/-- Lines 646-654: the matrix `hpoints4D` of the call `cv::triangulatePoints`. -/
def seedTriangulation (ext : Ext) (sp : SeedPose) : List Vec4 :=
  ext.triangulatePoints (Mat33.eye, (0, 0, 0)) (sp.init_r_mat, sp.init_t_vec) sp.points0 sp.points1

/-- The function `twoViewInit` with the loop of lines 658-694 stopped when it reaches the
entry of point `pt_idx`: the value of the counter `r` with which that entry is processed. -/
def counterAtPoint (ext : Ext) (s : Sfm) (ref_cam_pose_idx new_cam_pose_idx : Nat) (sp : SeedPose)
    (pt_idx : Nat) : Nat :=
  let s1 := (s.setCamStatus new_cam_pose_idx 1).setCamStatus ref_cam_pose_idx 1
  let r_vec := ext.Rodrigues sp.init_r_mat
  let s2 := initCamParams s1 ref_cam_pose_idx (0, 0, 0) (0, 0, 0)
  let s3 := initCamParams s2 new_cam_pose_idx r_vec sp.init_t_vec
  let proj_mat0 : Mat34 := (Mat33.eye, (0, 0, 0))
  let proj_mat1 : Mat34 := (sp.init_r_mat, sp.init_t_vec)
  let hpoints4D := ext.triangulatePoints proj_mat0 proj_mat1 sp.points0 sp.points1
  (((s3.camObs ref_cam_pose_idx).takeWhile (fun co_iter => decide (co_iter.1 ≠ pt_idx))).foldl
    (initPointStep ext new_cam_pose_idx sp hpoints4D) (s3, 0)).2

/-- The position of point `pt_idx` in the match lists `points0` and `points1` built at
lines 543-551: the number of matches pushed before its own. -/
def matchPosition (s : Sfm) (idx0 idx1 pt_idx : Nat) : Nat :=
  ((sharedEntries s idx0 idx1).takeWhile (fun co_iter => decide (co_iter.1 ≠ pt_idx))).length

/-- Two cameras and eleven points: the ten points of the stereo pair and point 10, whose
two observations differ by `1/10` in `y`, a hundred times the reprojection threshold. -/
def skewMatchScene : Sfm :=
  Sfm.load 2 11 (stereoRows 0 ++ [(0, 10, 1 / 2, 1 / 4), (1, 10, 1 / 4, 7 / 20)]) (1 / 1000) 5

/-- The object of `skewMatchScene` at the call of `twoViewInit`. -/
def skewResetState : Sfm := resetForSeed (buildCamObservation skewMatchScene)

/-- The seed pose that the validation of the pair (0, 1) of `skewMatchScene` hands on. -/
def skewSeedPose : SeedPose :=
  (validateSeed stereoExt skewResetState 0 1).getD
    { points0 := [], points1 := [], inlier_mask_E := [], init_r_mat := Mat33.eye,
      init_t_vec := (0, 0, 0) }

/-! ## Auxiliary definitions for the statements on the statuses -/

/-- The number of points whose status is registered (`> 0`) in the mask `before` and
rejected (`< 0`) in the mask `after`. -/
def newlyRejected (before after : List Int) : Nat :=
  (List.zip before after).countP (fun ba => decide (ba.1 > 0 ∧ ba.2 < 0))

/-- Every point status is -1, 0 or 1 and every camera status is 0 or 1. -/
def statusesInRange (s : Sfm) : Prop :=
  (∀ x ∈ s.pts_optim_iter_, x = -1 ∨ x = 0 ∨ x = 1) ∧
    ∀ x ∈ s.cam_pose_optim_iter_, x = 0 ∨ x = 1

/-- The operations of the engine that write a status mask or the parameters. -/
inductive EngineOp where
  /-- Lines 620-694: the two-view initialisation for a seed pair and its pose. -/
  | seed (ref_cam_pose_idx new_cam_pose_idx : Nat) (sp : SeedPose)
  /-- Lines 737-810: the registration of the next best view, when it takes place. -/
  | register
  /-- Lines 816-916: the triangulation of new points for camera `new_cam_pose_idx`. -/
  | triangulate (new_cam_pose_idx : Nat)
  /-- Line 1195: the solve. -/
  | solve
  /-- Lines 1198-1209: the cheirality check of the bundle adjustment. -/
  | cheirality
  /-- Lines 1229-1261: the outlier rejection. -/
  | outliers
  /-- A whole call of `bundleAdjustmentIter` of at most `fuel` rounds, when it returns. -/
  | adjust (fuel : Nat)
  /-- Lines 956-966: the far-point filter. -/
  | farPoints

/-- The object after an operation of the engine. -/
def EngineOp.run (ext : Ext) : EngineOp → Sfm → Sfm
  | .seed ref_cam_pose_idx new_cam_pose_idx sp, s =>
    twoViewInit ext s ref_cam_pose_idx new_cam_pose_idx sp
  | .register, s => ((registerNextCamera ext s).map (fun ns => ns.2)).getD s
  | .triangulate new_cam_pose_idx, s => (growPoints ext s new_cam_pose_idx).1
  | .solve, s => solvedState ext s
  | .cheirality, s => (cheiralityPass ext s).1
  | .outliers, s => (rejectOuliers ext s).1
  | .adjust fuel, s => (bundleAdjustmentIter ext fuel s).getD s
  | .farPoints, s => farPointFilter ext s

/-! ## Auxiliary definitions for the statements on the divergence tests -/

/-- Lines 1058-1060: `avg_point_distance` as the tests of line 1084 read it. -/
def avgPointDistance (ext : Ext) (s : Sfm) : ℚ :=
  if (pointDistances ext s).2 > 0 then
    (pointDistances ext s).1 / (((pointDistances ext s).2 : Int) : ℚ)
  else (pointDistances ext s).1

/-- Lines 1074-1076: `avg_camera_distance` as the tests of line 1084 read it. -/
def avgCameraDistance (ext : Ext) (s : Sfm) : ℚ :=
  if (cameraDistances ext s).2 > 0 then
    (cameraDistances ext s).1 / (((cameraDistances ext s).2 : Int) : ℚ)
  else (cameraDistances ext s).1

/-- The number of points `i < num_points_` whose status is registered (`> 0`). -/
def registeredPoints (s : Sfm) : Nat :=
  ((List.range s.num_points_).filter (fun i => decide (s.ptStatus i > 0))).length

/-- The number of points `i < num_points_` whose status is `-1`. -/
def rejectedCount (s : Sfm) : Nat :=
  ((List.range s.num_points_).filter (fun i => decide (s.ptStatus i = -1))).length

/-- The observation rows of three cameras without rotation, at translations `0`,
`(-1, 0, 0)` and `(-2, 0, 0)`: cameras 0 and 1 see every point of `pts`, camera 2 sees the
first four. -/
def threeViewRows (pts : List Vec3) : List (Nat × Nat × ℚ × ℚ) :=
  (List.zip (List.range pts.length) pts).flatMap
      (fun kp =>
        [(0, kp.1, kp.2.1 / kp.2.2.2, kp.2.2.1 / kp.2.2.2),
         (1, kp.1, (kp.2.1 - 1) / kp.2.2.2, kp.2.2.1 / kp.2.2.2)]) ++
    (List.zip (List.range 4) pts).map
      (fun kp => (2, kp.1, (kp.2.1 - 2) / kp.2.2.2, kp.2.2.1 / kp.2.2.2))

/-- The ten points of the stereo pair six times further away: every depth is 12 or more. -/
def farPoints : List Vec3 := stereoPoints.map (fun P => (6 * P.1, 6 * P.2.1, 6 * P.2.2))

/-- Three cameras and the ten far points. -/
def farPointsScene : Sfm := Sfm.load 3 10 (threeViewRows farPoints) (1 / 1000) 5

/-- Three cameras and ten points: the first four points of the stereo pair where they
are, the other six far away. -/
def mixedPointsScene : Sfm :=
  Sfm.load 3 10 (threeViewRows (stereoPoints.take 4 ++ farPoints.drop 4)) (1 / 1000) 5

/-- The object of `mixedPointsScene` when the call `incrementalReconstruction(0, 1)` enters
its first growth round. -/
def mixedSeedState : Sfm :=
  (Option.bind (seedInit stereoExt (buildCamObservation mixedPointsScene) 0 1)
    (bundleAdjustmentIter stereoExt 3)).getD mixedPointsScene

/-- The object of `mixedPointsScene` after the first growth round. -/
def mixedGrownState : Sfm :=
  ((growthIter stereoExt 3 mixedSeedState 1).map (fun r => r.2)).getD mixedSeedState

/-! ## Facts about `std::map` -/

theorem IntMap.find_assign (m : IntMap) (k v q : Nat) :
    (m.assign k v).find q = if q = k then some v else m.find q := by
  induction m with
  | nil =>
    by_cases h : q = k
    · simp [IntMap.assign, IntMap.find, h]
    · have h' : ¬ k = q := fun e => h e.symm
      simp [IntMap.assign, IntMap.find, h, h']
  | cons a rest ih =>
    obtain ⟨k', v'⟩ := a
    unfold IntMap.assign
    by_cases h1 : k < k'
    · by_cases h : q = k
      · simp [h1, IntMap.find, h]
      · have h' : ¬ k = q := fun e => h e.symm
        simp [h1, IntMap.find, h, h']
    · by_cases h2 : k = k'
      · subst h2
        by_cases h : q = k
        · simp [IntMap.find, h]
        · have h' : ¬ k = q := fun e => h e.symm
          simp [IntMap.find, h, h']
      · simp only [h1, h2, if_false, IntMap.find, ih]
        by_cases h3 : k' = q
        · have : ¬ q = k := by omega
          simp [h3, this]
        · simp [h3]

theorem IntMap.find_isSome (m : IntMap) (q : Nat) : (m.find q).isSome = true ↔ q ∈ m.keys := by
  induction m with
  | nil => simp [IntMap.find, IntMap.keys]
  | cons a rest ih =>
    obtain ⟨k', v'⟩ := a
    by_cases h : k' = q
    · simp [IntMap.find, IntMap.keys, h]
    · have h' : ¬ q = k' := fun e => h e.symm
      simp only [IntMap.keys] at ih
      simp [IntMap.find, IntMap.keys, h, h', ih]

theorem IntMap.mem_keys_assign (m : IntMap) (k v x : Nat) (hx : x ∈ (m.assign k v).keys) :
    x = k ∨ x ∈ m.keys := by
  have h := (IntMap.find_isSome (m.assign k v) x).2 hx
  rw [IntMap.find_assign] at h
  by_cases e : x = k
  · exact Or.inl e
  · right
    simp only [e, if_false] at h
    exact (IntMap.find_isSome m x).1 h

theorem IntMap.keys_assign_sorted (m : IntMap) (k v : Nat)
    (hm : m.keys.Pairwise (fun a b => a < b)) :
    (m.assign k v).keys.Pairwise (fun a b => a < b) := by
  induction m with
  | nil => simp [IntMap.assign, IntMap.keys]
  | cons a rest ih =>
    obtain ⟨k', v'⟩ := a
    have hm' : (∀ x ∈ IntMap.keys rest, k' < x) ∧ (IntMap.keys rest).Pairwise (fun a b => a < b) := by
      simpa [IntMap.keys] using hm
    unfold IntMap.assign
    by_cases h1 : k < k'
    · simp only [h1, if_true]
      have : IntMap.keys ((k, v) :: (k', v') :: rest) = k :: k' :: IntMap.keys rest := by
        simp [IntMap.keys]
      rw [this]
      refine List.Pairwise.cons ?_ (List.Pairwise.cons hm'.1 hm'.2)
      intro x hx
      rcases List.mem_cons.1 hx with e | hx
      · omega
      · have := hm'.1 x hx
        omega
    · by_cases h2 : k = k'
      · subst h2
        simp only [lt_irrefl, if_false, if_true]
        have : IntMap.keys ((k, v) :: rest) = k :: IntMap.keys rest := by simp [IntMap.keys]
        rw [this]
        exact List.Pairwise.cons hm'.1 hm'.2
      · simp only [h1, h2, if_false]
        have : IntMap.keys ((k', v') :: IntMap.assign rest k v)
            = k' :: IntMap.keys (IntMap.assign rest k v) := by simp [IntMap.keys]
        rw [this]
        refine List.Pairwise.cons ?_ (ih hm'.2)
        intro x hx
        rcases IntMap.mem_keys_assign rest k v x hx with e | hx
        · omega
        · exact hm'.1 x hx

/-! ## The correspondence index -/

theorem camObservationLoop_succ (s : Sfm) (t : Nat) :
    camObservationLoop s (t + 1)
      = (camObservationLoop s t).set (s.cam_pose_index_.getD t 0)
          (((camObservationLoop s t).getD (s.cam_pose_index_.getD t 0) []).assign
            (s.point_index_.getD t 0) t) := by
  simp [camObservationLoop, List.range_succ, List.foldl_append]

theorem camObservationLoop_length (s : Sfm) (t : Nat) :
    (camObservationLoop s t).length = s.num_cam_poses_ := by
  induction t with
  | zero => simp [camObservationLoop]
  | succ t ih => rw [camObservationLoop_succ, List.length_set, ih]

theorem getD_set_map (co : List IntMap) (i c : Nat) (m : IntMap) (hc : c < co.length) :
    (co.set i m).getD c [] = if i = c then m else co.getD c [] := by
  have h1 : c < (co.set i m).length := by simpa using hc
  rw [List.getD_eq_getElem _ _ h1, List.getD_eq_getElem _ _ hc, List.getElem_set]

theorem camObservationLoop_sorted (s : Sfm) (t c : Nat) :
    ((camObservationLoop s t).getD c []).keys.Pairwise (fun a b => a < b) := by
  induction t generalizing c with
  | zero =>
    have : (List.replicate s.num_cam_poses_ ([] : IntMap)).getD c [] = [] := by
      rw [List.getD_eq_getElem?_getD]
      by_cases h : c < s.num_cam_poses_
      · simp [List.getElem?_replicate, h]
      · simp [List.getElem?_replicate, h]
    simp [camObservationLoop, this, IntMap.keys]
  | succ t ih =>
    rw [camObservationLoop_succ]
    by_cases hc : c < (camObservationLoop s t).length
    · rw [getD_set_map _ _ _ _ hc]
      by_cases e : s.cam_pose_index_.getD t 0 = c
      · simp only [e, if_true]
        exact IntMap.keys_assign_sorted _ _ _ (ih c)
      · simp only [e, if_false]
        exact ih c
    · have : ((camObservationLoop s t).set (s.cam_pose_index_.getD t 0)
          (((camObservationLoop s t).getD (s.cam_pose_index_.getD t 0) []).assign
            (s.point_index_.getD t 0) t)).getD c [] = [] := by
        rw [List.getD_eq_getElem?_getD, List.getElem?_eq_none]
        · rfl
        · simpa using Nat.le_of_not_lt hc
      rw [this]
      simp [IntMap.keys]

theorem camObservationLoop_find (s : Sfm) (t c p : Nat) (hc : c < s.num_cam_poses_) :
    ((camObservationLoop s t).getD c []).find p = lastObservation s t c p := by
  induction t with
  | zero =>
    have : (List.replicate s.num_cam_poses_ ([] : IntMap)).getD c [] = [] := by
      rw [List.getD_eq_getElem?_getD]
      simp [List.getElem?_replicate, hc]
    simp [camObservationLoop, this, IntMap.find, lastObservation]
  | succ t ih =>
    have hlen : c < (camObservationLoop s t).length := by
      rw [camObservationLoop_length]; exact hc
    rw [camObservationLoop_succ, getD_set_map _ _ _ _ hlen]
    unfold lastObservation
    by_cases e : s.cam_pose_index_.getD t 0 = c
    · subst e
      simp only [if_true, true_and, IntMap.find_assign, ih]
      by_cases e2 : p = s.point_index_.getD t 0
      · rw [if_pos e2, if_pos e2.symm]
      · have e3 : ¬ s.point_index_.getD t 0 = p := fun h => e2 h.symm
        rw [if_neg e2, if_neg e3]
    · simp only [e, if_false, false_and, ih]

theorem lastObservation_spec (s : Sfm) (t c p j : Nat) (h : lastObservation s t c p = some j) :
    j < t ∧ s.cam_pose_index_.getD j 0 = c ∧ s.point_index_.getD j 0 = p ∧
      ∀ k, j < k → k < t → ¬ (s.cam_pose_index_.getD k 0 = c ∧ s.point_index_.getD k 0 = p) := by
  induction t with
  | zero => simp [lastObservation] at h
  | succ t ih =>
    unfold lastObservation at h
    by_cases e : s.cam_pose_index_.getD t 0 = c ∧ s.point_index_.getD t 0 = p
    · simp only [e, and_self, if_true, Option.some.injEq] at h
      subst h
      exact ⟨Nat.lt_succ_self _, e.1, e.2, fun k h1 h2 => by omega⟩
    · simp only [e, if_false] at h
      obtain ⟨h1, h2, h3, h4⟩ := ih h
      refine ⟨by omega, h2, h3, ?_⟩
      intro k hk1 hk2
      by_cases ekt : k = t
      · subst ekt; exact e
      · exact h4 k hk1 (by omega)

theorem lastObservation_ge (s : Sfm) (t c p i : Nat) (hi : i < t)
    (hc : s.cam_pose_index_.getD i 0 = c) (hp : s.point_index_.getD i 0 = p) :
    ∃ j, lastObservation s t c p = some j ∧ i ≤ j := by
  induction t with
  | zero => omega
  | succ t ih =>
    unfold lastObservation
    by_cases e : s.cam_pose_index_.getD t 0 = c ∧ s.point_index_.getD t 0 = p
    · exact ⟨t, by rw [if_pos e], by omega⟩
    · have hit : i < t := by
        rcases Nat.lt_or_ge i t with h | h
        · exact h
        · have : i = t := by omega
          subst this
          exact absurd ⟨hc, hp⟩ e
      obtain ⟨j, hj, hij⟩ := ih hit
      exact ⟨j, by rw [if_neg e]; exact hj, hij⟩

/-! ## The nested loops over camera pairs -/

theorem foldl_rows_cols {α β γ : Type} (g : β → α → γ → β) (cols : α → List γ) (b : β)
    (rows : List α) :
    rows.foldl (fun acc r => (cols r).foldl (fun acc c => g acc r c) acc) b
      = (rows.flatMap (fun r => (cols r).map (fun c => (r, c)))).foldl
          (fun acc p => g acc p.1 p.2) b := by
  induction rows generalizing b with
  | nil => rfl
  | cons r rest ih =>
    rw [List.foldl_cons, ih, List.flatMap_cons, List.foldl_append, List.foldl_map]

theorem mem_colRange (n r c : Nat) : c ∈ colRange n r ↔ r < c ∧ c < n := by
  unfold colRange
  rw [List.mem_range']
  constructor
  · rintro ⟨i, hi, rfl⟩
    omega
  · rintro ⟨h1, h2⟩
    exact ⟨c - (r + 1), by omega, by omega⟩

theorem mem_seedPairs (n r c : Nat) : (r, c) ∈ seedPairs n ↔ r < c ∧ c < n := by
  unfold seedPairs
  rw [List.mem_flatMap]
  constructor
  · rintro ⟨a, _, h⟩
    rcases List.mem_map.1 h with ⟨b, hb, e⟩
    have e1 : a = r := congrArg Prod.fst e
    have e2 : b = c := congrArg Prod.snd e
    subst e1; subst e2
    exact (mem_colRange n a b).1 hb
  · rintro ⟨h1, h2⟩
    exact ⟨r, List.mem_range.2 (by omega), List.mem_map.2 ⟨c, (mem_colRange n r c).2 ⟨h1, h2⟩, rfl⟩⟩

/-- Row-major order on pairs. -/
theorem seedPairs_rowMajor (n : Nat) :
    (seedPairs n).Pairwise (fun p q => p.1 < q.1 ∨ (p.1 = q.1 ∧ p.2 < q.2)) := by
  unfold seedPairs
  rw [List.pairwise_flatMap]
  constructor
  · intro r _
    rw [List.pairwise_map]
    have h : (colRange n r).Pairwise (fun a b => a < b) := List.pairwise_lt_range' _ _
    exact h.imp (fun hab => Or.inr ⟨rfl, hab⟩)
  · refine (List.pairwise_lt_range n).imp ?_
    intro a b hab x hx y hy
    rcases List.mem_map.1 hx with ⟨_, _, rfl⟩
    rcases List.mem_map.1 hy with ⟨_, _, rfl⟩
    exact Or.inl hab

/-! ## The count matrix -/

theorem foldl_set_entry (f : Nat × Nat → Int) (l : List (Nat × Nat)) (m : MatrixXi) (r c : Nat) :
    (l.foldl (fun acc p => MatrixXi.set acc p.1 p.2 (f p)) m) r c
      = if (r, c) ∈ l then f (r, c) else m r c := by
  induction l generalizing m with
  | nil => simp
  | cons a rest ih =>
    rw [List.foldl_cons, ih]
    by_cases h : (r, c) ∈ rest
    · simp [h]
    · by_cases e : (r, c) = a
      · subst e
        simp [h, MatrixXi.set]
      · have e' : ¬ (r = a.1 ∧ c = a.2) := by
          rintro ⟨h1, h2⟩
          exact e (Prod.ext h1 h2)
        simp [h, e, MatrixXi.set, e']

theorem corrMatrix_entry (s : Sfm) (r c : Nat) :
    corrMatrix s r c
      = if r < c ∧ c < s.num_cam_poses_ then
          (countShared (s.cam_observation_.getD r []) (s.cam_observation_.getD c []) : Int)
        else 0 := by
  unfold corrMatrix
  rw [foldl_rows_cols (fun (acc : MatrixXi) r c => MatrixXi.set acc r c
    (countShared (s.cam_observation_.getD r []) (s.cam_observation_.getD c [])))]
  have h := foldl_set_entry
    (fun p => (countShared (s.cam_observation_.getD p.1 []) (s.cam_observation_.getD p.2 []) : Int))
    (seedPairs s.num_cam_poses_) MatrixXi.Zero r c
  unfold seedPairs at h
  rw [h]
  have hm := mem_seedPairs s.num_cam_poses_ r c
  unfold seedPairs at hm
  by_cases hrc : r < c ∧ c < s.num_cam_poses_
  · rw [if_pos (hm.2 hrc), if_pos hrc]
  · rw [if_neg (fun hh => hrc (hm.1 hh)), if_neg hrc]
    rfl

theorem corrMatrix_nonneg (s : Sfm) (r c : Nat) : 0 ≤ corrMatrix s r c := by
  rw [corrMatrix_entry]
  split
  · exact Int.natCast_nonneg _
  · exact le_refl _

theorem countShared_aux (mc : IntMap) (mr : IntMap) (k : Nat) :
    mr.foldl (fun nc co_iter => if (mc.find co_iter.1).isSome then nc + 1 else nc) k
      = k + (mr.keys.filter (fun q => (mc.find q).isSome)).length := by
  induction mr generalizing k with
  | nil => simp [IntMap.keys]
  | cons a rest ih =>
    rw [List.foldl_cons, ih]
    by_cases h : (mc.find a.1).isSome = true
    · have hk : IntMap.keys (a :: rest) = a.1 :: IntMap.keys rest := by simp [IntMap.keys]
      rw [hk, List.filter_cons_of_pos (by simpa using h), if_pos h, List.length_cons]
      omega
    · have hk : IntMap.keys (a :: rest) = a.1 :: IntMap.keys rest := by simp [IntMap.keys]
      rw [hk, List.filter_cons_of_neg (by simpa using h), if_neg h]

theorem countShared_eq_filter (mr mc : IntMap) :
    countShared mr mc = (mr.keys.filter (fun q => (mc.find q).isSome)).length := by
  unfold countShared
  rw [countShared_aux]
  omega

theorem countShared_eq_card (mr mc : IntMap) (hr : mr.keys.Pairwise (fun a b => a < b)) :
    countShared mr mc = (mr.keys.toFinset ∩ mc.keys.toFinset).card := by
  rw [countShared_eq_filter]
  have hnd : mr.keys.Nodup := hr.imp (fun h => Nat.ne_of_lt h)
  have hnd' : (mr.keys.filter (fun q => (mc.find q).isSome)).Nodup := hnd.filter _
  rw [← List.toFinset_card_of_nodup hnd']
  congr 1
  ext x
  simp only [List.mem_toFinset, List.mem_filter, Finset.mem_inter, IntMap.find_isSome]

theorem countShared_comm (mr mc : IntMap) (hr : mr.keys.Pairwise (fun a b => a < b))
    (hc : mc.keys.Pairwise (fun a b => a < b)) : countShared mr mc = countShared mc mr := by
  rw [countShared_eq_card mr mc hr, countShared_eq_card mc mr hc, Finset.inter_comm]

/-! ## The seed search -/

theorem seedScan_flat (n : Nat) (corr tested : MatrixXi) (idx0 idx1 : Nat) :
    seedScan n corr tested idx0 idx1
      = (seedPairs n).foldl (fun sc p => seedStep corr tested sc p.1 p.2)
          { max_corr := -1, seed_pair_idx0 := idx0, seed_pair_idx1 := idx1 } := by
  unfold seedScan seedPairs
  rw [foldl_rows_cols (fun sc r c => seedStep corr tested sc r c)]

theorem seedFold_spec (corr tested : MatrixXi) (l : List (Nat × Nat)) (s0 : SeedScan) :
    (l.foldl (fun sc p => seedStep corr tested sc p.1 p.2) s0 = s0 ∧
        ∀ q ∈ l, tested q.1 q.2 = 0 → corr q.1 q.2 ≤ s0.max_corr) ∨
      ∃ l1 p l2, l = l1 ++ p :: l2 ∧ tested p.1 p.2 = 0 ∧
        l.foldl (fun sc p => seedStep corr tested sc p.1 p.2) s0
          = { max_corr := corr p.1 p.2, seed_pair_idx0 := p.1, seed_pair_idx1 := p.2 } ∧
        s0.max_corr < corr p.1 p.2 ∧
        (∀ q ∈ l1, tested q.1 q.2 = 0 → corr q.1 q.2 < corr p.1 p.2) ∧
        (∀ q ∈ l2, tested q.1 q.2 = 0 → corr q.1 q.2 ≤ corr p.1 p.2) := by
  induction l generalizing s0 with
  | nil => left; simp
  | cons a t ih =>
    rw [List.foldl_cons]
    by_cases hstep : tested a.1 a.2 = 0 ∧ corr a.1 a.2 > s0.max_corr
    · have hs : seedStep corr tested s0 a.1 a.2
          = { max_corr := corr a.1 a.2, seed_pair_idx0 := a.1, seed_pair_idx1 := a.2 } := by
        unfold seedStep; rw [if_pos hstep]
      rw [hs]
      rcases ih { max_corr := corr a.1 a.2, seed_pair_idx0 := a.1, seed_pair_idx1 := a.2 } with
        ⟨h1, h2⟩ | ⟨l1, p, l2, e, hp, hres, hgt, hl1, hl2⟩
      · right
        exact ⟨[], a, t, rfl, hstep.1, h1, hstep.2, by simp, h2⟩
      · right
        refine ⟨a :: l1, p, l2, by rw [e]; rfl, hp, hres, lt_trans hstep.2 hgt, ?_, hl2⟩
        intro q hq hq0
        rcases List.mem_cons.1 hq with e1 | hq
        · subst e1; exact hgt
        · exact hl1 q hq hq0
    · have hs : seedStep corr tested s0 a.1 a.2 = s0 := by
        unfold seedStep; rw [if_neg hstep]
      rw [hs]
      have ha : tested a.1 a.2 = 0 → corr a.1 a.2 ≤ s0.max_corr := by
        intro h0
        by_contra hlt
        exact hstep ⟨h0, lt_of_not_ge hlt⟩
      rcases ih s0 with ⟨h1, h2⟩ | ⟨l1, p, l2, e, hp, hres, hgt, hl1, hl2⟩
      · left
        refine ⟨h1, ?_⟩
        intro q hq hq0
        rcases List.mem_cons.1 hq with e1 | hq
        · subst e1; exact ha hq0
        · exact h2 q hq hq0
      · right
        refine ⟨a :: l1, p, l2, by rw [e]; rfl, hp, hres, hgt, ?_, hl2⟩
        intro q hq hq0
        rcases List.mem_cons.1 hq with e1 | hq
        · subst e1; exact lt_of_le_of_lt (ha hq0) hgt
        · exact hl1 q hq hq0

theorem seedScan_none_iff (n : Nat) (corr tested : MatrixXi) (idx0 idx1 : Nat)
    (hcorr : ∀ r c, 0 ≤ corr r c) :
    (seedScan n corr tested idx0 idx1).max_corr < 0
      ↔ ∀ r c, r < c → c < n → tested r c ≠ 0 := by
  rw [seedScan_flat]
  rcases seedFold_spec corr tested (seedPairs n)
      { max_corr := -1, seed_pair_idx0 := idx0, seed_pair_idx1 := idx1 } with
    ⟨h1, h2⟩ | ⟨l1, p, l2, e, hp, hres, _, _, _⟩
  · rw [h1]
    constructor
    · intro _ r c hrc hcn h0
      have := h2 (r, c) ((mem_seedPairs n r c).2 ⟨hrc, hcn⟩) h0
      have := hcorr r c
      simp only at *
      omega
    · intro _
      show (-1 : Int) < 0
      omega
  · rw [hres]
    constructor
    · intro hneg
      have := hcorr p.1 p.2
      simp only at hneg
      omega
    · intro hall
      have hmem : (p.1, p.2) ∈ seedPairs n := by
        rw [e]; simp
      have := (mem_seedPairs n p.1 p.2).1 hmem
      exact absurd hp (hall p.1 p.2 this.1 this.2)

theorem seedScan_best (n : Nat) (corr tested : MatrixXi) (idx0 idx1 : Nat)
    (hcorr : ∀ r c, 0 ≤ corr r c) (hex : ∃ r c, r < c ∧ c < n ∧ tested r c = 0) :
    (seedScan n corr tested idx0 idx1).seed_pair_idx0
        < (seedScan n corr tested idx0 idx1).seed_pair_idx1 ∧
      (seedScan n corr tested idx0 idx1).seed_pair_idx1 < n ∧
      tested (seedScan n corr tested idx0 idx1).seed_pair_idx0
        (seedScan n corr tested idx0 idx1).seed_pair_idx1 = 0 ∧
      (seedScan n corr tested idx0 idx1).max_corr
        = corr (seedScan n corr tested idx0 idx1).seed_pair_idx0
            (seedScan n corr tested idx0 idx1).seed_pair_idx1 ∧
      ∀ r c, r < c → c < n → tested r c = 0 →
        corr r c ≤ (seedScan n corr tested idx0 idx1).max_corr ∧
        (corr r c = (seedScan n corr tested idx0 idx1).max_corr →
          (seedScan n corr tested idx0 idx1).seed_pair_idx0 < r ∨
          ((seedScan n corr tested idx0 idx1).seed_pair_idx0 = r ∧
            (seedScan n corr tested idx0 idx1).seed_pair_idx1 ≤ c)) := by
  rw [seedScan_flat]
  rcases seedFold_spec corr tested (seedPairs n)
      { max_corr := -1, seed_pair_idx0 := idx0, seed_pair_idx1 := idx1 } with
    ⟨_, h2⟩ | ⟨l1, p, l2, e, hp, hres, _, hl1, hl2⟩
  · obtain ⟨r, c, hrc, hcn, h0⟩ := hex
    have := h2 (r, c) ((mem_seedPairs n r c).2 ⟨hrc, hcn⟩) h0
    have := hcorr r c
    simp only at *
    omega
  · rw [hres]
    have hmem : (p.1, p.2) ∈ seedPairs n := by
      rw [e]; simp
    have hpn := (mem_seedPairs n p.1 p.2).1 hmem
    have hpw := seedPairs_rowMajor n
    rw [e, List.pairwise_append] at hpw
    have hafter := (List.pairwise_cons.1 hpw.2.1).1
    refine ⟨hpn.1, hpn.2, hp, rfl, ?_⟩
    intro r c hrc hcn h0
    have hq : (r, c) ∈ l1 ++ p :: l2 := by
      rw [← e]; exact (mem_seedPairs n r c).2 ⟨hrc, hcn⟩
    rcases List.mem_append.1 hq with hq1 | hq2
    · have := hl1 (r, c) hq1 h0
      exact ⟨le_of_lt this, fun heq => absurd heq (ne_of_lt this)⟩
    · rcases List.mem_cons.1 hq2 with e1 | hq3
      · refine ⟨by rw [← e1], fun _ => Or.inr ?_⟩
        rw [← e1]
        exact ⟨rfl, le_refl _⟩
      · refine ⟨hl2 (r, c) hq3 h0, fun _ => ?_⟩
        rcases hafter (r, c) hq3 with h | ⟨h1, h2⟩
        · exact Or.inl h
        · exact Or.inr ⟨h1, le_of_lt h2⟩

/-! ## Claims on `solve` -/

/-- Outside the valid observation sets: with the pair (camera 0, point 0) recorded by
observations 0 and 1, the index built by `solve` answers 1 for it, so for observation
`i = 0` the lookup `cam_observation_[0][0]` is not `i`. -/
theorem repeated_pair_keeps_last :
    repeatedObservation.cam_pose_index_.getD 0 0 = 0 ∧
      repeatedObservation.point_index_.getD 0 0 = 0 ∧
      0 < repeatedObservation.num_observations_ ∧
      ((buildCamObservation repeatedObservation).cam_observation_.getD 0 []).find 0 = some 1 ∧
      ((buildCamObservation repeatedObservation).cam_observation_.getD 0 []).lookup 0 ≠ 0 := by
  decide

/-- After `solve` builds the correspondence index, for every observation
index `i` whose camera index is a camera of the problem, the lookup
`cam_observation_[c][p]` for its camera `c` and point `p` is the index `j` of the last
observation that records the pair `(c, p)`; it is `i` itself when no later observation
records the same pair. -/
theorem index_holds_last_observation (s : Sfm) (i : Nat) (hi : i < s.num_observations_)
    (hc : s.cam_pose_index_.getD i 0 < s.num_cam_poses_) :
    ∃ j,
      ((buildCamObservation s).cam_observation_.getD (s.cam_pose_index_.getD i 0) []).find
          (s.point_index_.getD i 0) = some j ∧
      i ≤ j ∧ j < s.num_observations_ ∧
      s.cam_pose_index_.getD j 0 = s.cam_pose_index_.getD i 0 ∧
      s.point_index_.getD j 0 = s.point_index_.getD i 0 ∧
      (∀ k, j < k → k < s.num_observations_ →
        ¬ (s.cam_pose_index_.getD k 0 = s.cam_pose_index_.getD i 0 ∧
            s.point_index_.getD k 0 = s.point_index_.getD i 0)) ∧
      ((∀ k, i < k → k < s.num_observations_ →
        ¬ (s.cam_pose_index_.getD k 0 = s.cam_pose_index_.getD i 0 ∧
            s.point_index_.getD k 0 = s.point_index_.getD i 0)) → j = i) := by
  obtain ⟨j, hj, hij⟩ := lastObservation_ge s s.num_observations_ _ _ i hi rfl rfl
  obtain ⟨h1, h2, h3, h4⟩ := lastObservation_spec s _ _ _ j hj
  refine ⟨j, ?_, hij, h1, h2, h3, h4, ?_⟩
  · show ((camObservationLoop s s.num_observations_).getD _ []).find _ = some j
    rw [camObservationLoop_find s _ _ _ hc, hj]
  · intro hno
    by_contra hne
    exact hno j (by omega) h1 ⟨h2, h3⟩

/-- Observation 1 of `fourObservations` (camera 1, point 0) is recorded once, and the
index answers 1 for it. -/
theorem index_holds_last_observation_example :
    1 < fourObservations.num_observations_ ∧
      fourObservations.cam_pose_index_.getD 1 0 < fourObservations.num_cam_poses_ ∧
      ∃ j,
        ((buildCamObservation fourObservations).cam_observation_.getD
            (fourObservations.cam_pose_index_.getD 1 0) []).find
            (fourObservations.point_index_.getD 1 0) = some j ∧
        1 ≤ j ∧ j < fourObservations.num_observations_ ∧
        fourObservations.cam_pose_index_.getD j 0 = fourObservations.cam_pose_index_.getD 1 0 ∧
        fourObservations.point_index_.getD j 0 = fourObservations.point_index_.getD 1 0 ∧
        (∀ k, j < k → k < fourObservations.num_observations_ →
          ¬ (fourObservations.cam_pose_index_.getD k 0 = fourObservations.cam_pose_index_.getD 1 0 ∧
              fourObservations.point_index_.getD k 0 = fourObservations.point_index_.getD 1 0)) ∧
        ((∀ k, 1 < k → k < fourObservations.num_observations_ →
          ¬ (fourObservations.cam_pose_index_.getD k 0 = fourObservations.cam_pose_index_.getD 1 0 ∧
              fourObservations.point_index_.getD k 0 = fourObservations.point_index_.getD 1 0)) →
          j = 1) :=
  ⟨by decide, by decide, index_holds_last_observation fourObservations 1 (by decide) (by decide)⟩

/-- Claim C2. For a valid observation set (every camera index is a camera of the problem
and no (camera, point) pair is recorded twice), after `solve` builds the correspondence
index, for every observation index `i < num_observations_` with camera
`c = cam_pose_index_[i]` and point `p = point_index_[i]`, the map `cam_observation_[c]`
holds the key `p` and the lookup `cam_observation_[c][p]` equals `i`. -/
theorem C2_lookup_returns_observation_index (s : Sfm) (hvalid : validObservations s) (i : Nat)
    (hi : i < s.num_observations_) :
    ((buildCamObservation s).cam_observation_.getD (s.cam_pose_index_.getD i 0) []).find
        (s.point_index_.getD i 0) = some i ∧
      ((buildCamObservation s).cam_observation_.getD (s.cam_pose_index_.getD i 0) []).lookup
        (s.point_index_.getD i 0) = i := by
  obtain ⟨j, hfind, hij, hj, hcj, hpj, _, _⟩ :=
    index_holds_last_observation s i hi (hvalid.1 i hi)
  have hji : j = i := by
    by_contra hne
    exact hvalid.2 j hj i (by omega) ⟨hcj, hpj⟩
  rw [hji] at hfind
  refine ⟨hfind, ?_⟩
  unfold IntMap.lookup
  rw [hfind]
  rfl

/-- Claim C2 on `threeCams`, five observations without a repeated pair: for observation 3
(camera 1, point 1) the index answers 3. -/
theorem C2_lookup_returns_observation_index_witness :
    validObservations threeCams ∧ 3 < threeCams.num_observations_ ∧
      ((buildCamObservation threeCams).cam_observation_.getD
          (threeCams.cam_pose_index_.getD 3 0) []).find (threeCams.point_index_.getD 3 0)
        = some 3 ∧
      ((buildCamObservation threeCams).cam_observation_.getD
          (threeCams.cam_pose_index_.getD 3 0) []).lookup (threeCams.point_index_.getD 3 0)
        = 3 :=
  ⟨And.intro (by decide) (by decide), by decide,
    (C2_lookup_returns_observation_index threeCams (And.intro (by decide) (by decide)) 3
      (by decide)).1,
    (C2_lookup_returns_observation_index threeCams (And.intro (by decide) (by decide)) 3
      (by decide)).2⟩

/-- C3: for every pair of cameras `r < c`, the entry `corr(r,c)` computed in `solve` is the
number of distinct point indices that are keys of both `cam_observation_[r]` and
`cam_observation_[c]`. -/
theorem C3_corr_counts_common_points (s : Sfm) (r c : Nat) (hrc : r < c)
    (hc : c < s.num_cam_poses_) :
    corrMatrix (buildCamObservation s) r c
      = ((((buildCamObservation s).cam_observation_.getD r []).keys.toFinset ∩
          ((buildCamObservation s).cam_observation_.getD c []).keys.toFinset).card : Int) := by
  rw [corrMatrix_entry, if_pos ⟨hrc, hc⟩]
  congr 1
  exact countShared_eq_card _ _ (camObservationLoop_sorted s s.num_observations_ r)

/-- C3 (witness): cameras 1 and 2 of `threeCams` have the two points 0 and 1 in common. -/
theorem C3_corr_counts_common_points_witness :
    1 < 2 ∧ 2 < threeCams.num_cam_poses_ ∧
      corrMatrix (buildCamObservation threeCams) 1 2
        = ((((buildCamObservation threeCams).cam_observation_.getD 1 []).keys.toFinset ∩
            ((buildCamObservation threeCams).cam_observation_.getD 2 []).keys.toFinset).card : Int) ∧
      corrMatrix (buildCamObservation threeCams) 1 2 = 2 :=
  ⟨by decide, by decide, C3_corr_counts_common_points threeCams 1 2 (by decide) (by decide),
    by decide⟩

/-- C4 (counterexample): two cameras with one common point: the count stored for (0,1) is
1 and the count stored for (1,0) is 0. -/
theorem C4_stored_counts_not_symmetric :
    corrMatrix (buildCamObservation twoCamsOnePoint) 0 1 = 1 ∧
      corrMatrix (buildCamObservation twoCamsOnePoint) 1 0 = 0 ∧
      corrMatrix (buildCamObservation twoCamsOnePoint) 0 1
        ≠ corrMatrix (buildCamObservation twoCamsOnePoint) 1 0 := by
  decide

/-- C4 (amended): the number of common points is symmetric in the two cameras, and `solve`
stores it in the upper triangle only: for `r < c` the entry `(r,c)` is the number of
points common to `r` and `c` (the same number as for `c` and `r`), and every entry `(r,c)`
with `c ≤ r` is 0. -/
theorem C4_count_symmetric_stored_upper (s : Sfm) (r c : Nat) :
    countShared ((buildCamObservation s).cam_observation_.getD r [])
        ((buildCamObservation s).cam_observation_.getD c [])
      = countShared ((buildCamObservation s).cam_observation_.getD c [])
          ((buildCamObservation s).cam_observation_.getD r []) ∧
    (r < c → c < s.num_cam_poses_ →
      corrMatrix (buildCamObservation s) r c
        = countShared ((buildCamObservation s).cam_observation_.getD c [])
            ((buildCamObservation s).cam_observation_.getD r [])) ∧
    (c ≤ r → corrMatrix (buildCamObservation s) r c = 0) := by
  have hsym := countShared_comm _ _ (camObservationLoop_sorted s s.num_observations_ r)
    (camObservationLoop_sorted s s.num_observations_ c)
  refine ⟨hsym, ?_, ?_⟩
  · intro hrc hc
    rw [corrMatrix_entry, if_pos ⟨hrc, hc⟩]
    exact congrArg Nat.cast hsym
  · intro hcr
    rw [corrMatrix_entry, if_neg (fun h => by omega)]

/-- C4 (witness): in `threeCams` the pair (1,2) stores the count 2 of the pair (2,1), and
the entry (2,1) is 0. -/
theorem C4_count_symmetric_stored_upper_witness :
    (1 < 2 ∧ 2 < threeCams.num_cam_poses_ ∧
      corrMatrix (buildCamObservation threeCams) 1 2
        = countShared ((buildCamObservation threeCams).cam_observation_.getD 2 [])
            ((buildCamObservation threeCams).cam_observation_.getD 1 [])) ∧
    (1 ≤ 2 ∧ corrMatrix (buildCamObservation threeCams) 2 1 = 0) :=
  ⟨⟨by decide, by decide,
      (C4_count_symmetric_stored_upper threeCams 1 2).2.1 (by decide) (by decide)⟩,
    ⟨by decide, (C4_count_symmetric_stored_upper threeCams 2 1).2.2 (by decide)⟩⟩

/-- C5: in every scan of the seed search (whatever the mask of tested pairs) in which at
least one pair `r < c` is untested, the proposed pair is an untested pair `r < c`, its
count is the maximum over all untested pairs, and among the untested pairs with that
count it is the first in row-major order. -/
theorem C5_seed_scan_proposes_first_maximum (s : Sfm) (already_tested_pair : MatrixXi)
    (idx0 idx1 : Nat)
    (hex : ∃ r c, r < c ∧ c < s.num_cam_poses_ ∧ already_tested_pair r c = 0) :
    (seedScan s.num_cam_poses_ (corrMatrix s) already_tested_pair idx0 idx1).seed_pair_idx0
        < (seedScan s.num_cam_poses_ (corrMatrix s) already_tested_pair idx0 idx1).seed_pair_idx1 ∧
      (seedScan s.num_cam_poses_ (corrMatrix s) already_tested_pair idx0 idx1).seed_pair_idx1
        < s.num_cam_poses_ ∧
      already_tested_pair
        (seedScan s.num_cam_poses_ (corrMatrix s) already_tested_pair idx0 idx1).seed_pair_idx0
        (seedScan s.num_cam_poses_ (corrMatrix s) already_tested_pair idx0 idx1).seed_pair_idx1 = 0 ∧
      (seedScan s.num_cam_poses_ (corrMatrix s) already_tested_pair idx0 idx1).max_corr
        = corrMatrix s
            (seedScan s.num_cam_poses_ (corrMatrix s) already_tested_pair idx0 idx1).seed_pair_idx0
            (seedScan s.num_cam_poses_ (corrMatrix s) already_tested_pair idx0 idx1).seed_pair_idx1 ∧
      ∀ r c, r < c → c < s.num_cam_poses_ → already_tested_pair r c = 0 →
        corrMatrix s r c
            ≤ (seedScan s.num_cam_poses_ (corrMatrix s) already_tested_pair idx0 idx1).max_corr ∧
        (corrMatrix s r c
            = (seedScan s.num_cam_poses_ (corrMatrix s) already_tested_pair idx0 idx1).max_corr →
          (seedScan s.num_cam_poses_ (corrMatrix s) already_tested_pair idx0 idx1).seed_pair_idx0 < r ∨
          ((seedScan s.num_cam_poses_ (corrMatrix s) already_tested_pair idx0 idx1).seed_pair_idx0 = r ∧
            (seedScan s.num_cam_poses_ (corrMatrix s) already_tested_pair idx0 idx1).seed_pair_idx1
              ≤ c)) :=
  seedScan_best s.num_cam_poses_ (corrMatrix s) already_tested_pair idx0 idx1
    (corrMatrix_nonneg s) hex

/-- C5 (witness): in `threeCams` with the pair (1,2) already tested, the scan proposes
(0,1), the first of the two untested pairs of count 1. -/
theorem C5_seed_scan_proposes_first_maximum_witness :
    (∃ r c, r < c ∧ c < (buildCamObservation threeCams).num_cam_poses_ ∧
        (MatrixXi.Zero.set 1 2 1) r c = 0) ∧
      seedScan 3 (corrMatrix (buildCamObservation threeCams)) (MatrixXi.Zero.set 1 2 1) 1 2
        = { max_corr := 1, seed_pair_idx0 := 0, seed_pair_idx1 := 1 } ∧
      (seedScan (buildCamObservation threeCams).num_cam_poses_
          (corrMatrix (buildCamObservation threeCams)) (MatrixXi.Zero.set 1 2 1) 1 2).seed_pair_idx0
        < (seedScan (buildCamObservation threeCams).num_cam_poses_
          (corrMatrix (buildCamObservation threeCams)) (MatrixXi.Zero.set 1 2 1) 1 2).seed_pair_idx1 :=
  ⟨⟨0, 1, by decide, by decide, by decide⟩, by decide,
    (C5_seed_scan_proposes_first_maximum (buildCamObservation threeCams)
      (MatrixXi.Zero.set 1 2 1) 1 2 ⟨0, 1, by decide, by decide, by decide⟩).1⟩

/-- C6 (counterexample): two cameras with no common point, nothing tested yet. Every count
is 0, yet the scan proposes the pair (0,1) with `max_corr = 0`, which is not `< 0`, and
`solve` hands that pair to `incrementalReconstruction`. -/
theorem C6_pair_without_shared_point_is_proposed :
    (∀ r c, corrMatrix (buildCamObservation twoCamsNoSharedPoint) r c = 0) ∧
      seedScan 2 (corrMatrix (buildCamObservation twoCamsNoSharedPoint)) MatrixXi.Zero 0 0
        = { max_corr := 0, seed_pair_idx0 := 0, seed_pair_idx1 := 1 } ∧
      ¬ (seedScan 2 (corrMatrix (buildCamObservation twoCamsNoSharedPoint)) MatrixXi.Zero 0
          0).max_corr < 0 ∧
      solveLoop 2 (corrMatrix (buildCamObservation twoCamsNoSharedPoint))
          (fun (st : Unit) _ _ => (false, st)) 1 MatrixXi.Zero 0 0 ()
        = (SolveExit.outOfFuel, [(0, 1)], ()) := by
  refine ⟨?_, by decide, by decide, by decide⟩
  intro r c
  rw [corrMatrix_entry]
  split
  · rename_i h
    have h2 : c < 2 := h.2
    have hc : c = 1 := by omega
    have hr : r = 0 := by omega
    subst hc; subst hr
    decide
  · rfl

/-- C6 (amended): the seed search signals "no pair available" exactly when every pair
`r < c` has already been tested; then `solve` returns without attempting a reconstruction.
While a pair is untested, also one of count 0, `solve` hands a pair to
`incrementalReconstruction`. -/
theorem C6_no_pair_iff_all_tested {σ : Type} (s : Sfm) (already_tested_pair : MatrixXi)
    (idx0 idx1 : Nat) (incRec : σ → Nat → Nat → Bool × σ) (fuel : Nat) (st : σ) :
    ((seedScan s.num_cam_poses_ (corrMatrix s) already_tested_pair idx0 idx1).max_corr < 0
        ↔ ∀ r c, r < c → c < s.num_cam_poses_ → already_tested_pair r c ≠ 0) ∧
      ((∀ r c, r < c → c < s.num_cam_poses_ → already_tested_pair r c ≠ 0) →
        solveLoop s.num_cam_poses_ (corrMatrix s) incRec (fuel + 1) already_tested_pair idx0
            idx1 st
          = (SolveExit.noSeedPairFound, [], st)) ∧
      ((∃ r c, r < c ∧ c < s.num_cam_poses_ ∧ already_tested_pair r c = 0) →
        (solveLoop s.num_cam_poses_ (corrMatrix s) incRec (fuel + 1) already_tested_pair idx0
            idx1 st).2.1 ≠ []) := by
  have hiff := seedScan_none_iff s.num_cam_poses_ (corrMatrix s) already_tested_pair idx0 idx1
    (corrMatrix_nonneg s)
  refine ⟨hiff, ?_, ?_⟩
  · intro hall
    have hneg := hiff.2 hall
    simp only [solveLoop, hneg, if_true]
  · rintro ⟨r, c, hrc, hcn, h0⟩
    have hnn : ¬ (seedScan s.num_cam_poses_ (corrMatrix s) already_tested_pair idx0
        idx1).max_corr < 0 := fun hneg => (hiff.1 hneg) r c hrc hcn h0
    simp only [solveLoop, hnn, if_false]
    split <;> simp

/-- C6 (witness): with two cameras and no common point, the untested pair (0,1) is handed
to the reconstruction; once it is tested, the search signals that no pair is available. -/
theorem C6_no_pair_iff_all_tested_witness :
    ((∃ r c, r < c ∧ c < (buildCamObservation twoCamsNoSharedPoint).num_cam_poses_ ∧
          MatrixXi.Zero r c = 0) ∧
        (solveLoop (buildCamObservation twoCamsNoSharedPoint).num_cam_poses_
          (corrMatrix (buildCamObservation twoCamsNoSharedPoint))
          (fun (st : Unit) _ _ => (false, st)) (0 + 1) MatrixXi.Zero 0 0 ()).2.1 ≠ []) ∧
      solveLoop 2 (corrMatrix (buildCamObservation twoCamsNoSharedPoint))
          (fun (st : Unit) _ _ => (false, st)) 2 MatrixXi.Zero 0 0 ()
        = (SolveExit.noSeedPairFound, [(0, 1)], ()) :=
  ⟨⟨⟨0, 1, by decide, by decide, by decide⟩,
      (C6_no_pair_iff_all_tested (buildCamObservation twoCamsNoSharedPoint) MatrixXi.Zero 0 0
        (fun (st : Unit) _ _ => (false, st)) 0 ()).2.2 ⟨0, 1, by decide, by decide, by decide⟩⟩,
    by decide⟩

/-! ## Reset and seed validation -/

theorem vectorResize_length_self {α : Type} (v : List α) (val : α) :
    vectorResize v v.length val = v := by
  simp [vectorResize]

theorem resetForSeed_masks (s : Sfm) (hc : s.cam_pose_optim_iter_.length = s.num_cam_poses_)
    (hp : s.pts_optim_iter_.length = s.num_points_) :
    (resetForSeed s).cam_pose_optim_iter_ = s.cam_pose_optim_iter_ ∧
      (resetForSeed s).pts_optim_iter_ = s.pts_optim_iter_ := by
  constructor
  · show vectorResize s.cam_pose_optim_iter_ s.num_cam_poses_ 0 = _
    rw [← hc, vectorResize_length_self]
  · show vectorResize s.pts_optim_iter_ s.num_points_ 0 = _
    rw [← hp, vectorResize_length_self]

theorem validateSeed_isSome_iff (ext : Ext) (s : Sfm) (idx0 idx1 : Nat) :
    (validateSeed ext (resetForSeed s) idx0 idx1).isSome = true ↔
      numInliersH ext s idx0 idx1 < numInliersE ext s idx0 idx1 ∧
        10 ≤ numGoodPts ext s idx0 idx1 ∧
        |(recoveredT ext s idx0 idx1).2.2| ≤
          ext.sqrt (|(recoveredT ext s idx0 idx1).1| * |(recoveredT ext s idx0 idx1).1| +
            |(recoveredT ext s idx0 idx1).2.1| * |(recoveredT ext s idx0 idx1).2.1|) := by
  unfold validateSeed numInliersH numInliersE numGoodPts recoveredT recoveredPose
  simp only []
  split_ifs with h1 h2 h3
  · simp only [Option.isSome_none, Bool.false_eq_true, false_iff, not_and]
    intro h; exact absurd h (not_lt.2 h1)
  · simp only [Option.isSome_none, Bool.false_eq_true, false_iff, not_and]
    intro _ h; exact absurd h (not_le.2 h2)
  · simp only [Option.isSome_none, Bool.false_eq_true, false_iff, not_and]
    intro _ _ h; exact absurd h3 (not_lt.2 h)
  · simp only [Option.isSome_some, true_iff]
    exact ⟨not_le.1 h1, not_lt.1 h2, not_lt.1 h3⟩

theorem initPointStep_cam_mask (ext : Ext) (new_cam_pose_idx : Nat) (sp : SeedPose)
    (hpoints4D : List Vec4) (acc : Sfm × Nat) (co_iter : Nat × Nat) :
    (initPointStep ext new_cam_pose_idx sp hpoints4D acc co_iter).1.cam_pose_optim_iter_
      = acc.1.cam_pose_optim_iter_ := by
  unfold initPointStep
  simp only []
  split_ifs <;> rfl

theorem initPointFold_cam_mask (ext : Ext) (new_cam_pose_idx : Nat) (sp : SeedPose)
    (hpoints4D : List Vec4) (l : List (Nat × Nat)) (acc : Sfm × Nat) :
    (l.foldl (initPointStep ext new_cam_pose_idx sp hpoints4D) acc).1.cam_pose_optim_iter_
      = acc.1.cam_pose_optim_iter_ := by
  induction l generalizing acc with
  | nil => rfl
  | cons a rest ih => rw [List.foldl_cons, ih, initPointStep_cam_mask]

theorem twoViewInit_cam_mask (ext : Ext) (s : Sfm) (ref_idx new_idx : Nat) (sp : SeedPose) :
    (twoViewInit ext s ref_idx new_idx sp).cam_pose_optim_iter_
      = (s.cam_pose_optim_iter_.set new_idx 1).set ref_idx 1 := by
  unfold twoViewInit
  simp only []
  rw [initPointFold_cam_mask]
  rfl

theorem getD_set_set_status (l : List Int) (a b : Nat) (ha : a < l.length) (hb : b < l.length) :
    ((l.set b 1).set a 1).getD a 0 = 1 ∧ ((l.set b 1).set a 1).getD b 0 = 1 := by
  constructor
  · rw [List.getD_eq_getElem?_getD, List.getElem?_set]
    simp [ha]
  · rw [List.getD_eq_getElem?_getD, List.getElem?_set]
    by_cases e : a = b
    · simp [e, hb]
    · simp only [e, if_false]
      rw [List.getElem?_set]
      simp [hb]

theorem seedInit_isSome (ext : Ext) (s : Sfm) (idx0 idx1 : Nat) :
    (seedInit ext s idx0 idx1).isSome = (validateSeed ext (resetForSeed s) idx0 idx1).isSome := by
  unfold seedInit
  cases validateSeed ext (resetForSeed s) idx0 idx1 <;> rfl

theorem seedInit_cam_status (ext : Ext) (s s1 : Sfm) (idx0 idx1 : Nat)
    (hc : s.cam_pose_optim_iter_.length = s.num_cam_poses_)
    (h0 : idx0 < s.num_cam_poses_) (h1 : idx1 < s.num_cam_poses_)
    (h : seedInit ext s idx0 idx1 = some s1) : s1.camStatus idx0 = 1 ∧ s1.camStatus idx1 = 1 := by
  unfold seedInit at h
  cases hv : validateSeed ext (resetForSeed s) idx0 idx1 with
  | none => rw [hv] at h; cases h
  | some sp =>
    rw [hv] at h
    injection h with h
    subst h
    unfold Sfm.camStatus
    rw [twoViewInit_cam_mask]
    have hlen : (resetForSeed s).cam_pose_optim_iter_.length = s.num_cam_poses_ := by
      show (vectorResize s.cam_pose_optim_iter_ s.num_cam_poses_ 0).length = _
      rw [← hc, vectorResize_length_self]
    exact getD_set_set_status _ idx0 idx1 (by omega) (by omega)

theorem initPointFold_counter (ext : Ext) (new_cam_pose_idx : Nat) (sp : SeedPose)
    (hpoints4D : List Vec4) (l : List (Nat × Nat)) (acc : Sfm × Nat) :
    (l.foldl (initPointStep ext new_cam_pose_idx sp hpoints4D) acc).2 = acc.2 + l.length := by
  induction l generalizing acc with
  | nil => rfl
  | cons a rest ih =>
    rw [List.foldl_cons, ih, List.length_cons]
    show acc.2 + 1 + rest.length = acc.2 + (rest.length + 1)
    omega

/-! ## The growth step -/

/-- For a point of status 0 that the new camera sees, the growth step counts the point as
new exactly when three tests pass: the cheirality check for the new camera on the object
as it is before the triangulated coordinates are written, the cheirality check for the
other camera after they are written, and `Z > 0`. -/
theorem growStep_counts_iff (ext : Ext) (s : Sfm) (n : Int) (new_cam_pose_idx cam_idx : Nat)
    (co_iter : Nat × Nat) (h0 : s.ptStatus co_iter.1 = 0)
    (hseen : ((s.camObs new_cam_pose_idx).find co_iter.1).isSome = true) :
    (growStep ext new_cam_pose_idx cam_idx (s, n) co_iter).2 = n + 1 ↔
      checkCheiralityConstraint ext s new_cam_pose_idx co_iter.1 = true ∧
        checkCheiralityConstraint ext
            (s.setPt co_iter.1
              (hNormalize
                ((ext.triangulatePoints
                    (ext.RodriguesMat (s.camR new_cam_pose_idx), s.camT new_cam_pose_idx)
                    (ext.RodriguesMat (s.camR cam_idx), s.camT cam_idx)
                    [s.obs ((s.camObs new_cam_pose_idx).lookup co_iter.1)]
                    [s.obs co_iter.2]).getD 0 (0, 0, 0, 0))))
            cam_idx co_iter.1 = true ∧
        (hNormalize
          ((ext.triangulatePoints
              (ext.RodriguesMat (s.camR new_cam_pose_idx), s.camT new_cam_pose_idx)
              (ext.RodriguesMat (s.camR cam_idx), s.camT cam_idx)
              [s.obs ((s.camObs new_cam_pose_idx).lookup co_iter.1)]
              [s.obs co_iter.2]).getD 0 (0, 0, 0, 0))).2.2 > 0 := by
  unfold growStep
  simp only []
  rw [if_pos ⟨h0, hseen⟩]
  split_ifs with h
  · simp only [true_iff]
    exact h
  · constructor
    · intro hn
      exfalso
      simp only at hn
      omega
    · intro hc
      exact absurd hc h

/-! ## Claims on `incrementalReconstruction` -/

/-- C1 (the code at a failing input): in `sparseThirdCameraScene` the attempt on the seed
pair (0,1) registers cameras 0 and 1 and the ten points, then returns false because the
next camera sees only two registered points. When the next call of
`incrementalReconstruction` has run its reset (lines 529-533), the parameters are all 0
but the camera statuses are still `[1, 1, 0]` and the ten point statuses are still 1. -/
theorem C1_statuses_survive_failed_attempt :
    (incrementalReconstruction stereoExt 3 (buildCamObservation sparseThirdCameraScene) 0 1).map
        (fun res =>
          (res.1, (resetForSeed res.2).cam_pose_optim_iter_, (resetForSeed res.2).pts_optim_iter_,
            (resetForSeed res.2).parameters_.all (fun x => decide (x = 0))))
      = some (false, [1, 1, 0], [1, 1, 1, 1, 1, 1, 1, 1, 1, 1], true) := by
  decide!

/-- C7 (the code at a failing input): in `isolatedCameraScene` no unregistered camera sees
a registered point after the two-view initialisation, every score is `-1`, and
`max_element` answers camera 0, which is registered already. The only growth round is
spent on camera 0 and `incrementalReconstruction(0, 1)` returns true while camera 2 has
status 0. -/
theorem C7_returns_true_with_unregistered_camera :
    (seedInit stereoExt (buildCamObservation isolatedCameraScene) 0 1).map
        (fun s1 => (camScores s1, nextBestView s1)) = some ([-1, -1, -1], 0) ∧
      (incrementalReconstruction stereoExt 3 (buildCamObservation isolatedCameraScene) 0 1).map
        (fun res => (res.1, res.2.cam_pose_optim_iter_, res.2.camStatus 2))
        = some (true, [1, 1, 0], 0) := by
  decide!

/-- C8 (the code at a failing input): in `sideCameraScene` the first growth round registers
camera 2 and triangulates point 10 from cameras 2 and 0 at `(-2, 0, 4)`. The check for
camera 2 is made while the point block still holds `(0, 0, 0)`, so it tests the
translation `t_z = 1` of the camera. The point is accepted (status 1, one new point)
although its depth under the new camera is `-1`: `checkCheiralityConstraint(2, 10)` on
the stored coordinates is false. -/
theorem C8_accepted_point_behind_new_camera :
    (firstGrowthCamera sideCameraExt 3 (buildCamObservation sideCameraScene) 0 1).map
        (fun ns => (ns.1, ns.2.ptStatus 10, ns.2.pt 10, ns.2.camT 2))
      = some (2, 0, (0, 0, 0), (4, 0, 1)) ∧
    (firstGrowthCamera sideCameraExt 3 (buildCamObservation sideCameraScene) 0 1).map
        (fun ns =>
          ((growPoints sideCameraExt ns.2 ns.1).2,
            (growPoints sideCameraExt ns.2 ns.1).1.ptStatus 10,
            (growPoints sideCameraExt ns.2 ns.1).1.pt 10))
      = some (1, 1, (-2, 0, 4)) ∧
    (firstGrowthCamera sideCameraExt 3 (buildCamObservation sideCameraScene) 0 1).map
        (fun ns =>
          (checkCheiralityConstraint sideCameraExt (growPoints sideCameraExt ns.2 ns.1).1 ns.1 10,
            checkCheiralityConstraint sideCameraExt (growPoints sideCameraExt ns.2 ns.1).1 0 10))
      = some (false, true) :=
  ⟨by decide!, by decide!, by decide!⟩

/-- C9 (the code at a failing input): in `extraPointScene` camera 0 sees point 0, which
camera 1 does not see, so the counter `r` is one ahead for every later point. Point 1 is
marked registered with the coordinates `(2, 1, 2)` triangulated from the match of point 2;
its own observation in camera 0 is `(1/2, 1)`, its reprojection is `(1, 1/2)`, and the
error against its own observation is not below `max_reproj_err_`. -/
theorem C9_point_checked_against_other_match :
    (seedInit stereoExt (buildCamObservation extraPointScene) 0 1).map
        (fun s1 =>
          (s1.ptStatus 1, s1.pt 1, s1.obs ((s1.camObs 0).lookup 1),
            decide (norm2d stereoExt ((s1.pt 1).1 / (s1.pt 1).2.2, (s1.pt 1).2.1 / (s1.pt 1).2.2)
              (s1.obs ((s1.camObs 0).lookup 1)) < s1.max_reproj_err_)))
      = some (1, (2, 1, 2), (1 / 2, 1), false) := by
  decide!

/-- C10: the two-view initialiser accepts the seed pair, and then both seed cameras are
registered, exactly when the essential model has strictly more inliers than the
homography, at least 10 points survive pose recovery and `|tz| ≤ sqrt(tx² + ty²)`;
otherwise `incrementalReconstruction` returns false and the camera and point statuses
are those at the call. A recovered translation `(0, 0, 5)` is rejected. -/
theorem C10_seed_accepted_iff (ext : Ext) (fuel : Nat) (s : Sfm) (idx0 idx1 : Nat)
    (hc : s.cam_pose_optim_iter_.length = s.num_cam_poses_)
    (hp : s.pts_optim_iter_.length = s.num_points_)
    (h0 : idx0 < s.num_cam_poses_) (h1 : idx1 < s.num_cam_poses_) :
    ((seedInit ext s idx0 idx1).isSome = true ↔
        numInliersH ext s idx0 idx1 < numInliersE ext s idx0 idx1 ∧
          10 ≤ numGoodPts ext s idx0 idx1 ∧
          |(recoveredT ext s idx0 idx1).2.2| ≤
            ext.sqrt (|(recoveredT ext s idx0 idx1).1| * |(recoveredT ext s idx0 idx1).1| +
              |(recoveredT ext s idx0 idx1).2.1| * |(recoveredT ext s idx0 idx1).2.1|)) ∧
      (∀ s1, seedInit ext s idx0 idx1 = some s1 → s1.camStatus idx0 = 1 ∧ s1.camStatus idx1 = 1) ∧
      (seedInit ext s idx0 idx1 = none →
        ∃ s', incrementalReconstruction ext fuel s idx0 idx1 = some (false, s') ∧
          s'.cam_pose_optim_iter_ = s.cam_pose_optim_iter_ ∧
          s'.pts_optim_iter_ = s.pts_optim_iter_) ∧
      (ext.sqrt 0 = 0 → recoveredT ext s idx0 idx1 = (0, 0, 5) → seedInit ext s idx0 idx1 = none) := by
  have hiff := validateSeed_isSome_iff ext s idx0 idx1
  rw [← seedInit_isSome] at hiff
  refine ⟨hiff, fun s1 h => seedInit_cam_status ext s s1 idx0 idx1 hc h0 h1 h, ?_, ?_⟩
  · intro hnone
    refine ⟨resetForSeed s, ?_, (resetForSeed_masks s hc hp).1, (resetForSeed_masks s hc hp).2⟩
    unfold incrementalReconstruction
    rw [hnone]
  · intro hsqrt ht
    cases hsi : seedInit ext s idx0 idx1 with
    | none => rfl
    | some s1 =>
      have hsome : (seedInit ext s idx0 idx1).isSome = true := by rw [hsi]; rfl
      have h3 := (hiff.1 hsome).2.2
      rw [ht] at h3
      norm_num [hsqrt] at h3

/-- C10 (witness): the stereo pair of `isolatedCameraScene` is accepted under `stereoExt`
(10 inliers against 4, 10 good points, translation `(-1, 0, 0)`), and rejected under
`forwardExt`, whose recovered translation is `(0, 0, 5)`. -/
theorem C10_seed_accepted_iff_witness :
    ((buildCamObservation isolatedCameraScene).cam_pose_optim_iter_.length
        = (buildCamObservation isolatedCameraScene).num_cam_poses_ ∧
      (buildCamObservation isolatedCameraScene).pts_optim_iter_.length
        = (buildCamObservation isolatedCameraScene).num_points_ ∧
      0 < (buildCamObservation isolatedCameraScene).num_cam_poses_ ∧
      1 < (buildCamObservation isolatedCameraScene).num_cam_poses_) ∧
    (seedInit stereoExt (buildCamObservation isolatedCameraScene) 0 1).isSome = true ∧
    (forwardExt.sqrt 0 = 0 ∧
      recoveredT forwardExt (buildCamObservation isolatedCameraScene) 0 1 = (0, 0, 5) ∧
      seedInit forwardExt (buildCamObservation isolatedCameraScene) 0 1 = none) :=
  ⟨⟨by decide, by decide, by decide, by decide⟩,
    (C10_seed_accepted_iff stereoExt 3 (buildCamObservation isolatedCameraScene) 0 1
      (by decide) (by decide) (by decide) (by decide)).1.2 (by decide!),
    ⟨by decide!, by decide!,
      (C10_seed_accepted_iff forwardExt 3 (buildCamObservation isolatedCameraScene) 0 1
        (by decide) (by decide) (by decide) (by decide)).2.2.2 (by decide!) (by decide!)⟩⟩

/-! ## The next best view -/

theorem castInt_eq_truncQ (q : ℚ) (h : |q| < 2 ^ 31) : castInt q = truncQ q := by
  have hlt := abs_lt.1 h
  unfold castInt truncQ
  by_cases h0 : 0 ≤ q
  · simp only [h0, if_true]
    have h1 : (0 : Int) ≤ ⌊q⌋ := Int.floor_nonneg.2 h0
    have h2 : ⌊q⌋ < 2147483648 := by
      rw [Int.floor_lt]
      have := hlt.2
      norm_num at this ⊢
      exact this
    rw [if_pos ⟨by omega, by omega⟩]
  · simp only [h0, if_false]
    have hq : (0 : ℚ) ≤ -q := by linarith
    have h1 : (0 : Int) ≤ ⌊-q⌋ := Int.floor_nonneg.2 hq
    have h2 : ⌊-q⌋ < 2147483648 := by
      rw [Int.floor_lt]
      have := hlt.1
      norm_num at this ⊢
      linarith
    rw [if_pos ⟨by omega, by omega⟩, Int.floor_neg, neg_neg]

theorem gridIndex_mem (x : ℚ) (K : Nat) (hK : 1 ≤ K) :
    0 ≤ gridIndex x K ∧ gridIndex x K ≤ (K : Int) - 1 := by
  unfold gridIndex
  have hK' : (1 : Int) ≤ (K : Int) := by exact_mod_cast hK
  constructor
  · exact le_min (le_max_right _ _) (by omega)
  · exact min_le_right _ _

theorem gridIndex_eq_clamp (x : ℚ) (l : Nat) (hl : l < 3) (hx : exactCoordinate x) :
    gridIndex x (2 ^ l) = clampInt (truncQ ((x + 1) / 2 * 2 ^ l)) 0 (2 ^ l - 1) := by
  obtain ⟨hr, hb⟩ := hx
  unfold gridIndex clampInt
  rw [hr]
  have hq : (x + 1) * (1 / 2) * (((2 ^ l : ℕ)) : ℚ) = (x + 1) / 2 * 2 ^ l := by
    push_cast; ring
  rw [hq]
  have hsmall : |(x + 1) / 2 * 2 ^ l| < 2 ^ 31 := by
    have hle : |(x + 1) / 2 * 2 ^ l| ≤ |x + 1| * 2 := by
      rw [abs_mul, abs_div]
      have h2 : |(2 : ℚ)| = 2 := abs_of_pos (by norm_num)
      have hp : |(2 : ℚ) ^ l| = 2 ^ l := abs_of_pos (by positivity)
      rw [h2, hp]
      have hl4 : (2 : ℚ) ^ l ≤ 4 := by
        interval_cases l <;> norm_num
      have habs : (0 : ℚ) ≤ |x + 1| := abs_nonneg _
      nlinarith
    exact lt_of_le_of_lt hle hb
  rw [castInt_eq_truncQ _ hsmall]
  have hk : (((2 ^ l : ℕ)) : Int) = 2 ^ l := by push_cast; rfl
  rw [hk]
  have hpos : (1 : Int) ≤ 2 ^ l := by
    have := pow_pos (by norm_num : (0 : Int) < 2) l
    omega
  generalize truncQ ((x + 1) / 2 * 2 ^ l) = v
  generalize (2 : Int) ^ l = K at hpos
  split_ifs with h1 h2
  · rw [max_eq_right (le_of_lt h1), min_eq_left (by omega)]
  · rw [max_eq_left (by omega), min_eq_right (by omega)]
  · rw [max_eq_left (by omega), min_eq_left (by omega)]

theorem levelFold_spec (cell : Nat → Int × Int) (w : ℚ) (pts : List Nat)
    (acc : List (Int × Int) × ℚ) (hnd : acc.1.Nodup) :
    (pts.foldl (fun (a : List (Int × Int) × ℚ) pt_idx =>
        if cell pt_idx ∈ a.1 then a else (cell pt_idx :: a.1, a.2 + w)) acc).1.Nodup ∧
      (pts.foldl (fun (a : List (Int × Int) × ℚ) pt_idx =>
        if cell pt_idx ∈ a.1 then a else (cell pt_idx :: a.1, a.2 + w)) acc).1.toFinset
        = acc.1.toFinset ∪ (pts.map cell).toFinset ∧
      (pts.foldl (fun (a : List (Int × Int) × ℚ) pt_idx =>
        if cell pt_idx ∈ a.1 then a else (cell pt_idx :: a.1, a.2 + w)) acc).2
        = acc.2 + w * (((pts.foldl (fun (a : List (Int × Int) × ℚ) pt_idx =>
            if cell pt_idx ∈ a.1 then a else (cell pt_idx :: a.1, a.2 + w)) acc).1.length : ℚ)
            - (acc.1.length : ℚ)) := by
  induction pts generalizing acc with
  | nil => simpa using hnd
  | cons p rest ih =>
    rw [List.foldl_cons]
    by_cases hmem : cell p ∈ acc.1
    · rw [if_pos hmem]
      obtain ⟨h1, h2, h3⟩ := ih acc hnd
      refine ⟨h1, ?_, h3⟩
      rw [h2]
      ext x
      simp only [Finset.mem_union, List.mem_toFinset, List.map_cons, List.mem_cons]
      constructor
      · rintro (h | h)
        · exact Or.inl h
        · exact Or.inr (Or.inr h)
      · rintro (h | h | h)
        · exact Or.inl h
        · exact Or.inl (h ▸ hmem)
        · exact Or.inr h
    · rw [if_neg hmem]
      obtain ⟨h1, h2, h3⟩ := ih (cell p :: acc.1, acc.2 + w) (List.nodup_cons.2 ⟨hmem, hnd⟩)
      refine ⟨h1, ?_, ?_⟩
      · rw [h2]
        ext x
        simp only [Finset.mem_union, List.mem_toFinset, List.map_cons, List.mem_cons]
        tauto
      · rw [h3]
        simp only [List.length_cons]
        push_cast
        ring

theorem levelScore_cells (s : Sfm) (i_c : Nat) (pts : List Nat) (score : ℚ) (l : Nat) :
    levelScore s i_c pts score l
      = score + (4 : ℚ) ^ l *
          (((pts.toFinset.image
            (fun pt_idx => (gridIndex (s.obs ((s.camObs i_c).lookup pt_idx)).1 (2 ^ l),
              gridIndex (s.obs ((s.camObs i_c).lookup pt_idx)).2 (2 ^ l)))).card : ℕ) : ℚ) := by
  unfold levelScore
  simp only []
  have h := levelFold_spec
    (fun pt_idx => (gridIndex (s.obs ((s.camObs i_c).lookup pt_idx)).1 (2 ^ l),
      gridIndex (s.obs ((s.camObs i_c).lookup pt_idx)).2 (2 ^ l)))
    ((((2 ^ l : ℕ)) : ℚ) * (((2 ^ l : ℕ)) : ℚ)) pts ([], score) List.nodup_nil
  obtain ⟨h1, h2, h3⟩ := h
  rw [h3]
  simp only [List.length_nil, Nat.cast_zero, sub_zero]
  rw [← List.toFinset_card_of_nodup h1, h2]
  have hw : (((2 ^ l : ℕ)) : ℚ) * (((2 ^ l : ℕ)) : ℚ) = (4 : ℚ) ^ l := by
    push_cast
    rw [← mul_pow]
    norm_num
  rw [hw]
  have hset : ([] : List (Int × Int)).toFinset ∪
      (pts.map (fun pt_idx => (gridIndex (s.obs ((s.camObs i_c).lookup pt_idx)).1 (2 ^ l),
        gridIndex (s.obs ((s.camObs i_c).lookup pt_idx)).2 (2 ^ l)))).toFinset
      = pts.toFinset.image
          (fun pt_idx => (gridIndex (s.obs ((s.camObs i_c).lookup pt_idx)).1 (2 ^ l),
            gridIndex (s.obs ((s.camObs i_c).lookup pt_idx)).2 (2 ^ l))) := by
    ext x
    simp only [List.toFinset_nil, Finset.empty_union, List.mem_toFinset, List.mem_map,
      Finset.mem_image]
  rw [hset]

theorem levelScore_eq (s : Sfm) (i_c : Nat) (pts : List Nat) (score : ℚ) (l : Nat) (hl : l < 3)
    (hx : ∀ pt_idx ∈ pts, exactCoordinate (s.obs ((s.camObs i_c).lookup pt_idx)).1 ∧
      exactCoordinate (s.obs ((s.camObs i_c).lookup pt_idx)).2) :
    levelScore s i_c pts score l
      = score + (4 : ℚ) ^ l *
          (((pts.toFinset.image
            (fun pt_idx => levelCell l (s.obs ((s.camObs i_c).lookup pt_idx)))).card : ℕ) : ℚ) := by
  rw [levelScore_cells]
  have hset : pts.toFinset.image
        (fun pt_idx => (gridIndex (s.obs ((s.camObs i_c).lookup pt_idx)).1 (2 ^ l),
          gridIndex (s.obs ((s.camObs i_c).lookup pt_idx)).2 (2 ^ l)))
      = pts.toFinset.image
          (fun pt_idx => levelCell l (s.obs ((s.camObs i_c).lookup pt_idx))) := by
    apply Finset.image_congr
    intro pt_idx hpt
    have hmem : pt_idx ∈ pts := List.mem_toFinset.1 hpt
    show (gridIndex _ _, gridIndex _ _) = levelCell l _
    unfold levelCell
    rw [gridIndex_eq_clamp _ l hl (hx pt_idx hmem).1, gridIndex_eq_clamp _ l hl (hx pt_idx hmem).2]
  rw [hset]

theorem registeredPointsSeen_toFinset_nonempty (s : Sfm) (i_c : Nat)
    (h : registeredPointsSeen s i_c ≠ []) : (registeredPointsSeen s i_c).toFinset.Nonempty := by
  obtain ⟨a, ha⟩ := List.exists_mem_of_ne_nil _ h
  exact ⟨a, List.mem_toFinset.2 ha⟩

theorem camScore_cells (s : Sfm) (i_c : Nat) (hst : s.camStatus i_c = 0)
    (hne : registeredPointsSeen s i_c ≠ []) :
    camScore s i_c
      = ∑ l ∈ Finset.range 3, (4 : ℚ) ^ l *
          ((((registeredPointsSeen s i_c).toFinset.image
            (fun pt_idx => (gridIndex (s.obs ((s.camObs i_c).lookup pt_idx)).1 (2 ^ l),
              gridIndex (s.obs ((s.camObs i_c).lookup pt_idx)).2 (2 ^ l)))).card : ℕ) : ℚ) := by
  unfold camScore
  have hemp : (registeredPointsSeen s i_c).isEmpty = false := by
    cases h : registeredPointsSeen s i_c with
    | nil => exact absurd h hne
    | cons a t => rfl
  rw [if_neg (by simp [hst]), hemp]
  simp only [Bool.false_eq_true, if_false]
  have hr : List.range 3 = [0, 1, 2] := by decide
  rw [hr]
  simp only [List.foldl_cons, List.foldl_nil, levelScore_cells]
  simp only [Finset.sum_range_succ, Finset.sum_range_zero]

theorem camScore_eq_coverageScore (s : Sfm) (i_c : Nat) (hst : s.camStatus i_c = 0)
    (hne : registeredPointsSeen s i_c ≠ [])
    (hx : ∀ pt_idx ∈ registeredPointsSeen s i_c,
      exactCoordinate (s.obs ((s.camObs i_c).lookup pt_idx)).1 ∧
        exactCoordinate (s.obs ((s.camObs i_c).lookup pt_idx)).2) :
    camScore s i_c = coverageScore s i_c := by
  unfold camScore coverageScore occupiedCells
  have hemp : (registeredPointsSeen s i_c).isEmpty = false := by
    cases h : registeredPointsSeen s i_c with
    | nil => exact absurd h hne
    | cons a t => rfl
  rw [if_neg (by simp [hst]), hemp]
  simp only [Bool.false_eq_true, if_false]
  have hr : List.range 3 = [0, 1, 2] := by decide
  rw [hr]
  simp only [List.foldl_cons, List.foldl_nil]
  rw [levelScore_eq s i_c _ _ 2 (by norm_num) hx, levelScore_eq s i_c _ _ 1 (by norm_num) hx,
    levelScore_eq s i_c _ _ 0 (by norm_num) hx]
  simp only [Finset.sum_range_succ, Finset.sum_range_zero]

theorem clampInt_mem (v K : Int) (hK : 1 ≤ K) : clampInt v 0 (K - 1) ∈ Finset.Icc (0 : Int) (K - 1) := by
  unfold clampInt
  rw [Finset.mem_Icc]
  split_ifs <;> constructor <;> omega

theorem occupiedCells_card_le (s : Sfm) (i_c l : Nat) : (occupiedCells s i_c l).card ≤ 4 ^ l := by
  have hpos : (1 : Int) ≤ 2 ^ l := by
    have := pow_pos (by norm_num : (0 : Int) < 2) l
    omega
  have hsub : occupiedCells s i_c l
      ⊆ Finset.Icc (0 : Int) (2 ^ l - 1) ×ˢ Finset.Icc (0 : Int) (2 ^ l - 1) := by
    intro x hx
    unfold occupiedCells at hx
    rcases Finset.mem_image.1 hx with ⟨p, _, rfl⟩
    rw [Finset.mem_product]
    exact ⟨clampInt_mem _ _ hpos, clampInt_mem _ _ hpos⟩
  have hcard := Finset.card_le_card hsub
  rw [Finset.card_product, Int.card_Icc] at hcard
  have h2 : ((2 : Int) ^ l - 1 + 1 - 0).toNat = 2 ^ l := by
    have : (2 : Int) ^ l - 1 + 1 - 0 = ((2 ^ l : ℕ) : Int) := by push_cast; ring
    rw [this, Int.toNat_natCast]
  rw [h2, ← mul_pow] at hcard
  exact hcard

theorem occupiedCells_card_pos (s : Sfm) (i_c l : Nat) (hne : registeredPointsSeen s i_c ≠ []) :
    1 ≤ (occupiedCells s i_c l).card := by
  have h := registeredPointsSeen_toFinset_nonempty s i_c hne
  exact Finset.card_pos.2 (h.image _)

theorem coverageScore_bounds (s : Sfm) (i_c : Nat) (hne : registeredPointsSeen s i_c ≠ []) :
    21 ≤ coverageScore s i_c ∧ coverageScore s i_c ≤ 273 := by
  unfold coverageScore
  simp only [Finset.sum_range_succ, Finset.sum_range_zero]
  have l0 := occupiedCells_card_pos s i_c 0 hne
  have l1 := occupiedCells_card_pos s i_c 1 hne
  have l2 := occupiedCells_card_pos s i_c 2 hne
  have u0 := occupiedCells_card_le s i_c 0
  have u1 := occupiedCells_card_le s i_c 1
  have u2 := occupiedCells_card_le s i_c 2
  have l0' : (1 : ℚ) ≤ ((occupiedCells s i_c 0).card : ℚ) := by exact_mod_cast l0
  have l1' : (1 : ℚ) ≤ ((occupiedCells s i_c 1).card : ℚ) := by exact_mod_cast l1
  have l2' : (1 : ℚ) ≤ ((occupiedCells s i_c 2).card : ℚ) := by exact_mod_cast l2
  have u0' : ((occupiedCells s i_c 0).card : ℚ) ≤ 1 := by exact_mod_cast u0
  have u1' : ((occupiedCells s i_c 1).card : ℚ) ≤ 4 := by exact_mod_cast u1
  have u2' : ((occupiedCells s i_c 2).card : ℚ) ≤ 16 := by exact_mod_cast u2
  constructor <;> norm_num <;> linarith

theorem codeCells_card (s : Sfm) (i_c l : Nat) (hne : registeredPointsSeen s i_c ≠ []) :
    1 ≤ ((registeredPointsSeen s i_c).toFinset.image
        (fun pt_idx => (gridIndex (s.obs ((s.camObs i_c).lookup pt_idx)).1 (2 ^ l),
          gridIndex (s.obs ((s.camObs i_c).lookup pt_idx)).2 (2 ^ l)))).card ∧
      ((registeredPointsSeen s i_c).toFinset.image
        (fun pt_idx => (gridIndex (s.obs ((s.camObs i_c).lookup pt_idx)).1 (2 ^ l),
          gridIndex (s.obs ((s.camObs i_c).lookup pt_idx)).2 (2 ^ l)))).card ≤ 4 ^ l := by
  constructor
  · exact Finset.card_pos.2 ((registeredPointsSeen_toFinset_nonempty s i_c hne).image _)
  · have hK : 1 ≤ 2 ^ l := Nat.one_le_two_pow
    have hsub : (registeredPointsSeen s i_c).toFinset.image
          (fun pt_idx => (gridIndex (s.obs ((s.camObs i_c).lookup pt_idx)).1 (2 ^ l),
            gridIndex (s.obs ((s.camObs i_c).lookup pt_idx)).2 (2 ^ l)))
        ⊆ Finset.Icc (0 : Int) (2 ^ l - 1) ×ˢ Finset.Icc (0 : Int) (2 ^ l - 1) := by
      intro x hx
      rcases Finset.mem_image.1 hx with ⟨p, _, rfl⟩
      rw [Finset.mem_product, Finset.mem_Icc, Finset.mem_Icc]
      have h1 := gridIndex_mem (s.obs ((s.camObs i_c).lookup p)).1 (2 ^ l) hK
      have h2 := gridIndex_mem (s.obs ((s.camObs i_c).lookup p)).2 (2 ^ l) hK
      have hk : (((2 ^ l : ℕ)) : Int) = 2 ^ l := by push_cast; rfl
      rw [hk] at h1 h2
      exact ⟨h1, h2⟩
    have hcard := Finset.card_le_card hsub
    rw [Finset.card_product, Int.card_Icc] at hcard
    have h2 : ((2 : Int) ^ l - 1 + 1 - 0).toNat = 2 ^ l := by
      have : (2 : Int) ^ l - 1 + 1 - 0 = ((2 ^ l : ℕ) : Int) := by push_cast; ring
      rw [this, Int.toNat_natCast]
    rw [h2, ← mul_pow] at hcard
    exact hcard

theorem camScore_bounds (s : Sfm) (i_c : Nat) (hst : s.camStatus i_c = 0)
    (hne : registeredPointsSeen s i_c ≠ []) : 21 ≤ camScore s i_c ∧ camScore s i_c ≤ 273 := by
  rw [camScore_cells s i_c hst hne]
  simp only [Finset.sum_range_succ, Finset.sum_range_zero]
  obtain ⟨l0, u0⟩ := codeCells_card s i_c 0 hne
  obtain ⟨l1, u1⟩ := codeCells_card s i_c 1 hne
  obtain ⟨l2, u2⟩ := codeCells_card s i_c 2 hne
  generalize ((registeredPointsSeen s i_c).toFinset.image
    (fun pt_idx => (gridIndex (s.obs ((s.camObs i_c).lookup pt_idx)).1 (2 ^ 0),
      gridIndex (s.obs ((s.camObs i_c).lookup pt_idx)).2 (2 ^ 0)))).card = n0 at l0 u0 ⊢
  generalize ((registeredPointsSeen s i_c).toFinset.image
    (fun pt_idx => (gridIndex (s.obs ((s.camObs i_c).lookup pt_idx)).1 (2 ^ 1),
      gridIndex (s.obs ((s.camObs i_c).lookup pt_idx)).2 (2 ^ 1)))).card = n1 at l1 u1 ⊢
  generalize ((registeredPointsSeen s i_c).toFinset.image
    (fun pt_idx => (gridIndex (s.obs ((s.camObs i_c).lookup pt_idx)).1 (2 ^ 2),
      gridIndex (s.obs ((s.camObs i_c).lookup pt_idx)).2 (2 ^ 2)))).card = n2 at l2 u2 ⊢
  have l0' : (1 : ℚ) ≤ (n0 : ℚ) := by exact_mod_cast l0
  have l1' : (1 : ℚ) ≤ (n1 : ℚ) := by exact_mod_cast l1
  have l2' : (1 : ℚ) ≤ (n2 : ℚ) := by exact_mod_cast l2
  have u0' : (n0 : ℚ) ≤ 1 := by exact_mod_cast u0
  have u1' : (n1 : ℚ) ≤ 4 := by exact_mod_cast u1
  have u2' : (n2 : ℚ) ≤ 16 := by exact_mod_cast u2
  constructor <;> norm_num <;> linarith

theorem camScore_nonviable (s : Sfm) (i_c : Nat)
    (h : ¬ (s.camStatus i_c = 0 ∧ registeredPointsSeen s i_c ≠ [])) : camScore s i_c = -1 := by
  unfold camScore
  by_cases hst : s.camStatus i_c = 0
  · have hnil : registeredPointsSeen s i_c = [] := by
      by_contra hne
      exact h ⟨hst, hne⟩
    rw [if_neg (by simp [hst]), hnil]
    rfl
  · rw [if_pos hst]

theorem maxElement_fold_spec (t pre : List ℚ) (acc : Nat × ℚ × Nat)
    (hi : acc.2.2 = pre.length) (hb : acc.1 < pre.length) (hv : acc.2.1 = pre.getD acc.1 0)
    (hmax : ∀ j, j < pre.length → pre.getD j 0 ≤ acc.2.1) :
    (t.foldl (fun (acc : Nat × ℚ × Nat) x =>
        if acc.2.1 < x then (acc.2.2, x, acc.2.2 + 1) else (acc.1, acc.2.1, acc.2.2 + 1)) acc).1
        < (pre ++ t).length ∧
      ∀ j, j < (pre ++ t).length →
        (pre ++ t).getD j 0 ≤
          (pre ++ t).getD (t.foldl (fun (acc : Nat × ℚ × Nat) x =>
            if acc.2.1 < x then (acc.2.2, x, acc.2.2 + 1) else (acc.1, acc.2.1, acc.2.2 + 1)) acc).1 0 := by
  induction t generalizing pre acc with
  | nil =>
    simp only [List.foldl_nil, List.append_nil]
    exact ⟨hb, fun j hj => hv ▸ hmax j hj⟩
  | cons x t ih =>
    rw [List.foldl_cons]
    have happ : pre ++ x :: t = (pre ++ [x]) ++ t := by simp
    rw [happ]
    have hlen : (pre ++ [x]).length = pre.length + 1 := by simp
    have hleft : ∀ j, j < pre.length → (pre ++ [x]).getD j 0 = pre.getD j 0 := by
      intro j hj
      rw [List.getD_eq_getElem?_getD, List.getD_eq_getElem?_getD, List.getElem?_append_left hj]
    have hlast : (pre ++ [x]).getD pre.length 0 = x := by
      rw [List.getD_eq_getElem?_getD, List.getElem?_append_right (le_refl _)]
      simp
    by_cases hlt : acc.2.1 < x
    · rw [if_pos hlt]
      apply ih (pre ++ [x])
      · simp [hi]
      · simp [hi]
      · show x = _
        rw [hi, hlast]
      · intro j hj
        rw [hlen] at hj
        show _ ≤ x
        rcases Nat.lt_succ_iff_lt_or_eq.1 hj with h | h
        · rw [hleft j h]; exact le_of_lt (lt_of_le_of_lt (hmax j h) hlt)
        · rw [h, hlast]
    · rw [if_neg hlt]
      apply ih (pre ++ [x])
      · simp [hi]
      · show acc.1 < _
        rw [hlen]; omega
      · show acc.2.1 = _
        rw [hleft _ hb]; exact hv
      · intro j hj
        rw [hlen] at hj
        show _ ≤ acc.2.1
        rcases Nat.lt_succ_iff_lt_or_eq.1 hj with h | h
        · rw [hleft j h]; exact hmax j h
        · rw [h, hlast]; exact not_lt.1 hlt

theorem maxElement_spec (v : List ℚ) (hv : v ≠ []) :
    maxElement v < v.length ∧ ∀ j, j < v.length → v.getD j 0 ≤ v.getD (maxElement v) 0 := by
  cases v with
  | nil => exact absurd rfl hv
  | cons a t =>
    unfold maxElement
    have h := maxElement_fold_spec t [a] (0, a, 1) rfl (by simp) (by simp)
      (by intro j hj; simp at hj; subst hj; simp)
    simpa using h

theorem camScores_getD (s : Sfm) (j : Nat) (hj : j < s.num_cam_poses_) :
    (camScores s).getD j 0 = camScore s j := by
  unfold camScores
  rw [List.getD_eq_getElem?_getD, List.getElem?_map, List.getElem?_range hj]
  rfl

theorem camScore_ge_of_viable (s : Sfm) (i_c : Nat) (hst : s.camStatus i_c = 0)
    (hne : registeredPointsSeen s i_c ≠ []) : 21 ≤ camScore s i_c :=
  (camScore_bounds s i_c hst hne).1

theorem nextBestView_viable (s : Sfm)
    (hex : ∃ c, c < s.num_cam_poses_ ∧ s.camStatus c = 0 ∧ registeredPointsSeen s c ≠ []) :
    nextBestView s < s.num_cam_poses_ ∧ s.camStatus (nextBestView s) = 0 ∧
      registeredPointsSeen s (nextBestView s) ≠ [] := by
  obtain ⟨c, hc, hst, hne⟩ := hex
  have hlen : (camScores s).length = s.num_cam_poses_ := by simp [camScores]
  have hnonempty : camScores s ≠ [] := by
    intro h
    rw [h] at hlen
    simp at hlen
    omega
  obtain ⟨h1, h2⟩ := maxElement_spec (camScores s) hnonempty
  rw [hlen] at h1 h2
  have hk : nextBestView s < s.num_cam_poses_ := h1
  refine ⟨hk, ?_⟩
  have hle := h2 c hc
  rw [camScores_getD s c hc] at hle
  have hle2 : camScore s c ≤ camScore s (nextBestView s) := by
    have := camScores_getD s (nextBestView s) hk
    unfold nextBestView at this ⊢
    rw [this] at hle
    exact hle
  have h21 := camScore_ge_of_viable s c hst hne
  by_contra hcon
  have hneg := camScore_nonviable s (nextBestView s) (fun h => hcon h)
  rw [hneg] at hle2
  linarith

theorem registeredPointsSeen_ne_nil_iff (s : Sfm) (i_c : Nat) :
    registeredPointsSeen s i_c ≠ [] ↔
      ∃ pt, ((s.camObs i_c).find pt).isSome = true ∧ s.ptStatus pt > 0 := by
  unfold registeredPointsSeen
  constructor
  · intro h
    obtain ⟨a, ha⟩ := List.exists_mem_of_ne_nil _ h
    rcases List.mem_map.1 ha with ⟨e, he, rfl⟩
    rw [List.mem_filter] at he
    refine ⟨e.1, (IntMap.find_isSome _ _).2 (List.mem_map.2 ⟨e, he.1, rfl⟩), ?_⟩
    simpa using he.2
  · rintro ⟨pt, hf, hst⟩ hnil
    have hk := (IntMap.find_isSome _ _).1 hf
    rcases List.mem_map.1 hk with ⟨e, he, rfl⟩
    have : e.1 ∈ List.map Prod.fst (List.filter (fun obs => decide (s.ptStatus obs.1 > 0)) (s.camObs i_c)) :=
      List.mem_map.2 ⟨e, List.mem_filter.2 ⟨he, by simpa using hst⟩, rfl⟩
    rw [hnil] at this
    simp at this

/-! ## Claims on the next best view -/

/-- C11: whenever at least one unregistered camera observes at least one registered point,
the camera selected by the next-best-view step is a camera of the problem, is unregistered
and observes at least one registered point. -/
theorem C11_selected_camera_is_viable (s : Sfm)
    (hex : ∃ c pt, c < s.num_cam_poses_ ∧ s.camStatus c = 0 ∧
      ((s.camObs c).find pt).isSome = true ∧ s.ptStatus pt > 0) :
    nextBestView s < s.num_cam_poses_ ∧ s.camStatus (nextBestView s) = 0 ∧
      ∃ pt, ((s.camObs (nextBestView s)).find pt).isSome = true ∧ s.ptStatus pt > 0 := by
  obtain ⟨c, pt, hc, hst, hf, hp⟩ := hex
  have h := nextBestView_viable s
    ⟨c, hc, hst, (registeredPointsSeen_ne_nil_iff s c).2 ⟨pt, hf, hp⟩⟩
  exact ⟨h.1, h.2.1, (registeredPointsSeen_ne_nil_iff s _).1 h.2.2⟩

/-- C11 (witness): in the first growth round of `sideCameraScene` camera 2 is unregistered
and sees the registered point 0; the step selects camera 2. -/
theorem C11_selected_camera_is_viable_witness :
    (∃ c pt, c < sideCameraSeedState.num_cam_poses_ ∧ sideCameraSeedState.camStatus c = 0 ∧
        ((sideCameraSeedState.camObs c).find pt).isSome = true ∧
        sideCameraSeedState.ptStatus pt > 0) ∧
      nextBestView sideCameraSeedState = 2 ∧
      (nextBestView sideCameraSeedState < sideCameraSeedState.num_cam_poses_ ∧
        sideCameraSeedState.camStatus (nextBestView sideCameraSeedState) = 0 ∧
        ∃ pt, ((sideCameraSeedState.camObs (nextBestView sideCameraSeedState)).find pt).isSome
            = true ∧ sideCameraSeedState.ptStatus pt > 0) :=
  ⟨⟨2, 0, by decide!, by decide!, by decide!, by decide!⟩, by decide!,
    C11_selected_camera_is_viable sideCameraSeedState
      ⟨2, 0, by decide!, by decide!, by decide!, by decide!⟩⟩

/-- C19 (counterexample): camera 0 is unregistered and sees the registered points 0 and 1,
point 1 at `(-1/2, 0)`. With point 0 at `(-2^-60, 0)`, a coordinate between -1 and 1, the
sum `x + 1.0` is rounded to 1: the code finds index 1 at level 1 where the formula gives
0, puts the two points in different cells at the levels 1 and 2 and scores
`1 + 4 * 2 + 16 * 2 = 41`, while the formula counts one cell per level, 21. With point 0
at `(10^10, 0)` the value `u * K` is not an `int`: the code finds index 0 at level 1 where
the formula gives 1 and scores `1 + 4 * 1 + 16 * 2 = 37`, while the formula gives 41. -/
theorem C19_score_differs_from_formula :
    ((twoObservationState (-1 / 2 ^ 60)).camStatus 0 = 0 ∧
      registeredPointsSeen (twoObservationState (-1 / 2 ^ 60)) 0 = [0, 1] ∧
      gridIndex (-1 / 2 ^ 60) (2 ^ 1) = 1 ∧
      (levelCell 1 ((-1 / 2 ^ 60 : ℚ), (0 : ℚ))).1 = 0 ∧
      camScore (twoObservationState (-1 / 2 ^ 60)) 0 = 41 ∧
      coverageScore (twoObservationState (-1 / 2 ^ 60)) 0 = 21) ∧
    ((twoObservationState (10 ^ 10)).camStatus 0 = 0 ∧
      registeredPointsSeen (twoObservationState (10 ^ 10)) 0 = [0, 1] ∧
      gridIndex (10 ^ 10) (2 ^ 1) = 0 ∧
      (levelCell 1 ((10 ^ 10 : ℚ), (0 : ℚ))).1 = 1 ∧
      camScore (twoObservationState (10 ^ 10)) 0 = 37 ∧
      coverageScore (twoObservationState (10 ^ 10)) 0 = 41) :=
  ⟨⟨by decide!, by decide!, by decide!, by decide!, by decide!, by decide!⟩,
    ⟨by decide!, by decide!, by decide!, by decide!, by decide!, by decide!⟩⟩

/-- C19 (amended): for every unregistered camera that observes at least one registered
point, the score computed by the next-best-view step is the sum over the levels
`l = 0, 1, 2` of `4^l` times the number of distinct cells at level `l`, the cell of an
observation `(x, y)` being the pair of grid indices that the code computes, and the score
lies between 21 and 273. When for every such observation the sums `x + 1.0` and `y + 1.0`
are exact and `|x + 1| * 2`, `|y + 1| * 2` are below `2^31`, the cell is
`(clamp(trunc((x+1)/2 * 2^l), 0, 2^l - 1), clamp(trunc((y+1)/2 * 2^l), 0, 2^l - 1))` and
the score is the one of the formula. -/
theorem C19_score_is_weighted_cell_count (s : Sfm) (i_c : Nat) (hst : s.camStatus i_c = 0)
    (hobs : ∃ pt, ((s.camObs i_c).find pt).isSome = true ∧ s.ptStatus pt > 0) :
    camScore s i_c
        = ∑ l ∈ Finset.range 3, (4 : ℚ) ^ l *
            ((((registeredPointsSeen s i_c).toFinset.image
              (fun pt_idx => (gridIndex (s.obs ((s.camObs i_c).lookup pt_idx)).1 (2 ^ l),
                gridIndex (s.obs ((s.camObs i_c).lookup pt_idx)).2 (2 ^ l)))).card : ℕ) : ℚ) ∧
      ((∀ pt_idx ∈ registeredPointsSeen s i_c,
          exactCoordinate (s.obs ((s.camObs i_c).lookup pt_idx)).1 ∧
            exactCoordinate (s.obs ((s.camObs i_c).lookup pt_idx)).2) →
        camScore s i_c = coverageScore s i_c) ∧
      21 ≤ camScore s i_c ∧ camScore s i_c ≤ 273 := by
  have hne := (registeredPointsSeen_ne_nil_iff s i_c).2 hobs
  have hb := camScore_bounds s i_c hst hne
  exact ⟨camScore_cells s i_c hst hne, fun hx => camScore_eq_coverageScore s i_c hst hne hx,
    hb.1, hb.2⟩

/-- C19 (witness): with point 0 at `(1/2, 0)` camera 0 sees the registered points 0 and 1
in one cell at level 0 and in two cells at the levels 1 and 2; the sums are exact, and the
score and the formula both give `1 + 4 * 2 + 16 * 2 = 41`. -/
theorem C19_score_is_weighted_cell_count_witness :
    (twoObservationState (1 / 2)).camStatus 0 = 0 ∧
      (∃ pt, (((twoObservationState (1 / 2)).camObs 0).find pt).isSome = true ∧
        (twoObservationState (1 / 2)).ptStatus pt > 0) ∧
      (∀ pt_idx ∈ registeredPointsSeen (twoObservationState (1 / 2)) 0,
        exactCoordinate
            ((twoObservationState (1 / 2)).obs
              (((twoObservationState (1 / 2)).camObs 0).lookup pt_idx)).1 ∧
          exactCoordinate
            ((twoObservationState (1 / 2)).obs
              (((twoObservationState (1 / 2)).camObs 0).lookup pt_idx)).2) ∧
      camScore (twoObservationState (1 / 2)) 0 = 41 ∧
      camScore (twoObservationState (1 / 2)) 0 = coverageScore (twoObservationState (1 / 2)) 0 :=
  ⟨by decide!, ⟨0, by decide!, by decide!⟩, by unfold exactCoordinate; decide!, by decide!,
    (C19_score_is_weighted_cell_count (twoObservationState (1 / 2)) 0 (by decide!)
      ⟨0, by decide!, by decide!⟩).2.1 (by unfold exactCoordinate; decide!)⟩

/-! ## The loop of the seed search -/

theorem seedScan_cases (n : Nat) (corr tested : MatrixXi) (idx0 idx1 : Nat) :
    (seedScan n corr tested idx0 idx1).max_corr < 0 ∨
      (0 ≤ (seedScan n corr tested idx0 idx1).max_corr ∧
        ((seedScan n corr tested idx0 idx1).seed_pair_idx0,
          (seedScan n corr tested idx0 idx1).seed_pair_idx1) ∈ seedPairs n ∧
        tested (seedScan n corr tested idx0 idx1).seed_pair_idx0
          (seedScan n corr tested idx0 idx1).seed_pair_idx1 = 0 ∧
        (seedScan n corr tested idx0 idx1).max_corr
          = corr (seedScan n corr tested idx0 idx1).seed_pair_idx0
              (seedScan n corr tested idx0 idx1).seed_pair_idx1 ∧
        ∀ q ∈ seedPairs n, tested q.1 q.2 = 0 →
          corr q.1 q.2 ≤ (seedScan n corr tested idx0 idx1).max_corr) := by
  rw [seedScan_flat]
  rcases seedFold_spec corr tested (seedPairs n)
      { max_corr := -1, seed_pair_idx0 := idx0, seed_pair_idx1 := idx1 } with
    ⟨h1, _⟩ | ⟨l1, p, l2, e, hp, hres, hgt, hl1, hl2⟩
  · left
    rw [h1]
    show (-1 : Int) < 0
    omega
  · right
    rw [hres]
    have hgt' : (-1 : Int) < corr p.1 p.2 := hgt
    refine ⟨by show (0 : Int) ≤ corr p.1 p.2; omega, ?_, hp, rfl, ?_⟩
    · rw [e]; simp
    · intro q hq hq0
      rw [e] at hq
      show corr q.1 q.2 ≤ corr p.1 p.2
      rcases List.mem_append.1 hq with h | h
      · exact le_of_lt (hl1 q h hq0)
      · rcases List.mem_cons.1 h with h | h
        · rw [h]
        · exact hl2 q h hq0

theorem filter_length_le {α : Type} (l : List α) (P Q : α → Bool)
    (himp : ∀ x ∈ l, Q x = true → P x = true) : (l.filter Q).length ≤ (l.filter P).length := by
  induction l with
  | nil => simp
  | cons a t ih =>
    have iht := ih (fun x hx => himp x (List.mem_cons_of_mem _ hx))
    by_cases hq : Q a = true
    · have hp := himp a (List.mem_cons_self _ _) hq
      rw [List.filter_cons_of_pos hq, List.filter_cons_of_pos hp]
      simp only [List.length_cons]
      omega
    · rw [List.filter_cons_of_neg hq]
      by_cases hp : P a = true
      · rw [List.filter_cons_of_pos hp]
        simp only [List.length_cons]
        omega
      · rw [List.filter_cons_of_neg hp]
        exact iht

theorem filter_length_lt {α : Type} (l : List α) (P Q : α → Bool)
    (himp : ∀ x ∈ l, Q x = true → P x = true) (hex : ∃ a ∈ l, P a = true ∧ ¬ Q a = true) :
    (l.filter Q).length < (l.filter P).length := by
  induction l with
  | nil =>
    obtain ⟨a, ha, _⟩ := hex
    simp at ha
  | cons a t ih =>
    have himpt : ∀ x ∈ t, Q x = true → P x = true := fun x hx => himp x (List.mem_cons_of_mem _ hx)
    by_cases hq : Q a = true
    · have hp := himp a (List.mem_cons_self _ _) hq
      rw [List.filter_cons_of_pos hq, List.filter_cons_of_pos hp]
      simp only [List.length_cons]
      obtain ⟨b, hb, hpb, hqb⟩ := hex
      rcases List.mem_cons.1 hb with e | hb
      · subst e; exact absurd hq hqb
      · have := ih himpt ⟨b, hb, hpb, hqb⟩
        omega
    · rw [List.filter_cons_of_neg hq]
      by_cases hp : P a = true
      · rw [List.filter_cons_of_pos hp]
        simp only [List.length_cons]
        have := filter_length_le t P Q himpt
        omega
      · rw [List.filter_cons_of_neg hp]
        obtain ⟨b, hb, hpb, hqb⟩ := hex
        rcases List.mem_cons.1 hb with e | hb
        · subst e; exact absurd hpb hp
        · exact ih himpt ⟨b, hb, hpb, hqb⟩

theorem set_tested_eq_zero (tested : MatrixXi) (i j r c : Nat) :
    (MatrixXi.set tested i j 1) r c = 0 ↔ tested r c = 0 ∧ ¬ (r = i ∧ c = j) := by
  unfold MatrixXi.set
  by_cases h : r = i ∧ c = j
  · simp [h]
  · simp [h]

theorem untestedCount_set_lt (n : Nat) (tested : MatrixXi) (i j : Nat)
    (hmem : (i, j) ∈ seedPairs n) (h0 : tested i j = 0) :
    untestedCount n (MatrixXi.set tested i j 1) < untestedCount n tested := by
  unfold untestedCount
  apply filter_length_lt
  · intro x _ hx
    have := (set_tested_eq_zero tested i j x.1 x.2).1 (of_decide_eq_true hx)
    exact decide_eq_true this.1
  · refine ⟨(i, j), hmem, decide_eq_true h0, ?_⟩
    intro hx
    have := (set_tested_eq_zero tested i j i j).1 (of_decide_eq_true hx)
    exact this.2 ⟨rfl, rfl⟩

theorem solveLoop_trace {σ : Type} (n : Nat) (corr : MatrixXi) (incRec : σ → Nat → Nat → Bool × σ)
    (fuel : Nat) (tested : MatrixXi) (idx0 idx1 : Nat) (st : σ) :
    (∀ p ∈ (solveLoop n corr incRec fuel tested idx0 idx1 st).2.1,
        p ∈ seedPairs n ∧ tested p.1 p.2 = 0) ∧
      (solveLoop n corr incRec fuel tested idx0 idx1 st).2.1.Nodup ∧
      (solveLoop n corr incRec fuel tested idx0 idx1 st).2.1.Pairwise
        (fun p q => corr q.1 q.2 ≤ corr p.1 p.2) ∧
      (solveLoop n corr incRec fuel tested idx0 idx1 st).2.1.length ≤ untestedCount n tested ∧
      (untestedCount n tested < fuel →
        (solveLoop n corr incRec fuel tested idx0 idx1 st).1 ≠ SolveExit.outOfFuel) := by
  induction fuel generalizing tested idx0 idx1 st with
  | zero =>
    simp only [solveLoop]
    refine ⟨by simp, List.nodup_nil, List.Pairwise.nil, by simp, fun h => by omega⟩
  | succ fuel ih =>
    rcases seedScan_cases n corr tested idx0 idx1 with hneg | ⟨hpos, hmem, h0, hmax, hall⟩
    · simp only [solveLoop, hneg, if_true]
      refine ⟨by simp, List.nodup_nil, List.Pairwise.nil, by simp, fun _ => by simp⟩
    · have hnn : ¬ (seedScan n corr tested idx0 idx1).max_corr < 0 := by omega
      have hlt := untestedCount_set_lt n tested _ _ hmem h0
      rcases hres : incRec st (seedScan n corr tested idx0 idx1).seed_pair_idx0
          (seedScan n corr tested idx0 idx1).seed_pair_idx1 with ⟨b, st'⟩
      cases b with
      | true =>
        simp only [solveLoop, hnn, if_false, hres]
        refine ⟨?_, by simp, by simp, ?_, fun _ => by simp⟩
        · intro p hp
          rw [List.mem_singleton] at hp
          subst hp
          exact ⟨hmem, h0⟩
        · simp only [List.length_singleton]
          omega
      | false =>
        simp only [solveLoop, hnn, if_false, hres]
        obtain ⟨r1, r2, r3, r4, r5⟩ := ih
          (MatrixXi.set tested (seedScan n corr tested idx0 idx1).seed_pair_idx0
            (seedScan n corr tested idx0 idx1).seed_pair_idx1 1)
          (seedScan n corr tested idx0 idx1).seed_pair_idx0
          (seedScan n corr tested idx0 idx1).seed_pair_idx1 st'
        have hrest : ∀ q ∈ (solveLoop n corr incRec fuel
            (MatrixXi.set tested (seedScan n corr tested idx0 idx1).seed_pair_idx0
              (seedScan n corr tested idx0 idx1).seed_pair_idx1 1)
            (seedScan n corr tested idx0 idx1).seed_pair_idx0
            (seedScan n corr tested idx0 idx1).seed_pair_idx1 st').2.1,
            q ∈ seedPairs n ∧ tested q.1 q.2 = 0 ∧
              ¬ (q.1 = (seedScan n corr tested idx0 idx1).seed_pair_idx0 ∧
                q.2 = (seedScan n corr tested idx0 idx1).seed_pair_idx1) := by
          intro q hq
          have := r1 q hq
          have h2 := (set_tested_eq_zero tested _ _ q.1 q.2).1 this.2
          exact ⟨this.1, h2.1, h2.2⟩
        refine ⟨?_, ?_, ?_, ?_, ?_⟩
        · intro p hp
          rcases List.mem_cons.1 hp with e | hp
          · subst e; exact ⟨hmem, h0⟩
          · exact ⟨(hrest p hp).1, (hrest p hp).2.1⟩
        · refine List.nodup_cons.2 ⟨?_, r2⟩
          intro hin
          exact (hrest _ hin).2.2 ⟨rfl, rfl⟩
        · refine List.Pairwise.cons ?_ r3
          intro q hq
          have := hall q (hrest q hq).1 (hrest q hq).2.1
          rw [hmax] at this
          exact this
        · simp only [List.length_cons]
          omega
        · intro hfuel
          exact r5 (by omega)

theorem sum_colRange_lengths (n m : Nat) (hm : m ≤ n) :
    2 * ((List.range m).map (fun r => n - (r + 1))).sum + m * (m + 1) = 2 * m * n := by
  induction m with
  | zero => simp
  | succ m ih =>
    have h := ih (by omega)
    rw [List.range_succ, List.map_append, List.sum_append]
    simp only [List.map_cons, List.map_nil, List.sum_cons, List.sum_nil, add_zero]
    obtain ⟨k, rfl⟩ : ∃ k, n = m + 1 + k := ⟨n - (m + 1), by omega⟩
    have hk : m + 1 + k - (m + 1) = k := by omega
    rw [hk]
    nlinarith [h]

theorem seedPairs_length (n : Nat) : (seedPairs n).length = n * (n - 1) / 2 := by
  have hlen : (seedPairs n).length = ((List.range n).map (fun r => n - (r + 1))).sum := by
    unfold seedPairs
    rw [List.length_flatMap]
    congr 1
    apply List.map_congr_left
    intro r _
    simp [colRange]
  have h := sum_colRange_lengths n n (le_refl _)
  rw [← hlen] at h
  have h2 : 2 * (seedPairs n).length = n * (n - 1) := by
    cases n with
    | zero => simpa using h
    | succ k =>
      simp only [Nat.add_sub_cancel]
      nlinarith [h]
  omega

theorem untestedCount_le (n : Nat) (tested : MatrixXi) : untestedCount n tested ≤ n * (n - 1) / 2 := by
  rw [← seedPairs_length]
  exact List.length_filter_le _ _

/-- C18: with `incrementalReconstruction` any function that returns, the seed-search loop
of `solve` ends within `n(n-1)/2 + 1` rounds for `n` cameras, by "no seed pair found" or
by a completed reconstruction; the pairs it hands to `incrementalReconstruction` are
pairs `r < c` of cameras, no pair occurs twice, and there are at most `n(n-1)/2` calls. -/
theorem C18_seed_search_terminates {σ : Type} (s : Sfm) (incRec : σ → Nat → Nat → Bool × σ)
    (extra idx0 idx1 : Nat) (st : σ) :
    ((solveLoop s.num_cam_poses_ (corrMatrix s) incRec
          (s.num_cam_poses_ * (s.num_cam_poses_ - 1) / 2 + 1 + extra) MatrixXi.Zero idx0 idx1
          st).1 = SolveExit.noSeedPairFound ∨
        (solveLoop s.num_cam_poses_ (corrMatrix s) incRec
          (s.num_cam_poses_ * (s.num_cam_poses_ - 1) / 2 + 1 + extra) MatrixXi.Zero idx0 idx1
          st).1 = SolveExit.reconstructionCompleted) ∧
      (solveLoop s.num_cam_poses_ (corrMatrix s) incRec
        (s.num_cam_poses_ * (s.num_cam_poses_ - 1) / 2 + 1 + extra) MatrixXi.Zero idx0 idx1
        st).2.1.Nodup ∧
      (solveLoop s.num_cam_poses_ (corrMatrix s) incRec
        (s.num_cam_poses_ * (s.num_cam_poses_ - 1) / 2 + 1 + extra) MatrixXi.Zero idx0 idx1
        st).2.1.length ≤ s.num_cam_poses_ * (s.num_cam_poses_ - 1) / 2 ∧
      ∀ p ∈ (solveLoop s.num_cam_poses_ (corrMatrix s) incRec
          (s.num_cam_poses_ * (s.num_cam_poses_ - 1) / 2 + 1 + extra) MatrixXi.Zero idx0 idx1
          st).2.1, p.1 < p.2 ∧ p.2 < s.num_cam_poses_ := by
  obtain ⟨h1, h2, _, h4, h5⟩ := solveLoop_trace s.num_cam_poses_ (corrMatrix s) incRec
    (s.num_cam_poses_ * (s.num_cam_poses_ - 1) / 2 + 1 + extra) MatrixXi.Zero idx0 idx1 st
  have hle := untestedCount_le s.num_cam_poses_ MatrixXi.Zero
  refine ⟨?_, h2, le_trans h4 hle, ?_⟩
  · have hne := h5 (by omega)
    cases hx : (solveLoop s.num_cam_poses_ (corrMatrix s) incRec
        (s.num_cam_poses_ * (s.num_cam_poses_ - 1) / 2 + 1 + extra) MatrixXi.Zero idx0 idx1
        st).1 with
    | noSeedPairFound => exact Or.inl rfl
    | reconstructionCompleted => exact Or.inr rfl
    | outOfFuel => exact absurd hx hne
  · intro p hp
    exact (mem_seedPairs _ p.1 p.2).1 (h1 p hp).1

/-- C20: the pairs that the seed-search loop of `solve` proposes, in the order it proposes
them, have non-increasing counts: the count of each proposed pair is at most the count of
every pair proposed before it (from any mask of tested pairs, for any number of rounds). -/
theorem C20_proposed_counts_non_increasing {σ : Type} (s : Sfm)
    (incRec : σ → Nat → Nat → Bool × σ) (fuel : Nat) (already_tested_pair : MatrixXi)
    (idx0 idx1 : Nat) (st : σ) :
    (solveLoop s.num_cam_poses_ (corrMatrix s) incRec fuel already_tested_pair idx0 idx1
        st).2.1.Pairwise
      (fun earlier later => corrMatrix s later.1 later.2 ≤ corrMatrix s earlier.1 earlier.2) :=
  (solveLoop_trace s.num_cam_poses_ (corrMatrix s) incRec fuel already_tested_pair idx0 idx1
    st).2.2.1

/-! ## The two passes of the bundle adjustment, on the mask of point statuses -/

theorem bundleAdjustmentIter_succ (ext : Ext) (fuel : Nat) (s : Sfm) :
    bundleAdjustmentIter ext (fuel + 1) s
      = if (bundleAdjustmentRound ext s).2 = true then
          bundleAdjustmentIter ext fuel (bundleAdjustmentRound ext s).1
        else some (bundleAdjustmentRound ext s).1 := by
  unfold bundleAdjustmentRound
  rw [bundleAdjustmentIter]
  simp only []
  split_ifs <;> simp_all

theorem cheiralityFold_eq (ext : Ext) (s : Sfm) (l : List Nat) (m : List Int) (k : Int) :
    l.foldl
        (fun (acc : Sfm × Int) i_obs =>
          let cam := acc.1.cam_pose_index_.getD i_obs 0
          let pt := acc.1.point_index_.getD i_obs 0
          if acc.1.camStatus cam > 0 ∧ acc.1.ptStatus pt = 1 ∧
              checkCheiralityConstraint ext acc.1 cam pt = false then
            (acc.1.setPtStatus pt (acc.1.ptStatus pt - 2), acc.2 + 1)
          else acc)
        ({ s with pts_optim_iter_ := m }, k)
      = ({ s with pts_optim_iter_ :=
            (l.foldl (penaltyStep (fun st => decide (st = 1)) (cheiralityFlag ext s)
              (fun i => s.point_index_.getD i 0)) (m, k)).1 },
          (l.foldl (penaltyStep (fun st => decide (st = 1)) (cheiralityFlag ext s)
              (fun i => s.point_index_.getD i 0)) (m, k)).2) := by
  induction l generalizing m k with
  | nil => rfl
  | cons i rest ih =>
    rw [List.foldl_cons, List.foldl_cons]
    by_cases hc : s.camStatus (s.cam_pose_index_.getD i 0) > 0 ∧
        m.getD (s.point_index_.getD i 0) 0 = 1 ∧
        checkCheiralityConstraint ext s (s.cam_pose_index_.getD i 0)
          (s.point_index_.getD i 0) = false
    · have hstep : penaltyStep (fun st => decide (st = 1)) (cheiralityFlag ext s)
          (fun i => s.point_index_.getD i 0) (m, k) i
          = (m.set (s.point_index_.getD i 0) (m.getD (s.point_index_.getD i 0) 0 - 2), k + 1) := by
        unfold penaltyStep cheiralityFlag
        rw [if_pos]
        simp only [Bool.and_eq_true, decide_eq_true_eq, Bool.not_eq_true']
        exact ⟨⟨hc.1, hc.2.2⟩, hc.2.1⟩
      rw [hstep, ← ih]
      congr 1
      exact if_pos hc
    · have hstep : penaltyStep (fun st => decide (st = 1)) (cheiralityFlag ext s)
          (fun i => s.point_index_.getD i 0) (m, k) i = (m, k) := by
        unfold penaltyStep cheiralityFlag
        rw [if_neg]
        intro h
        apply hc
        simp only [Bool.and_eq_true, decide_eq_true_eq, Bool.not_eq_true'] at h
        exact ⟨h.1.1, h.2, h.1.2⟩
      rw [hstep, ← ih]
      congr 1
      exact if_neg hc

theorem outlierFold_eq (ext : Ext) (s : Sfm) (l : List Nat) (m : List Int) (k : Int) :
    l.foldl
        (fun (acc : Sfm × Int) i_obs =>
          let cam := acc.1.cam_pose_index_.getD i_obs 0
          let pt := acc.1.point_index_.getD i_obs 0
          if acc.1.camStatus cam > 0 ∧ acc.1.ptStatus pt > 0 then
            let p := (ext.AngleAxisRotatePoint (acc.1.camR cam) (acc.1.pt pt)).add (acc.1.camT cam)
            let predicted_x := p.1 / p.2.2
            let predicted_y := p.2.1 / p.2.2
            if |predicted_x - (acc.1.obs i_obs).1| > acc.1.max_reproj_err_ ∨
                |predicted_y - (acc.1.obs i_obs).2| > acc.1.max_reproj_err_ then
              (acc.1.setPtStatus pt (acc.1.ptStatus pt - 2), acc.2 + 1)
            else acc
          else acc)
        ({ s with pts_optim_iter_ := m }, k)
      = ({ s with pts_optim_iter_ :=
            (l.foldl (penaltyStep (fun st => decide (st > 0)) (outlierFlag ext s)
              (fun i => s.point_index_.getD i 0)) (m, k)).1 },
          (l.foldl (penaltyStep (fun st => decide (st > 0)) (outlierFlag ext s)
              (fun i => s.point_index_.getD i 0)) (m, k)).2) := by
  induction l generalizing m k with
  | nil => rfl
  | cons i rest ih =>
    rw [List.foldl_cons, List.foldl_cons]
    by_cases hc : s.camStatus (s.cam_pose_index_.getD i 0) > 0 ∧
        m.getD (s.point_index_.getD i 0) 0 > 0
    · by_cases hbad : |(predictedProjection ext s i).1 - (s.obs i).1| > s.max_reproj_err_ ∨
          |(predictedProjection ext s i).2 - (s.obs i).2| > s.max_reproj_err_
      · have hstep : penaltyStep (fun st => decide (st > 0)) (outlierFlag ext s)
            (fun i => s.point_index_.getD i 0) (m, k) i
            = (m.set (s.point_index_.getD i 0) (m.getD (s.point_index_.getD i 0) 0 - 2), k + 1) := by
          unfold penaltyStep outlierFlag
          rw [if_pos]
          simp only [Bool.and_eq_true, decide_eq_true_eq]
          exact ⟨⟨hc.1, hbad⟩, hc.2⟩
        rw [hstep, ← ih]
        congr 1
        exact (if_pos hc).trans (if_pos hbad)
      · have hstep : penaltyStep (fun st => decide (st > 0)) (outlierFlag ext s)
            (fun i => s.point_index_.getD i 0) (m, k) i = (m, k) := by
          unfold penaltyStep outlierFlag
          rw [if_neg]
          intro h
          simp only [Bool.and_eq_true, decide_eq_true_eq] at h
          exact hbad h.1.2
        rw [hstep, ← ih]
        congr 1
        exact (if_pos hc).trans (if_neg hbad)
    · have hstep : penaltyStep (fun st => decide (st > 0)) (outlierFlag ext s)
          (fun i => s.point_index_.getD i 0) (m, k) i = (m, k) := by
        unfold penaltyStep outlierFlag
        rw [if_neg]
        intro h
        simp only [Bool.and_eq_true, decide_eq_true_eq] at h
        exact hc ⟨h.1.1, h.2⟩
      rw [hstep, ← ih]
      congr 1
      exact if_neg hc

theorem cheiralityPass_eq (ext : Ext) (s : Sfm) :
    cheiralityPass ext s
      = ({ s with pts_optim_iter_ :=
            ((List.range s.num_observations_).foldl
              (penaltyStep (fun st => decide (st = 1)) (cheiralityFlag ext s)
                (fun i => s.point_index_.getD i 0)) (s.pts_optim_iter_, 0)).1 },
          ((List.range s.num_observations_).foldl
              (penaltyStep (fun st => decide (st = 1)) (cheiralityFlag ext s)
                (fun i => s.point_index_.getD i 0)) (s.pts_optim_iter_, 0)).2) :=
  cheiralityFold_eq ext s (List.range s.num_observations_) s.pts_optim_iter_ 0

theorem rejectOuliers_eq (ext : Ext) (s : Sfm) :
    rejectOuliers ext s
      = ({ s with pts_optim_iter_ :=
            ((List.range s.num_observations_).foldl
              (penaltyStep (fun st => decide (st > 0)) (outlierFlag ext s)
                (fun i => s.point_index_.getD i 0)) (s.pts_optim_iter_, 0)).1 },
          ((List.range s.num_observations_).foldl
              (penaltyStep (fun st => decide (st > 0)) (outlierFlag ext s)
                (fun i => s.point_index_.getD i 0)) (s.pts_optim_iter_, 0)).2) :=
  outlierFold_eq ext s (List.range s.num_observations_) s.pts_optim_iter_ 0

theorem getD_set_int (l : List Int) (q p : Nat) (v : Int) :
    (l.set q v).getD p 0 = if q = p ∧ q < l.length then v else l.getD p 0 := by
  rw [List.getD_eq_getElem?_getD, List.getD_eq_getElem?_getD, List.getElem?_set]
  by_cases h : q = p
  · subst h
    by_cases h2 : q < l.length
    · simp [h2]
    · simp only [h2, if_false, true_and, if_true]
      rw [List.getElem?_eq_none (by omega)]
  · simp [h]

theorem getD_pos_lt_length (l : List Int) (q : Nat) (h : 0 < l.getD q 0) : q < l.length := by
  by_contra hq
  rw [List.getD_eq_getElem?_getD, List.getElem?_eq_none (by omega)] at h
  simp at h

theorem getD_le_one (l : List Int) (q : Nat) (h : ∀ x ∈ l, x ≤ 1) : l.getD q 0 ≤ 1 := by
  by_cases hq : q < l.length
  · rw [List.getD_eq_getElem _ _ hq]
    exact h _ (List.getElem_mem _)
  · rw [List.getD_eq_getElem?_getD, List.getElem?_eq_none (by omega)]
    simp

theorem penaltyStep_length (ok : Int → Bool) (flag : Nat → Bool) (ptOf : Nat → Nat)
    (acc : List Int × Int) (i : Nat) :
    (penaltyStep ok flag ptOf acc i).1.length = acc.1.length := by
  unfold penaltyStep
  split_ifs
  · simp
  · rfl

theorem penaltyStep_getD_le (ok : Int → Bool) (flag : Nat → Bool) (ptOf : Nat → Nat)
    (acc : List Int × Int) (i p : Nat) :
    (penaltyStep ok flag ptOf acc i).1.getD p 0 ≤ acc.1.getD p 0 := by
  unfold penaltyStep
  split_ifs
  · simp only [getD_set_int]
    split_ifs with h
    · rw [← h.1]; omega
    · exact le_refl _
  · exact le_refl _

theorem penaltyStep_count (ok : Int → Bool) (flag : Nat → Bool) (ptOf : Nat → Nat)
    (acc : List Int × Int) (i : Nat) :
    acc.2 ≤ (penaltyStep ok flag ptOf acc i).2 := by
  unfold penaltyStep
  split_ifs
  · simp
  · exact le_refl _

theorem penaltyStep_le_one (ok : Int → Bool) (flag : Nat → Bool) (ptOf : Nat → Nat)
    (acc : List Int × Int) (i : Nat) (h : ∀ x ∈ acc.1, x ≤ 1) :
    ∀ x ∈ (penaltyStep ok flag ptOf acc i).1, x ≤ 1 := by
  unfold penaltyStep
  split_ifs
  · intro x hx
    rcases List.mem_or_eq_of_mem_set hx with hx | hx
    · exact h x hx
    · have := getD_le_one acc.1 (ptOf i) h
      omega
  · exact h

theorem penaltyFold_length (ok : Int → Bool) (flag : Nat → Bool) (ptOf : Nat → Nat)
    (l : List Nat) (acc : List Int × Int) :
    (l.foldl (penaltyStep ok flag ptOf) acc).1.length = acc.1.length := by
  induction l generalizing acc with
  | nil => rfl
  | cons i rest ih => rw [List.foldl_cons, ih, penaltyStep_length]

theorem penaltyFold_getD_le (ok : Int → Bool) (flag : Nat → Bool) (ptOf : Nat → Nat)
    (l : List Nat) (acc : List Int × Int) (p : Nat) :
    (l.foldl (penaltyStep ok flag ptOf) acc).1.getD p 0 ≤ acc.1.getD p 0 := by
  induction l generalizing acc with
  | nil => exact le_refl _
  | cons i rest ih =>
    rw [List.foldl_cons]
    exact le_trans (ih _) (penaltyStep_getD_le ok flag ptOf acc i p)

theorem penaltyFold_count (ok : Int → Bool) (flag : Nat → Bool) (ptOf : Nat → Nat)
    (l : List Nat) (acc : List Int × Int) :
    acc.2 ≤ (l.foldl (penaltyStep ok flag ptOf) acc).2 := by
  induction l generalizing acc with
  | nil => exact le_refl _
  | cons i rest ih =>
    rw [List.foldl_cons]
    exact le_trans (penaltyStep_count ok flag ptOf acc i) (ih _)

theorem penaltyFold_le_one (ok : Int → Bool) (flag : Nat → Bool) (ptOf : Nat → Nat)
    (l : List Nat) (acc : List Int × Int) (h : ∀ x ∈ acc.1, x ≤ 1) :
    ∀ x ∈ (l.foldl (penaltyStep ok flag ptOf) acc).1, x ≤ 1 := by
  induction l generalizing acc with
  | nil => exact h
  | cons i rest ih =>
    rw [List.foldl_cons]
    exact ih _ (penaltyStep_le_one ok flag ptOf acc i h)

theorem penaltyFold_fixed (ok : Int → Bool) (flag : Nat → Bool) (ptOf : Nat → Nat)
    (l : List Nat) (acc : List Int × Int)
    (h : ∀ i ∈ l, ¬ (flag i = true ∧ ok (acc.1.getD (ptOf i) 0) = true)) :
    l.foldl (penaltyStep ok flag ptOf) acc = acc := by
  induction l with
  | nil => rfl
  | cons i rest ih =>
    rw [List.foldl_cons]
    have hstep : penaltyStep ok flag ptOf acc i = acc := by
      unfold penaltyStep
      rw [if_neg (h i (List.mem_cons_self _ _))]
    rw [hstep]
    exact ih (fun j hj => h j (List.mem_cons_of_mem _ hj))

theorem penaltyFold_absorbed (ok : Int → Bool) (flag : Nat → Bool) (ptOf : Nat → Nat)
    (hok : ∀ st, ok st = true → 0 < st) (l : List Nat) (acc : List Int × Int) (p : Nat)
    (hp : acc.1.getD p 0 ≤ 0) :
    (l.foldl (penaltyStep ok flag ptOf) acc).1.getD p 0 = acc.1.getD p 0 := by
  induction l generalizing acc with
  | nil => rfl
  | cons i rest ih =>
    rw [List.foldl_cons]
    have hstep : (penaltyStep ok flag ptOf acc i).1.getD p 0 = acc.1.getD p 0 := by
      unfold penaltyStep
      split_ifs with hc
      · simp only [getD_set_int]
        split_ifs with h
        · exfalso
          have := hok _ hc.2
          rw [h.1] at this
          omega
        · rfl
      · rfl
    rw [ih _ (by rw [hstep]; exact hp), hstep]

theorem penaltyFold_hit (ok : Int → Bool) (flag : Nat → Bool) (ptOf : Nat → Nat)
    (hok : ∀ st, ok st = true → 0 < st) (hone : ok 1 = true) (l : List Nat)
    (acc : List Int × Int) (i : Nat) (hi : i ∈ l) (hflag : flag i = true)
    (hst : acc.1.getD (ptOf i) 0 = 1) :
    (l.foldl (penaltyStep ok flag ptOf) acc).1.getD (ptOf i) 0 = -1 ∧
      acc.2 + 1 ≤ (l.foldl (penaltyStep ok flag ptOf) acc).2 := by
  induction l generalizing acc with
  | nil => simp at hi
  | cons j rest ih =>
    rw [List.foldl_cons]
    by_cases hc : flag j = true ∧ ok (acc.1.getD (ptOf j) 0) = true
    · have hstep : penaltyStep ok flag ptOf acc j
          = (acc.1.set (ptOf j) (acc.1.getD (ptOf j) 0 - 2), acc.2 + 1) := by
        unfold penaltyStep; rw [if_pos hc]
      rw [hstep]
      by_cases hpj : ptOf j = ptOf i
      · have hlen : ptOf j < acc.1.length := getD_pos_lt_length _ _ (hok _ hc.2)
        have hval : (acc.1.set (ptOf j) (acc.1.getD (ptOf j) 0 - 2)).getD (ptOf i) 0 = -1 := by
          rw [getD_set_int, if_pos ⟨hpj, hlen⟩, hpj, hst]
          rfl
        constructor
        · rw [penaltyFold_absorbed ok flag ptOf hok rest _ (ptOf i) (by simp only; rw [hval]; omega)]
          exact hval
        · exact penaltyFold_count ok flag ptOf rest _
      · have hval : (acc.1.set (ptOf j) (acc.1.getD (ptOf j) 0 - 2)).getD (ptOf i) 0 = 1 := by
          rw [getD_set_int, if_neg (fun h => hpj h.1), hst]
        have hi' : i ∈ rest := by
          rcases List.mem_cons.1 hi with e | h
          · subst e; exact absurd rfl hpj
          · exact h
        have := ih (acc.1.set (ptOf j) (acc.1.getD (ptOf j) 0 - 2), acc.2 + 1) hi' hval
        exact ⟨this.1, by have := this.2; simp only at this; omega⟩
    · have hstep : penaltyStep ok flag ptOf acc j = acc := by
        unfold penaltyStep; rw [if_neg hc]
      rw [hstep]
      have hi' : i ∈ rest := by
        rcases List.mem_cons.1 hi with e | h
        · subst e
          exact absurd ⟨hflag, by rw [hst]; exact hone⟩ hc
        · exact h
      exact ih _ hi' hst

theorem penaltyFold_settled (ok : Int → Bool) (flag : Nat → Bool) (ptOf : Nat → Nat)
    (hok : ∀ st, ok st = true → 0 < st) (hone : ok 1 = true) (l : List Nat) (m : List Int)
    (k : Int) (hle : ∀ x ∈ m, x ≤ 1) (m' : List Int)
    (hm' : ∀ p, m'.getD p 0 ≤ (l.foldl (penaltyStep ok flag ptOf) (m, k)).1.getD p 0) :
    ∀ i ∈ l, ¬ (flag i = true ∧ ok (m'.getD (ptOf i) 0) = true) := by
  rintro i hi ⟨hf, hk⟩
  have h1 := hok _ hk
  have h2 := hm' (ptOf i)
  have h3 := getD_le_one _ (ptOf i) (penaltyFold_le_one ok flag ptOf l (m, k) hle)
  have h4 := penaltyFold_getD_le ok flag ptOf l (m, k) (ptOf i)
  have h5 := getD_le_one m (ptOf i) hle
  have hm1 : m.getD (ptOf i) 0 = 1 := by
    simp only at h4
    omega
  have := (penaltyFold_hit ok flag ptOf hok hone l (m, k) i hi hf hm1).1
  omega

theorem countPositive_set (l : List Int) (q : Nat) (v : Int) (hq : 0 < l.getD q 0) (hv : v ≤ 0) :
    countPositive (l.set q v) + 1 = countPositive l := by
  unfold countPositive
  induction l generalizing q with
  | nil => simp at hq
  | cons a t ih =>
    cases q with
    | zero =>
      have ha : 0 < a := by simpa using hq
      rw [List.set_cons_zero, List.filter_cons_of_neg (by simpa using hv),
        List.filter_cons_of_pos (by simpa using ha)]
      rfl
    | succ q =>
      have hq' : 0 < t.getD q 0 := by simpa using hq
      rw [List.set_cons_succ]
      by_cases ha : 0 < a
      · rw [List.filter_cons_of_pos (by simpa using ha), List.filter_cons_of_pos (by simpa using ha)]
        simp only [List.length_cons]
        have := ih q hq'
        omega
      · rw [List.filter_cons_of_neg (by simpa using ha), List.filter_cons_of_neg (by simpa using ha)]
        exact ih q hq'

theorem penaltyFold_countPositive (ok : Int → Bool) (flag : Nat → Bool) (ptOf : Nat → Nat)
    (hok : ∀ st, ok st = true → 0 < st) (l : List Nat) (acc : List Int × Int)
    (hle : ∀ x ∈ acc.1, x ≤ 1) :
    (countPositive (l.foldl (penaltyStep ok flag ptOf) acc).1 : Int)
        + ((l.foldl (penaltyStep ok flag ptOf) acc).2 - acc.2)
      = countPositive acc.1 := by
  induction l generalizing acc with
  | nil => simp
  | cons i rest ih =>
    rw [List.foldl_cons]
    have hrec := ih _ (penaltyStep_le_one ok flag ptOf acc i hle)
    have hstep : (countPositive (penaltyStep ok flag ptOf acc i).1 : Int)
        + ((penaltyStep ok flag ptOf acc i).2 - acc.2) = countPositive acc.1 := by
      unfold penaltyStep
      split_ifs with hc
      · have hpos := hok _ hc.2
        have h1 := getD_le_one acc.1 (ptOf i) hle
        have := countPositive_set acc.1 (ptOf i) (acc.1.getD (ptOf i) 0 - 2) hpos (by omega)
        simp only
        omega
      · simp
    omega

/-! ## The two passes, on the object -/

theorem cheiralityPass_ptStatus_le (ext : Ext) (s : Sfm) (p : Nat) :
    (cheiralityPass ext s).1.ptStatus p ≤ s.ptStatus p := by
  rw [cheiralityPass_eq]
  exact penaltyFold_getD_le _ _ _ _ (s.pts_optim_iter_, 0) p

theorem rejectOuliers_ptStatus_le (ext : Ext) (s : Sfm) (p : Nat) :
    (rejectOuliers ext s).1.ptStatus p ≤ s.ptStatus p := by
  rw [rejectOuliers_eq]
  exact penaltyFold_getD_le _ _ _ _ (s.pts_optim_iter_, 0) p

theorem cheiralityPass_frame (ext : Ext) (s : Sfm) :
    (cheiralityPass ext s).1.cam_pose_optim_iter_ = s.cam_pose_optim_iter_ ∧
      (cheiralityPass ext s).1.parameters_ = s.parameters_ ∧
      (cheiralityPass ext s).1.max_outliers_ = s.max_outliers_ ∧
      (cheiralityPass ext s).1.pts_optim_iter_.length = s.pts_optim_iter_.length ∧
      0 ≤ (cheiralityPass ext s).2 := by
  rw [cheiralityPass_eq]
  exact ⟨rfl, rfl, rfl, penaltyFold_length _ _ _ _ (s.pts_optim_iter_, 0),
    penaltyFold_count _ _ _ _ (s.pts_optim_iter_, 0)⟩

theorem rejectOuliers_frame (ext : Ext) (s : Sfm) :
    (rejectOuliers ext s).1.cam_pose_optim_iter_ = s.cam_pose_optim_iter_ ∧
      (rejectOuliers ext s).1.parameters_ = s.parameters_ ∧
      (rejectOuliers ext s).1.max_outliers_ = s.max_outliers_ ∧
      (rejectOuliers ext s).1.pts_optim_iter_.length = s.pts_optim_iter_.length ∧
      0 ≤ (rejectOuliers ext s).2 := by
  rw [rejectOuliers_eq]
  exact ⟨rfl, rfl, rfl, penaltyFold_length _ _ _ _ (s.pts_optim_iter_, 0),
    penaltyFold_count _ _ _ _ (s.pts_optim_iter_, 0)⟩

theorem cheiralityPass_le_one (ext : Ext) (s : Sfm) (hle : ∀ x ∈ s.pts_optim_iter_, x ≤ 1) :
    ∀ x ∈ (cheiralityPass ext s).1.pts_optim_iter_, x ≤ 1 := by
  rw [cheiralityPass_eq]
  exact penaltyFold_le_one _ _ _ _ (s.pts_optim_iter_, 0) hle

theorem rejectOuliers_le_one (ext : Ext) (s : Sfm) (hle : ∀ x ∈ s.pts_optim_iter_, x ≤ 1) :
    ∀ x ∈ (rejectOuliers ext s).1.pts_optim_iter_, x ≤ 1 := by
  rw [rejectOuliers_eq]
  exact penaltyFold_le_one _ _ _ _ (s.pts_optim_iter_, 0) hle

theorem cheiralityPass_registeredCount (ext : Ext) (s : Sfm)
    (hle : ∀ x ∈ s.pts_optim_iter_, x ≤ 1) :
    (registeredCount (cheiralityPass ext s).1 : Int) + (cheiralityPass ext s).2
      = registeredCount s := by
  rw [cheiralityPass_eq]
  have := penaltyFold_countPositive (fun st => decide (st = 1)) (cheiralityFlag ext s)
    (fun i => s.point_index_.getD i 0) (fun st h => by simp at h; omega)
    (List.range s.num_observations_) (s.pts_optim_iter_, 0) hle
  simp only [sub_zero] at this
  exact this

theorem rejectOuliers_registeredCount (ext : Ext) (s : Sfm)
    (hle : ∀ x ∈ s.pts_optim_iter_, x ≤ 1) :
    (registeredCount (rejectOuliers ext s).1 : Int) + (rejectOuliers ext s).2
      = registeredCount s := by
  rw [rejectOuliers_eq]
  have := penaltyFold_countPositive (fun st => decide (st > 0)) (outlierFlag ext s)
    (fun i => s.point_index_.getD i 0) (fun st h => by simpa using h)
    (List.range s.num_observations_) (s.pts_optim_iter_, 0) hle
  simp only [sub_zero] at this
  exact this

theorem rejectOuliers_hit (ext : Ext) (s : Sfm) (i_obs : Nat) (hi : i_obs < s.num_observations_)
    (hflag : outlierFlag ext s i_obs = true)
    (hst : s.ptStatus (s.point_index_.getD i_obs 0) = 1) :
    (rejectOuliers ext s).1.ptStatus (s.point_index_.getD i_obs 0) = -1 ∧
      1 ≤ (rejectOuliers ext s).2 := by
  rw [rejectOuliers_eq]
  have := penaltyFold_hit (fun st => decide (st > 0)) (outlierFlag ext s)
    (fun i => s.point_index_.getD i 0) (fun st h => by simpa using h) (by decide)
    (List.range s.num_observations_) (s.pts_optim_iter_, 0) i_obs (List.mem_range.2 hi) hflag hst
  exact ⟨this.1, by have := this.2; simp only [zero_add] at this; exact this⟩

/-! ## The rounds of the bundle adjustment -/

theorem bundleAdjustmentRound_eq (ext : Ext) (s : Sfm) :
    bundleAdjustmentRound ext s
      = if (cheiralityPass ext (solvedState ext s)).2 > s.max_outliers_ then
          ({ (cheiralityPass ext (solvedState ext s)).1 with parameters_ := s.parameters_ }, true)
        else if (rejectOuliers ext (cheiralityPass ext (solvedState ext s)).1).2
            > s.max_outliers_ then
          ({ (rejectOuliers ext (cheiralityPass ext (solvedState ext s)).1).1 with
              parameters_ := s.parameters_ }, true)
        else ((rejectOuliers ext (cheiralityPass ext (solvedState ext s)).1).1, false) := rfl

theorem bundleAdjustmentRound_invariants (ext : Ext) (s : Sfm) (hmax : 0 ≤ s.max_outliers_)
    (hle : ∀ x ∈ s.pts_optim_iter_, x ≤ 1) :
    (bundleAdjustmentRound ext s).1.max_outliers_ = s.max_outliers_ ∧
      (∀ x ∈ (bundleAdjustmentRound ext s).1.pts_optim_iter_, x ≤ 1) ∧
      registeredCount (bundleAdjustmentRound ext s).1 ≤ registeredCount s ∧
      ((bundleAdjustmentRound ext s).2 = true →
        registeredCount (bundleAdjustmentRound ext s).1 < registeredCount s) := by
  have hle0 : ∀ x ∈ (solvedState ext s).pts_optim_iter_, x ≤ 1 := hle
  have c1 := cheiralityPass_frame ext (solvedState ext s)
  have c2 := cheiralityPass_le_one ext (solvedState ext s) hle0
  have c3 : (registeredCount (cheiralityPass ext (solvedState ext s)).1 : Int)
      + (cheiralityPass ext (solvedState ext s)).2 = registeredCount s :=
    cheiralityPass_registeredCount ext (solvedState ext s) hle0
  have r1 := rejectOuliers_frame ext (cheiralityPass ext (solvedState ext s)).1
  have r2 := rejectOuliers_le_one ext (cheiralityPass ext (solvedState ext s)).1 c2
  have r3 := rejectOuliers_registeredCount ext (cheiralityPass ext (solvedState ext s)).1 c2
  have hm0 : (solvedState ext s).max_outliers_ = s.max_outliers_ := rfl
  rw [bundleAdjustmentRound_eq]
  split_ifs with h1 h2
  · refine ⟨by show (cheiralityPass ext (solvedState ext s)).1.max_outliers_ = _; rw [c1.2.2.1, hm0],
      c2, ?_, fun _ => ?_⟩
    · show registeredCount (cheiralityPass ext (solvedState ext s)).1 ≤ _
      have := c1.2.2.2.2
      omega
    · show registeredCount (cheiralityPass ext (solvedState ext s)).1 < _
      omega
  · refine ⟨by
        show (rejectOuliers ext (cheiralityPass ext (solvedState ext s)).1).1.max_outliers_ = _
        rw [r1.2.2.1, c1.2.2.1, hm0], r2, ?_, fun _ => ?_⟩
    · show registeredCount (rejectOuliers ext (cheiralityPass ext (solvedState ext s)).1).1 ≤ _
      have := c1.2.2.2.2
      have := r1.2.2.2.2
      omega
    · show registeredCount (rejectOuliers ext (cheiralityPass ext (solvedState ext s)).1).1 < _
      have := c1.2.2.2.2
      omega
  · refine ⟨by
        show (rejectOuliers ext (cheiralityPass ext (solvedState ext s)).1).1.max_outliers_ = _
        rw [r1.2.2.1, c1.2.2.1, hm0], r2, ?_, fun h => by simp at h⟩
    show registeredCount (rejectOuliers ext (cheiralityPass ext (solvedState ext s)).1).1 ≤ _
    have := c1.2.2.2.2
    have := r1.2.2.2.2
    omega

theorem bundleAdjustmentIter_terminates (ext : Ext) (k : Nat) (s : Sfm)
    (hmax : 0 ≤ s.max_outliers_) (hle : ∀ x ∈ s.pts_optim_iter_, x ≤ 1)
    (hk : registeredCount s ≤ k) : ∃ s', bundleAdjustmentIter ext (k + 1) s = some s' := by
  induction k generalizing s with
  | zero =>
    obtain ⟨_, _, _, h4⟩ := bundleAdjustmentRound_invariants ext s hmax hle
    rw [bundleAdjustmentIter_succ]
    by_cases hr : (bundleAdjustmentRound ext s).2 = true
    · have := h4 hr
      omega
    · rw [if_neg hr]
      exact ⟨_, rfl⟩
  | succ k ih =>
    obtain ⟨h1, h2, _, h4⟩ := bundleAdjustmentRound_invariants ext s hmax hle
    rw [bundleAdjustmentIter_succ]
    by_cases hr : (bundleAdjustmentRound ext s).2 = true
    · rw [if_pos hr]
      have := h4 hr
      exact ih _ (by rw [h1]; exact hmax) h2 (by omega)
    · rw [if_neg hr]
      exact ⟨_, rfl⟩

/-! ## Claims on the bundle adjustment -/

/-- C12: when some registered camera has an observation of a point of status 1 whose
predicted projection differs from the observation by more than `max_reproj_err_` on at
least one axis, then after `rejectOuliers` the status of that point is its previous status
minus 2 and the returned count is at least 1. -/
theorem C12_outlier_is_penalised (ext : Ext) (s : Sfm) (i_obs : Nat)
    (hi : i_obs < s.num_observations_)
    (hcam : s.camStatus (s.cam_pose_index_.getD i_obs 0) > 0)
    (hpt : s.ptStatus (s.point_index_.getD i_obs 0) = 1)
    (herr : |(predictedProjection ext s i_obs).1 - (s.obs i_obs).1| > s.max_reproj_err_ ∨
      |(predictedProjection ext s i_obs).2 - (s.obs i_obs).2| > s.max_reproj_err_) :
    (rejectOuliers ext s).1.ptStatus (s.point_index_.getD i_obs 0)
        = s.ptStatus (s.point_index_.getD i_obs 0) - 2 ∧
      1 ≤ (rejectOuliers ext s).2 := by
  have hflag : outlierFlag ext s i_obs = true := by
    unfold outlierFlag
    simp only [Bool.and_eq_true, decide_eq_true_eq]
    exact ⟨hcam, herr⟩
  have h := rejectOuliers_hit ext s i_obs hi hflag hpt
  rw [hpt]
  exact ⟨h.1, h.2⟩

/-- C12 (witness): in `tenTimesOutlierState` the only observation is `1/100` from the
projection of its point, ten times the threshold; `rejectOuliers` lowers the status of
the point from 1 to -1 and returns 1. -/
theorem C12_outlier_is_penalised_witness :
    (0 < tenTimesOutlierState.num_observations_ ∧
      tenTimesOutlierState.camStatus (tenTimesOutlierState.cam_pose_index_.getD 0 0) > 0 ∧
      tenTimesOutlierState.ptStatus (tenTimesOutlierState.point_index_.getD 0 0) = 1 ∧
      |(predictedProjection stereoExt tenTimesOutlierState 0).1 - (tenTimesOutlierState.obs 0).1|
        = 10 * tenTimesOutlierState.max_reproj_err_) ∧
    (rejectOuliers stereoExt tenTimesOutlierState).1.pts_optim_iter_ = [-1] ∧
    (rejectOuliers stereoExt tenTimesOutlierState).2 = 1 ∧
    ((rejectOuliers stereoExt tenTimesOutlierState).1.ptStatus
          (tenTimesOutlierState.point_index_.getD 0 0)
        = tenTimesOutlierState.ptStatus (tenTimesOutlierState.point_index_.getD 0 0) - 2 ∧
      1 ≤ (rejectOuliers stereoExt tenTimesOutlierState).2) :=
  ⟨⟨by decide!, by decide!, by decide!, by decide!⟩, by decide!, by decide!,
    C12_outlier_is_penalised stereoExt tenTimesOutlierState 0 (by decide!) (by decide!)
      (by decide!) (Or.inl (by decide!))⟩

theorem cheiralityPass_mask (ext : Ext) (s : Sfm) :
    cheiralityPass ext s
      = ({ s with pts_optim_iter_ := (cheiralityMask ext s).1 }, (cheiralityMask ext s).2) :=
  cheiralityPass_eq ext s

theorem rejectOuliers_mask (ext : Ext) (s : Sfm) :
    rejectOuliers ext s
      = ({ s with pts_optim_iter_ := (outlierMask ext s).1 }, (outlierMask ext s).2) :=
  rejectOuliers_eq ext s

theorem cheiralityPass_fixed (ext : Ext) (s : Sfm)
    (h : ∀ i, i < s.num_observations_ →
      ¬ (cheiralityFlag ext s i = true ∧ s.ptStatus (s.point_index_.getD i 0) = 1)) :
    cheiralityPass ext s = (s, 0) := by
  rw [cheiralityPass_mask]
  have hfix : cheiralityMask ext s = (s.pts_optim_iter_, 0) := by
    unfold cheiralityMask
    apply penaltyFold_fixed
    intro i hi hc
    apply h i (List.mem_range.1 hi)
    exact ⟨hc.1, of_decide_eq_true hc.2⟩
  rw [hfix]

theorem rejectOuliers_fixed (ext : Ext) (s : Sfm)
    (h : ∀ i, i < s.num_observations_ →
      ¬ (outlierFlag ext s i = true ∧ s.ptStatus (s.point_index_.getD i 0) > 0)) :
    rejectOuliers ext s = (s, 0) := by
  rw [rejectOuliers_mask]
  have hfix : outlierMask ext s = (s.pts_optim_iter_, 0) := by
    unfold outlierMask
    apply penaltyFold_fixed
    intro i hi hc
    apply h i (List.mem_range.1 hi)
    exact ⟨hc.1, of_decide_eq_true hc.2⟩
  rw [hfix]

theorem passes_settle (ext : Ext) (s : Sfm) (hle : ∀ x ∈ s.pts_optim_iter_, x ≤ 1) :
    cheiralityPass ext (rejectOuliers ext (cheiralityPass ext s).1).1
        = ((rejectOuliers ext (cheiralityPass ext s).1).1, 0) ∧
      rejectOuliers ext (rejectOuliers ext (cheiralityPass ext s).1).1
        = ((rejectOuliers ext (cheiralityPass ext s).1).1, 0) := by
  have hleC : ∀ x ∈ (cheiralityMask ext s).1, x ≤ 1 :=
    penaltyFold_le_one _ _ _ _ (s.pts_optim_iter_, 0) hle
  rw [cheiralityPass_mask ext s, rejectOuliers_mask ext]
  constructor
  · apply cheiralityPass_fixed
    intro i hi hc
    have hset := penaltyFold_settled (fun st => decide (st = 1)) (cheiralityFlag ext s)
      (fun i => s.point_index_.getD i 0) (fun st h => by simp at h; omega) (by decide)
      (List.range s.num_observations_) s.pts_optim_iter_ 0 hle
      (outlierMask ext { s with pts_optim_iter_ := (cheiralityMask ext s).1 }).1
      (fun p => penaltyFold_getD_le _ _ _ _ ((cheiralityMask ext s).1, 0) p)
      i (List.mem_range.2 hi)
    apply hset
    exact ⟨hc.1, decide_eq_true hc.2⟩
  · apply rejectOuliers_fixed
    intro i hi hc
    have hset := penaltyFold_settled (fun st => decide (st > 0))
      (outlierFlag ext { s with pts_optim_iter_ := (cheiralityMask ext s).1 })
      (fun i => s.point_index_.getD i 0) (fun st h => by simpa using h) (by decide)
      (List.range s.num_observations_) (cheiralityMask ext s).1 0 hleC
      (outlierMask ext { s with pts_optim_iter_ := (cheiralityMask ext s).1 }).1
      (fun p => le_refl _)
      i (List.mem_range.2 hi)
    apply hset
    exact ⟨hc.1, decide_eq_true hc.2⟩

theorem bundleAdjustmentRound_le_one (ext : Ext) (s : Sfm)
    (hle : ∀ x ∈ s.pts_optim_iter_, x ≤ 1) :
    ∀ x ∈ (bundleAdjustmentRound ext s).1.pts_optim_iter_, x ≤ 1 := by
  have hle0 : ∀ x ∈ (solvedState ext s).pts_optim_iter_, x ≤ 1 := hle
  have c2 := cheiralityPass_le_one ext (solvedState ext s) hle0
  have r2 := rejectOuliers_le_one ext (cheiralityPass ext (solvedState ext s)).1 c2
  rw [bundleAdjustmentRound_eq]
  split_ifs
  · exact c2
  · exact r2
  · exact r2

theorem bundleAdjustmentIter_exit (ext : Ext) (fuel : Nat) (s s' : Sfm)
    (hle : ∀ x ∈ s.pts_optim_iter_, x ≤ 1) (hrun : bundleAdjustmentIter ext fuel s = some s') :
    ∃ last, (∀ x ∈ last.pts_optim_iter_, x ≤ 1) ∧ (bundleAdjustmentRound ext last).2 = false ∧
      s' = (bundleAdjustmentRound ext last).1 := by
  induction fuel generalizing s with
  | zero => simp [bundleAdjustmentIter] at hrun
  | succ fuel ih =>
    rw [bundleAdjustmentIter_succ] at hrun
    by_cases hr : (bundleAdjustmentRound ext s).2 = true
    · rw [if_pos hr] at hrun
      exact ih _ (bundleAdjustmentRound_le_one ext s hle) hrun
    · rw [if_neg hr] at hrun
      injection hrun with hrun
      exact ⟨s, hle, by simpa using hr, hrun.symm⟩

theorem solvedState_eq_self (ext : Ext) (s : Sfm)
    (h : ext.Solve (buildProblem s) (2 * s.max_reproj_err_) s.parameters_ = s.parameters_) :
    solvedState ext s = s := by
  unfold solvedState
  rw [h]

theorem bundleAdjustmentRound_accepted (ext : Ext) (s : Sfm)
    (h : (bundleAdjustmentRound ext s).2 = false) :
    (bundleAdjustmentRound ext s).1
        = (rejectOuliers ext (cheiralityPass ext (solvedState ext s)).1).1 ∧
      0 ≤ (bundleAdjustmentRound ext s).1.max_outliers_ := by
  have c1 := cheiralityPass_frame ext (solvedState ext s)
  have r1 := rejectOuliers_frame ext (cheiralityPass ext (solvedState ext s)).1
  have hm0 : (solvedState ext s).max_outliers_ = s.max_outliers_ := rfl
  rw [bundleAdjustmentRound_eq] at h ⊢
  split_ifs at h ⊢ with h1 h2
  refine ⟨rfl, ?_⟩
  rw [r1.2.2.1, c1.2.2.1, hm0]
  have := c1.2.2.2.2
  omega

theorem bundleAdjustment_rerun (ext : Ext) (fuel : Nat) (s s' : Sfm)
    (hle : ∀ x ∈ s.pts_optim_iter_, x ≤ 1) (hrun : bundleAdjustmentIter ext fuel s = some s')
    (hsolve : ext.Solve (buildProblem s') (2 * s'.max_reproj_err_) s'.parameters_
      = s'.parameters_) :
    cheiralityPass ext s' = (s', 0) ∧ rejectOuliers ext s' = (s', 0) ∧
      ∀ again, bundleAdjustmentIter ext (again + 1) s' = some s' := by
  obtain ⟨last, hlast, hacc, hs'⟩ := bundleAdjustmentIter_exit ext fuel s s' hle hrun
  obtain ⟨hform, hmax⟩ := bundleAdjustmentRound_accepted ext last hacc
  have hset := passes_settle ext (solvedState ext last) hlast
  rw [← hform, ← hs'] at hset
  rw [← hs'] at hmax
  refine ⟨hset.1, hset.2, fun again => ?_⟩
  rw [bundleAdjustmentIter_succ, bundleAdjustmentRound_eq, solvedState_eq_self ext s' hsolve,
    hset.1, hset.2]
  have h0 : ¬ ((0 : Int) > s'.max_outliers_) := by omega
  simp only [h0, if_false]
  rfl

theorem bundleAdjustmentIter_mono (ext : Ext) (fuel extra : Nat) (s s' : Sfm)
    (hrun : bundleAdjustmentIter ext fuel s = some s') :
    bundleAdjustmentIter ext (fuel + extra) s = some s' := by
  induction fuel generalizing s with
  | zero => simp [bundleAdjustmentIter] at hrun
  | succ fuel ih =>
    have hsum : fuel + 1 + extra = (fuel + extra) + 1 := by omega
    rw [hsum, bundleAdjustmentIter_succ]
    rw [bundleAdjustmentIter_succ] at hrun
    by_cases hr : (bundleAdjustmentRound ext s).2 = true
    · rw [if_pos hr] at hrun ⊢
      exact ih _ hrun
    · rw [if_neg hr] at hrun ⊢
      exact hrun

/-- C13: whenever a round of `bundleAdjustmentIter` rejects its solve (the cheirality
violations exceed `max_outliers_`, or else the detected outliers exceed it), the parameter
buffer after the rollback equals the snapshot taken before the solve, the point statuses
are those left by the checks of that round (the cheirality pass, followed by the outlier
pass when it was run), and the loop goes on from that object. -/
theorem C13_rollback_restores_parameters (ext : Ext) (fuel : Nat) (s : Sfm)
    (hrej : (bundleAdjustmentRound ext s).2 = true) :
    ((cheiralityPass ext (solvedState ext s)).2 > s.max_outliers_ ∨
        (rejectOuliers ext (cheiralityPass ext (solvedState ext s)).1).2 > s.max_outliers_) ∧
      (bundleAdjustmentRound ext s).1.parameters_ = s.parameters_ ∧
      ((cheiralityPass ext (solvedState ext s)).2 > s.max_outliers_ →
        (bundleAdjustmentRound ext s).1.pts_optim_iter_
          = (cheiralityPass ext (solvedState ext s)).1.pts_optim_iter_) ∧
      (¬ (cheiralityPass ext (solvedState ext s)).2 > s.max_outliers_ →
        (bundleAdjustmentRound ext s).1.pts_optim_iter_
          = (rejectOuliers ext (cheiralityPass ext (solvedState ext s)).1).1.pts_optim_iter_) ∧
      (∀ p, (bundleAdjustmentRound ext s).1.ptStatus p ≤ s.ptStatus p) ∧
      bundleAdjustmentIter ext (fuel + 1) s
        = bundleAdjustmentIter ext fuel (bundleAdjustmentRound ext s).1 := by
  have hle1 : ∀ p, (cheiralityPass ext (solvedState ext s)).1.ptStatus p ≤ s.ptStatus p :=
    fun p => cheiralityPass_ptStatus_le ext (solvedState ext s) p
  have hle2 : ∀ p, (rejectOuliers ext (cheiralityPass ext (solvedState ext s)).1).1.ptStatus p
      ≤ s.ptStatus p :=
    fun p => le_trans (rejectOuliers_ptStatus_le ext _ p) (hle1 p)
  have hloop : bundleAdjustmentIter ext (fuel + 1) s
      = bundleAdjustmentIter ext fuel (bundleAdjustmentRound ext s).1 := by
    rw [bundleAdjustmentIter_succ, if_pos hrej]
  rw [bundleAdjustmentRound_eq] at hrej ⊢
  split_ifs at hrej ⊢ with h1 h2
  · exact ⟨Or.inl h1, rfl, fun _ => rfl, fun h => absurd h1 h, hle1, by
      rw [hloop, bundleAdjustmentRound_eq, if_pos h1]⟩
  · exact ⟨Or.inr h2, rfl, fun h => absurd h h1, fun _ => rfl, hle2, by
      rw [hloop, bundleAdjustmentRound_eq, if_neg h1, if_pos h2]⟩

/-- C13 (witness): the first round on `misalignedSeedState` finds 9 outliers against
`max_outliers_ = 5`: the parameters are rolled back and the nine points stay rejected. -/
theorem C13_rollback_restores_parameters_witness :
    (bundleAdjustmentRound stereoExt misalignedSeedState).2 = true ∧
      (rejectOuliers stereoExt
        (cheiralityPass stereoExt (solvedState stereoExt misalignedSeedState)).1).2 = 9 ∧
      (bundleAdjustmentRound stereoExt misalignedSeedState).1.pts_optim_iter_
        = [0, -1, -1, -1, -1, -1, -1, -1, -1, -1, 0] ∧
      (bundleAdjustmentRound stereoExt misalignedSeedState).1.parameters_
        = misalignedSeedState.parameters_ :=
  ⟨by decide!, by decide!, by decide!,
    (C13_rollback_restores_parameters stereoExt 0 misalignedSeedState (by decide!)).2.1⟩

/-- C14: for an object whose point statuses are at most 1, once `bundleAdjustmentIter` has
left its loop, running it again on the resulting object with a solver that leaves the
parameters where they are finds no cheirality violation and no outlier, changes no point
status and leaves the loop after one round with the same object. -/
theorem C14_rerun_changes_nothing (ext : Ext) (fuel : Nat) (s s' : Sfm)
    (hle : ∀ x ∈ s.pts_optim_iter_, x ≤ 1) (hrun : bundleAdjustmentIter ext fuel s = some s')
    (hsolve : ext.Solve (buildProblem s') (2 * s'.max_reproj_err_) s'.parameters_
      = s'.parameters_) :
    (cheiralityPass ext s').2 = 0 ∧ (rejectOuliers ext s').2 = 0 ∧
      (cheiralityPass ext s').1.pts_optim_iter_ = s'.pts_optim_iter_ ∧
      (rejectOuliers ext s').1.pts_optim_iter_ = s'.pts_optim_iter_ ∧
      ∀ again, bundleAdjustmentIter ext (again + 1) s' = some s' := by
  obtain ⟨h1, h2, h3⟩ := bundleAdjustment_rerun ext fuel s s' hle hrun hsolve
  rw [h1, h2]
  exact ⟨rfl, rfl, rfl, rfl, h3⟩

/-- C14 (witness): the bundle adjustment of the stereo pair leaves its loop with the ten
points registered; run again, it finds nothing and returns the same object. -/
theorem C14_rerun_changes_nothing_witness :
    ((∀ x ∈ stereoSeedState.pts_optim_iter_, x ≤ 1) ∧
      bundleAdjustmentIter stereoExt 3 stereoSeedState = some stereoAdjustedState ∧
      stereoExt.Solve (buildProblem stereoAdjustedState)
          (2 * stereoAdjustedState.max_reproj_err_) stereoAdjustedState.parameters_
        = stereoAdjustedState.parameters_) ∧
    stereoAdjustedState.pts_optim_iter_ = [1, 1, 1, 1, 1, 1, 1, 1, 1, 1, 0, 0] ∧
    bundleAdjustmentIter stereoExt 1 stereoAdjustedState = some stereoAdjustedState :=
  ⟨⟨by decide!, by decide!, rfl⟩, by decide!,
    (C14_rerun_changes_nothing stereoExt 3 stereoSeedState stereoAdjustedState (by decide!)
      (by decide!) rfl).2.2.2.2 0⟩

/-- C17: with `max_outliers_ ≥ 0` and every point status at most 1 at entry, the loop of
`bundleAdjustmentIter` ends: a round that rolls back leaves strictly fewer registered
points (and the two assumptions still hold after it), so the loop returns within
`(number of registered points at entry) + 1` rounds, one solve per round. -/
theorem C17_bundle_adjustment_terminates (ext : Ext) (s : Sfm) (extra : Nat)
    (hmax : 0 ≤ s.max_outliers_) (hle : ∀ x ∈ s.pts_optim_iter_, x ≤ 1) :
    ((bundleAdjustmentRound ext s).2 = true →
        registeredCount (bundleAdjustmentRound ext s).1 < registeredCount s ∧
          0 ≤ (bundleAdjustmentRound ext s).1.max_outliers_ ∧
          ∀ x ∈ (bundleAdjustmentRound ext s).1.pts_optim_iter_, x ≤ 1) ∧
      ∃ s', bundleAdjustmentIter ext (registeredCount s + 1) s = some s' ∧
        bundleAdjustmentIter ext (registeredCount s + 1 + extra) s = some s' := by
  obtain ⟨h1, h2, _, h4⟩ := bundleAdjustmentRound_invariants ext s hmax hle
  refine ⟨fun hr => ⟨h4 hr, by rw [h1]; exact hmax, h2⟩, ?_⟩
  obtain ⟨s', hs'⟩ := bundleAdjustmentIter_terminates ext (registeredCount s) s hmax hle (le_refl _)
  exact ⟨s', hs', bundleAdjustmentIter_mono ext _ extra s s' hs'⟩

/-- C17 (witness): `misalignedSeedState` has 9 registered points and `max_outliers_ = 5`;
its first round rolls back and leaves no registered point, and the loop returns in the
second round. -/
theorem C17_bundle_adjustment_terminates_witness :
    (0 ≤ misalignedSeedState.max_outliers_ ∧ ∀ x ∈ misalignedSeedState.pts_optim_iter_, x ≤ 1) ∧
      registeredCount misalignedSeedState = 9 ∧
      (bundleAdjustmentRound stereoExt misalignedSeedState).2 = true ∧
      registeredCount (bundleAdjustmentRound stereoExt misalignedSeedState).1 = 0 ∧
      (bundleAdjustmentIter stereoExt 2 misalignedSeedState).isSome = true ∧
      ∃ s', bundleAdjustmentIter stereoExt (registeredCount misalignedSeedState + 1)
            misalignedSeedState = some s' ∧
          bundleAdjustmentIter stereoExt (registeredCount misalignedSeedState + 1 + 0)
            misalignedSeedState = some s' :=
  ⟨⟨by decide!, by decide!⟩, by decide!, by decide!, by decide!, by decide!,
    (C17_bundle_adjustment_terminates stereoExt misalignedSeedState 0 (by decide!)
      (by decide!)).2⟩

/-! ## The problem handed to the solver -/

theorem buildProblem_fold_constant (s : Sfm) (l : List Nat) (pb : Problem)
    (h1 : ∀ c ∈ pb.constant_cameras, c = 0)
    (h2 : 0 ∈ pb.constant_cameras ↔ ∃ b ∈ pb.residual_blocks, b.camera = 0) :
    (∀ c ∈ (l.foldl
        (fun (problem : Problem) i_obs =>
          let cam := s.cam_pose_index_.getD i_obs 0
          let pt := s.point_index_.getD i_obs 0
          if s.camStatus cam > 0 ∧ s.ptStatus pt > 0 then
            { residual_blocks :=
                problem.residual_blocks ++
                  [{ camera := cam, point := pt, observed_x := (s.obs i_obs).1,
                     observed_y := (s.obs i_obs).2 }]
              constant_cameras :=
                if cam = 0 then problem.constant_cameras ++ [cam] else problem.constant_cameras }
          else problem) pb).constant_cameras, c = 0) ∧
      (0 ∈ (l.foldl
        (fun (problem : Problem) i_obs =>
          let cam := s.cam_pose_index_.getD i_obs 0
          let pt := s.point_index_.getD i_obs 0
          if s.camStatus cam > 0 ∧ s.ptStatus pt > 0 then
            { residual_blocks :=
                problem.residual_blocks ++
                  [{ camera := cam, point := pt, observed_x := (s.obs i_obs).1,
                     observed_y := (s.obs i_obs).2 }]
              constant_cameras :=
                if cam = 0 then problem.constant_cameras ++ [cam] else problem.constant_cameras }
          else problem) pb).constant_cameras ↔
        ∃ b ∈ (l.foldl
          (fun (problem : Problem) i_obs =>
            let cam := s.cam_pose_index_.getD i_obs 0
            let pt := s.point_index_.getD i_obs 0
            if s.camStatus cam > 0 ∧ s.ptStatus pt > 0 then
              { residual_blocks :=
                  problem.residual_blocks ++
                    [{ camera := cam, point := pt, observed_x := (s.obs i_obs).1,
                       observed_y := (s.obs i_obs).2 }]
                constant_cameras :=
                  if cam = 0 then problem.constant_cameras ++ [cam] else problem.constant_cameras }
            else problem) pb).residual_blocks, b.camera = 0) := by
  induction l generalizing pb with
  | nil => exact ⟨h1, h2⟩
  | cons i rest ih =>
    rw [List.foldl_cons]
    apply ih
    · simp only []
      split_ifs with hc h0
      · intro c hc'
        rcases List.mem_append.1 hc' with h | h
        · exact h1 c h
        · rw [List.mem_singleton] at h
          rw [h, h0]
      · exact h1
      · exact h1
    · simp only []
      split_ifs with hc h0
      · constructor
        · intro _
          exact ⟨_, List.mem_append_right _ (List.mem_singleton_self _), h0⟩
        · intro _
          exact List.mem_append_right _ (by rw [h0]; exact List.mem_singleton_self _)
      · constructor
        · intro h
          obtain ⟨b, hb, hb0⟩ := h2.1 h
          exact ⟨b, List.mem_append_left _ hb, hb0⟩
        · rintro ⟨b, hb, hb0⟩
          rcases List.mem_append.1 hb with h | h
          · exact h2.2 ⟨b, h, hb0⟩
          · rw [List.mem_singleton] at h
            rw [h] at hb0
            exact absurd hb0 h0
      · exact h2

/-- C15 (counterexample): in `lateStereoScene` the seed search proposes the pair (1, 2);
the problem built by the first bundle adjustment has 20 residual blocks, all of cameras 1
and 2, and no camera block is marked constant. -/
theorem C15_no_constant_block_without_camera_zero :
    seedScan 3 (corrMatrix (buildCamObservation lateStereoScene)) MatrixXi.Zero 0 0
        = { max_corr := 10, seed_pair_idx0 := 1, seed_pair_idx1 := 2 } ∧
      (seedInit stereoExt (buildCamObservation lateStereoScene) 1 2).map
          (fun s1 => (s1.cam_pose_optim_iter_, (buildProblem s1).residual_blocks.length,
            (buildProblem s1).residual_blocks.map (fun b => b.camera),
            (buildProblem s1).constant_cameras))
        = some ([0, 1, 1], 20,
            [1, 2, 1, 2, 1, 2, 1, 2, 1, 2, 1, 2, 1, 2, 1, 2, 1, 2, 1, 2], []) :=
  ⟨by decide!, by decide!⟩

/-- C15 (amended): in every problem built by `bundleAdjustmentIter` the only camera block
that is marked constant is the block of camera 0, and it is marked exactly when the
problem holds a residual block of camera 0; so at most one camera block is constant, and
none when the residual blocks belong to other cameras only. -/
theorem C15_only_camera_zero_is_constant (s : Sfm) :
    (∀ c ∈ (buildProblem s).constant_cameras, c = 0) ∧
      (0 ∈ (buildProblem s).constant_cameras ↔
        ∃ b ∈ (buildProblem s).residual_blocks, b.camera = 0) ∧
      (buildProblem s).constant_cameras.toFinset.card ≤ 1 ∧
      ((∃ b ∈ (buildProblem s).residual_blocks, b.camera = 0) →
        (buildProblem s).constant_cameras.toFinset.card = 1) := by
  have h := buildProblem_fold_constant s (List.range s.num_observations_)
    { residual_blocks := [], constant_cameras := [] } (by simp) (by simp)
  have hsub : (buildProblem s).constant_cameras.toFinset ⊆ {0} := by
    intro c hc
    rw [Finset.mem_singleton]
    exact h.1 c (List.mem_toFinset.1 hc)
  refine ⟨h.1, h.2, le_trans (Finset.card_le_card hsub) (by simp), ?_⟩
  intro hex
  have h0 : (0 : Nat) ∈ (buildProblem s).constant_cameras.toFinset :=
    List.mem_toFinset.2 (h.2.2 hex)
  have heq : (buildProblem s).constant_cameras.toFinset = {0} :=
    Finset.Subset.antisymm hsub (Finset.singleton_subset_iff.2 h0)
  rw [heq]
  rfl

/-- C15 (witness): the problem built for the stereo pair of `isolatedCameraScene` holds 10
residual blocks of camera 0 and 10 of camera 1; the block of camera 0 is the one constant
block. -/
theorem C15_only_camera_zero_is_constant_witness :
    (∃ b ∈ (buildProblem stereoSeedState).residual_blocks, b.camera = 0) ∧
      (buildProblem stereoSeedState).residual_blocks.length = 20 ∧
      (buildProblem stereoSeedState).constant_cameras.toFinset.card = 1 :=
  ⟨⟨⟨0, 0, 1 / 2, 1⟩, by decide!, rfl⟩, by decide!,
    (C15_only_camera_zero_is_constant stereoSeedState).2.2.2 ⟨⟨0, 0, 1 / 2, 1⟩, by decide!, rfl⟩⟩

/-! ## Statuses through the growth step, the far-point filter and the bundle adjustment -/

theorem setPt_masks (s : Sfm) (i : Nat) (v : Vec3) :
    (s.setPt i v).cam_pose_optim_iter_ = s.cam_pose_optim_iter_ ∧
      (s.setPt i v).pts_optim_iter_ = s.pts_optim_iter_ := ⟨rfl, rfl⟩

theorem setPtStatus_masks (s : Sfm) (i : Nat) (v : Int) :
    (s.setPtStatus i v).cam_pose_optim_iter_ = s.cam_pose_optim_iter_ ∧
      (s.setPtStatus i v).pts_optim_iter_ = s.pts_optim_iter_.set i v := ⟨rfl, rfl⟩

theorem growStep_frame (ext : Ext) (new_cam_pose_idx cam_idx : Nat) (acc : Sfm × Int)
    (co_iter : Nat × Nat) :
    (growStep ext new_cam_pose_idx cam_idx acc co_iter).1.cam_pose_optim_iter_
        = acc.1.cam_pose_optim_iter_ ∧
      ∀ p, acc.1.ptStatus p ≠ 0 →
        (growStep ext new_cam_pose_idx cam_idx acc co_iter).1.ptStatus p = acc.1.ptStatus p := by
  unfold growStep
  simp only []
  split_ifs with h1 h2
  · constructor
    · rw [(setPt_masks _ _ _).1, (setPtStatus_masks _ _ _).1, (setPt_masks _ _ _).1]
    · intro p hp
      unfold Sfm.ptStatus
      rw [(setPt_masks _ _ _).2, (setPtStatus_masks _ _ _).2, (setPt_masks _ _ _).2,
        getD_set_int]
      split_ifs with h
      · exfalso
        apply hp
        rw [← h.1]
        exact h1.1
      · rfl
  · constructor
    · rw [(setPt_masks _ _ _).1, (setPt_masks _ _ _).1]
    · intro p _
      unfold Sfm.ptStatus
      rw [(setPt_masks _ _ _).2, (setPt_masks _ _ _).2]
  · exact ⟨rfl, fun p _ => rfl⟩

theorem growStep_fold_frame (ext : Ext) (new_cam_pose_idx cam_idx : Nat) (l : List (Nat × Nat))
    (acc : Sfm × Int) :
    (l.foldl (growStep ext new_cam_pose_idx cam_idx) acc).1.cam_pose_optim_iter_
        = acc.1.cam_pose_optim_iter_ ∧
      ∀ p, acc.1.ptStatus p ≠ 0 →
        (l.foldl (growStep ext new_cam_pose_idx cam_idx) acc).1.ptStatus p = acc.1.ptStatus p := by
  induction l generalizing acc with
  | nil => exact ⟨rfl, fun p _ => rfl⟩
  | cons a rest ih =>
    rw [List.foldl_cons]
    obtain ⟨h1, h2⟩ := growStep_frame ext new_cam_pose_idx cam_idx acc a
    obtain ⟨i1, i2⟩ := ih (growStep ext new_cam_pose_idx cam_idx acc a)
    refine ⟨by rw [i1, h1], fun p hp => ?_⟩
    rw [i2 p (by rw [h2 p hp]; exact hp), h2 p hp]

theorem growPoints_fold_frame (ext : Ext) (new_cam_pose_idx : Nat) (l : List Nat)
    (acc : Sfm × Int) :
    (l.foldl
        (fun (acc : Sfm × Int) cam_idx =>
          if acc.1.camStatus cam_idx > 0 then
            (acc.1.camObs cam_idx).foldl (growStep ext new_cam_pose_idx cam_idx) acc
          else acc) acc).1.cam_pose_optim_iter_ = acc.1.cam_pose_optim_iter_ ∧
      ∀ p, acc.1.ptStatus p ≠ 0 →
        (l.foldl
          (fun (acc : Sfm × Int) cam_idx =>
            if acc.1.camStatus cam_idx > 0 then
              (acc.1.camObs cam_idx).foldl (growStep ext new_cam_pose_idx cam_idx) acc
            else acc) acc).1.ptStatus p = acc.1.ptStatus p := by
  induction l generalizing acc with
  | nil => exact ⟨rfl, fun p _ => rfl⟩
  | cons c rest ih =>
    rw [List.foldl_cons]
    have hstep : (if acc.1.camStatus c > 0 then
          (acc.1.camObs c).foldl (growStep ext new_cam_pose_idx c) acc
        else acc).1.cam_pose_optim_iter_ = acc.1.cam_pose_optim_iter_ ∧
        ∀ p, acc.1.ptStatus p ≠ 0 →
          (if acc.1.camStatus c > 0 then
            (acc.1.camObs c).foldl (growStep ext new_cam_pose_idx c) acc
          else acc).1.ptStatus p = acc.1.ptStatus p := by
      split_ifs
      · exact growStep_fold_frame ext new_cam_pose_idx c _ acc
      · exact ⟨rfl, fun p _ => rfl⟩
    obtain ⟨h1, h2⟩ := hstep
    obtain ⟨i1, i2⟩ := ih (if acc.1.camStatus c > 0 then
          (acc.1.camObs c).foldl (growStep ext new_cam_pose_idx c) acc
        else acc)
    refine ⟨by rw [i1, h1], fun p hp => ?_⟩
    rw [i2 p (by rw [h2 p hp]; exact hp), h2 p hp]

theorem growPoints_frame (ext : Ext) (s : Sfm) (new_cam_pose_idx : Nat) :
    (growPoints ext s new_cam_pose_idx).1.cam_pose_optim_iter_ = s.cam_pose_optim_iter_ ∧
      ∀ p, s.ptStatus p ≠ 0 → (growPoints ext s new_cam_pose_idx).1.ptStatus p = s.ptStatus p :=
  growPoints_fold_frame ext new_cam_pose_idx (List.range s.num_cam_poses_) (s, 0)

theorem farPointFold_frame (max_dist : ℚ) (l : List Nat) (acc : Sfm) :
    (l.foldl
        (fun (acc : Sfm) i =>
          if acc.ptStatus i > 0 ∧
              (|(acc.pt i).1| > max_dist ∨ |(acc.pt i).2.1| > max_dist ∨
                |(acc.pt i).2.2| > max_dist) then
            acc.setPtStatus i (-1)
          else acc) acc).cam_pose_optim_iter_ = acc.cam_pose_optim_iter_ ∧
      ∀ p, acc.ptStatus p ≤ 0 →
        (l.foldl
          (fun (acc : Sfm) i =>
            if acc.ptStatus i > 0 ∧
                (|(acc.pt i).1| > max_dist ∨ |(acc.pt i).2.1| > max_dist ∨
                  |(acc.pt i).2.2| > max_dist) then
              acc.setPtStatus i (-1)
            else acc) acc).ptStatus p = acc.ptStatus p := by
  induction l generalizing acc with
  | nil => exact ⟨rfl, fun p _ => rfl⟩
  | cons i rest ih =>
    rw [List.foldl_cons]
    have hstep : (if acc.ptStatus i > 0 ∧
          (|(acc.pt i).1| > max_dist ∨ |(acc.pt i).2.1| > max_dist ∨
            |(acc.pt i).2.2| > max_dist) then
          acc.setPtStatus i (-1)
        else acc).cam_pose_optim_iter_ = acc.cam_pose_optim_iter_ ∧
        ∀ p, acc.ptStatus p ≤ 0 →
          (if acc.ptStatus i > 0 ∧
            (|(acc.pt i).1| > max_dist ∨ |(acc.pt i).2.1| > max_dist ∨
              |(acc.pt i).2.2| > max_dist) then
            acc.setPtStatus i (-1)
          else acc).ptStatus p = acc.ptStatus p := by
      split_ifs with hc
      · refine ⟨rfl, fun p hp => ?_⟩
        show (acc.pts_optim_iter_.set i (-1)).getD p 0 = acc.pts_optim_iter_.getD p 0
        rw [getD_set_int]
        split_ifs with h
        · exfalso
          have := hc.1
          rw [h.1] at this
          omega
        · rfl
      · exact ⟨rfl, fun p _ => rfl⟩
    obtain ⟨h1, h2⟩ := hstep
    obtain ⟨i1, i2⟩ := ih (if acc.ptStatus i > 0 ∧
          (|(acc.pt i).1| > max_dist ∨ |(acc.pt i).2.1| > max_dist ∨
            |(acc.pt i).2.2| > max_dist) then
          acc.setPtStatus i (-1)
        else acc)
    refine ⟨by rw [i1, h1], fun p hp => ?_⟩
    rw [i2 p (by rw [h2 p hp]; exact hp), h2 p hp]

theorem farPointFilter_frame (ext : Ext) (s : Sfm) :
    (farPointFilter ext s).cam_pose_optim_iter_ = s.cam_pose_optim_iter_ ∧
      ∀ p, s.ptStatus p ≤ 0 → (farPointFilter ext s).ptStatus p = s.ptStatus p :=
  farPointFold_frame (maxDist ext s) (List.range s.num_points_) s

theorem bundleAdjustmentRound_frame (ext : Ext) (s : Sfm) :
    (bundleAdjustmentRound ext s).1.cam_pose_optim_iter_ = s.cam_pose_optim_iter_ ∧
      ∀ p, (bundleAdjustmentRound ext s).1.ptStatus p ≤ s.ptStatus p := by
  have c1 := cheiralityPass_frame ext (solvedState ext s)
  have r1 := rejectOuliers_frame ext (cheiralityPass ext (solvedState ext s)).1
  have hle1 : ∀ p, (cheiralityPass ext (solvedState ext s)).1.ptStatus p ≤ s.ptStatus p :=
    fun p => cheiralityPass_ptStatus_le ext (solvedState ext s) p
  have hle2 : ∀ p, (rejectOuliers ext (cheiralityPass ext (solvedState ext s)).1).1.ptStatus p
      ≤ s.ptStatus p :=
    fun p => le_trans (rejectOuliers_ptStatus_le ext _ p) (hle1 p)
  have hc : (cheiralityPass ext (solvedState ext s)).1.cam_pose_optim_iter_
      = s.cam_pose_optim_iter_ := c1.1
  have hr : (rejectOuliers ext (cheiralityPass ext (solvedState ext s)).1).1.cam_pose_optim_iter_
      = s.cam_pose_optim_iter_ := by rw [r1.1, hc]
  rw [bundleAdjustmentRound_eq]
  split_ifs
  · exact ⟨hc, hle1⟩
  · exact ⟨hr, hle2⟩
  · exact ⟨hr, hle2⟩

theorem bundleAdjustmentIter_frame (ext : Ext) (fuel : Nat) (s s' : Sfm)
    (hrun : bundleAdjustmentIter ext fuel s = some s') :
    s'.cam_pose_optim_iter_ = s.cam_pose_optim_iter_ ∧ ∀ p, s'.ptStatus p ≤ s.ptStatus p := by
  induction fuel generalizing s with
  | zero => simp [bundleAdjustmentIter] at hrun
  | succ fuel ih =>
    rw [bundleAdjustmentIter_succ] at hrun
    obtain ⟨h1, h2⟩ := bundleAdjustmentRound_frame ext s
    by_cases hr : (bundleAdjustmentRound ext s).2 = true
    · rw [if_pos hr] at hrun
      obtain ⟨i1, i2⟩ := ih _ hrun
      exact ⟨by rw [i1, h1], fun p => le_trans (i2 p) (h2 p)⟩
    · rw [if_neg hr] at hrun
      injection hrun with hrun
      subst hrun
      exact ⟨h1, h2⟩

theorem initCamParams_masks (s : Sfm) (i : Nat) (r t : Vec3) :
    (initCamParams s i r t).cam_pose_optim_iter_ = s.cam_pose_optim_iter_ ∧
      (initCamParams s i r t).pts_optim_iter_ = s.pts_optim_iter_ := by
  simp only [initCamParams, Sfm.setVec3At, Sfm.setParam, and_self]

theorem setCamStatus_masks (s : Sfm) (i : Nat) (v : Int) :
    (s.setCamStatus i v).cam_pose_optim_iter_ = s.cam_pose_optim_iter_.set i v ∧
      (s.setCamStatus i v).pts_optim_iter_ = s.pts_optim_iter_ := ⟨rfl, rfl⟩

theorem registerNextCamera_frame (ext : Ext) (s s1 : Sfm) (new_cam_pose_idx : Nat)
    (h : registerNextCamera ext s = some (new_cam_pose_idx, s1)) :
    new_cam_pose_idx = nextBestView s ∧ s1.pts_optim_iter_ = s.pts_optim_iter_ ∧
      s1.cam_pose_optim_iter_ = s.cam_pose_optim_iter_.set new_cam_pose_idx 1 := by
  unfold registerNextCamera at h
  by_cases hc : (scenePointIdx s (nextBestView s)).length ≤ 3
  · exact absurd ((if_pos hc).symm.trans h) (by simp)
  · have h2 := (if_neg hc).symm.trans h
    rw [Option.some.injEq, Prod.mk.injEq] at h2
    obtain ⟨h3, h4⟩ := h2
    rw [← h4, ← h3, (setCamStatus_masks _ _ _).1, (setCamStatus_masks _ _ _).2,
      (initCamParams_masks _ _ _ _).1, (initCamParams_masks _ _ _ _).2]
    exact ⟨rfl, rfl, rfl⟩

theorem growthIter_frame (ext : Ext) (fuel : Nat) (s s' : Sfm) (iter : Nat) (b : Bool)
    (h : growthIter ext fuel s iter = some (b, s')) :
    (∀ p, s.ptStatus p < 0 → s'.ptStatus p < 0) ∧
      (s'.cam_pose_optim_iter_ = s.cam_pose_optim_iter_ ∨
        s'.cam_pose_optim_iter_ = s.cam_pose_optim_iter_.set (nextBestView s) 1) := by
  unfold growthIter at h
  cases hreg : registerNextCamera ext s with
  | none =>
    rw [hreg] at h
    simp only [Option.some.injEq, Prod.mk.injEq] at h
    rw [← h.2]
    exact ⟨fun p hp => hp, Or.inl rfl⟩
  | some ns =>
    obtain ⟨new_idx, s1⟩ := ns
    rw [hreg] at h
    simp only [] at h
    obtain ⟨hnew, hpts, hcam⟩ := registerNextCamera_frame ext s s1 new_idx hreg
    cases hba : bundleAdjustmentIter ext fuel (growPoints ext s1 new_idx).1 with
    | none => rw [hba] at h; simp at h
    | some s3 =>
      rw [hba] at h
      simp only [] at h
      obtain ⟨g1, g2⟩ := growPoints_frame ext s1 new_idx
      obtain ⟨a1, a2⟩ := bundleAdjustmentIter_frame ext fuel _ s3 hba
      obtain ⟨f1, f2⟩ := farPointFilter_frame ext s3
      have hs' : s' = farPointFilter ext s3 := by
        split_ifs at h
        · simp only [Option.some.injEq, Prod.mk.injEq] at h; exact h.2.symm
        · simp only [Option.some.injEq, Prod.mk.injEq] at h; exact h.2.symm
      subst hs'
      constructor
      · intro p hp
        have h1 : s1.ptStatus p = s.ptStatus p := by
          unfold Sfm.ptStatus; rw [hpts]
        have h2 : (growPoints ext s1 new_idx).1.ptStatus p = s1.ptStatus p :=
          g2 p (by rw [h1]; omega)
        have h3 := a2 p
        have h4 := f2 p (by omega)
        omega
      · right
        rw [f1, a1, g1, hcam, hnew]

theorem set_one_nonneg (l : List Int) (i : Nat) (h : ∀ x ∈ l, 0 ≤ x) :
    ∀ x ∈ l.set i 1, 0 ≤ x := by
  intro x hx
  rcases List.mem_or_eq_of_mem_set hx with hx | hx
  · exact h x hx
  · omega

theorem camStatus_set_of_ne (s s' : Sfm) (i c : Nat) (v : Int) (hc : c ≠ i)
    (h : s'.cam_pose_optim_iter_ = s.cam_pose_optim_iter_ ∨
      s'.cam_pose_optim_iter_ = s.cam_pose_optim_iter_.set i v) :
    s'.camStatus c = s.camStatus c := by
  unfold Sfm.camStatus
  rcases h with h | h
  · rw [h]
  · rw [h, getD_set_int, if_neg (fun hh => hc hh.1.symm)]

/-- Claim C16. After the two-view initialisation a rejected point is never registered
again and no camera goes from rejected to registered: the growth triangulation
(`growPoints`) and the far-point filter leave every negative point status as it is, the
cheirality check and the outlier rejection of the bundle adjustment can only lower a
status, a whole `bundleAdjustmentIter` and a whole growth round therefore keep a negative
point status negative, and each of these operations leaves the camera statuses untouched,
the only camera write of a growth round being the registration of the camera that the
next-best-view selection returned. -/
theorem C16_rejected_is_never_registered (ext : Ext) (fuel : Nat) (s : Sfm)
    (new_cam_pose_idx iter : Nat) :
    (∀ p, s.ptStatus p < 0 →
      (growPoints ext s new_cam_pose_idx).1.ptStatus p = s.ptStatus p ∧
      (cheiralityPass ext s).1.ptStatus p ≤ s.ptStatus p ∧
      (rejectOuliers ext s).1.ptStatus p ≤ s.ptStatus p ∧
      (farPointFilter ext s).ptStatus p = s.ptStatus p ∧
      (∀ s', bundleAdjustmentIter ext fuel s = some s' → s'.ptStatus p ≤ s.ptStatus p) ∧
      (∀ b s', growthIter ext fuel s iter = some (b, s') → s'.ptStatus p < 0)) ∧
    (growPoints ext s new_cam_pose_idx).1.cam_pose_optim_iter_ = s.cam_pose_optim_iter_ ∧
    (cheiralityPass ext s).1.cam_pose_optim_iter_ = s.cam_pose_optim_iter_ ∧
    (rejectOuliers ext s).1.cam_pose_optim_iter_ = s.cam_pose_optim_iter_ ∧
    (farPointFilter ext s).cam_pose_optim_iter_ = s.cam_pose_optim_iter_ ∧
    (∀ s', bundleAdjustmentIter ext fuel s = some s' →
      s'.cam_pose_optim_iter_ = s.cam_pose_optim_iter_) ∧
    (∀ b s', growthIter ext fuel s iter = some (b, s') →
      (∀ c, c ≠ nextBestView s → s'.camStatus c = s.camStatus c) ∧
      ((∀ x ∈ s.cam_pose_optim_iter_, 0 ≤ x) → ∀ x ∈ s'.cam_pose_optim_iter_, 0 ≤ x)) := by
  refine ⟨fun p hp => ⟨(growPoints_frame ext s new_cam_pose_idx).2 p (by omega),
    cheiralityPass_ptStatus_le ext s p, rejectOuliers_ptStatus_le ext s p,
    (farPointFilter_frame ext s).2 p (by omega),
    fun s' hrun => (bundleAdjustmentIter_frame ext fuel s s' hrun).2 p,
    fun b s' hrun => (growthIter_frame ext fuel s s' iter b hrun).1 p hp⟩,
    (growPoints_frame ext s new_cam_pose_idx).1, (cheiralityPass_frame ext s).1,
    (rejectOuliers_frame ext s).1, (farPointFilter_frame ext s).1,
    fun s' hrun => (bundleAdjustmentIter_frame ext fuel s s' hrun).1, ?_⟩
  intro b s' hrun
  have hcam := (growthIter_frame ext fuel s s' iter b hrun).2
  refine ⟨fun c hc => camStatus_set_of_ne s s' (nextBestView s) c 1 hc hcam, fun hnn => ?_⟩
  rcases hcam with h | h
  · rw [h]; exact hnn
  · rw [h]; exact set_one_nonneg _ _ hnn

/-- Claim C16 on the object of `extraPointScene` after its first bundle adjustment: point 1
is rejected there (status -1) and is still rejected after the growth triangulation for
camera 2, after the far-point filter and after a whole growth round. -/
theorem C16_rejected_is_never_registered_witness :
    misalignedAdjustedState.ptStatus 1 = -1 ∧
      (growPoints stereoExt misalignedAdjustedState 2).1.ptStatus 1 =
        misalignedAdjustedState.ptStatus 1 ∧
      (farPointFilter stereoExt misalignedAdjustedState).ptStatus 1 =
        misalignedAdjustedState.ptStatus 1 ∧
      (growthIter stereoExt 3 misalignedAdjustedState 1).isSome = true ∧
      ∀ b s', growthIter stereoExt 3 misalignedAdjustedState 1 = some (b, s') →
        s'.ptStatus 1 < 0 :=
  ⟨by decide!,
    ((C16_rejected_is_never_registered stereoExt 3 misalignedAdjustedState 2 1).1 1
      (by decide!)).1,
    ((C16_rejected_is_never_registered stereoExt 3 misalignedAdjustedState 2 1).1 1
      (by decide!)).2.2.2.1,
    by decide!,
    ((C16_rejected_is_never_registered stereoExt 3 misalignedAdjustedState 2 1).1 1
      (by decide!)).2.2.2.2.2⟩

/-! ## The count returned by the outlier rejection -/

theorem penaltyStep_change (ok : Int → Bool) (flag : Nat → Bool) (ptOf : Nat → Nat)
    (hok : ∀ st, ok st = true → 0 < st) (acc : List Int × Int) (i : Nat)
    (hle : ∀ x ∈ acc.1, x ≤ 1) (p : Nat) :
    (penaltyStep ok flag ptOf acc i).1.getD p 0 = acc.1.getD p 0 ∨
      (acc.1.getD p 0 = 1 ∧ (penaltyStep ok flag ptOf acc i).1.getD p 0 = -1) := by
  unfold penaltyStep
  split_ifs with h
  · show (acc.1.set (ptOf i) (acc.1.getD (ptOf i) 0 - 2)).getD p 0 = acc.1.getD p 0 ∨
      (acc.1.getD p 0 = 1 ∧
        (acc.1.set (ptOf i) (acc.1.getD (ptOf i) 0 - 2)).getD p 0 = -1)
    rw [getD_set_int]
    split_ifs with h2
    · right
      have h3 := hok _ h.2
      have h4 := getD_le_one acc.1 (ptOf i) hle
      rw [h2.1] at h3 h4
      rw [h2.1]
      omega
    · left; rfl
  · left; rfl

theorem penaltyFold_change (ok : Int → Bool) (flag : Nat → Bool) (ptOf : Nat → Nat)
    (hok : ∀ st, ok st = true → 0 < st) (l : List Nat) (acc : List Int × Int)
    (hle : ∀ x ∈ acc.1, x ≤ 1) (p : Nat) :
    (l.foldl (penaltyStep ok flag ptOf) acc).1.getD p 0 = acc.1.getD p 0 ∨
      (acc.1.getD p 0 = 1 ∧ (l.foldl (penaltyStep ok flag ptOf) acc).1.getD p 0 = -1) := by
  induction l generalizing acc with
  | nil => left; rfl
  | cons i rest ih =>
    rw [List.foldl_cons]
    have h1 := penaltyStep_change ok flag ptOf hok acc i hle p
    have h2 := ih (penaltyStep ok flag ptOf acc i) (penaltyStep_le_one ok flag ptOf acc i hle)
    rcases h1 with h1 | h1 <;> rcases h2 with h2 | h2
    · left; rw [h2, h1]
    · right; exact ⟨by rw [← h1]; exact h2.1, h2.2⟩
    · right; exact ⟨h1.1, by rw [h2]; exact h1.2⟩
    · exfalso; have := h1.2; have := h2.1; omega

theorem countPositive_cons (b : Int) (t : List Int) :
    countPositive (b :: t) = countPositive t + if b > 0 then 1 else 0 := by
  unfold countPositive
  rw [List.filter_cons]
  by_cases hb : b > 0
  · rw [if_pos (decide_eq_true hb), if_pos hb, List.length_cons]
  · rw [if_neg (by simpa using hb), if_neg hb, Nat.add_zero]

theorem newlyRejected_cons (a b : Int) (t t' : List Int) :
    newlyRejected (a :: t) (b :: t')
      = newlyRejected t t' + if a > 0 ∧ b < 0 then 1 else 0 := by
  unfold newlyRejected
  rw [List.zip_cons_cons, List.countP_cons]
  by_cases h : a > 0 ∧ b < 0
  · rw [if_pos (decide_eq_true h), if_pos h]
  · rw [if_neg (by simpa using h), if_neg h]

theorem newlyRejected_add (m m' : List Int) (hlen : m'.length = m.length)
    (h : ∀ p, m'.getD p 0 = m.getD p 0 ∨ (m.getD p 0 = 1 ∧ m'.getD p 0 = -1)) :
    countPositive m' + newlyRejected m m' = countPositive m := by
  induction m generalizing m' with
  | nil =>
    have : m' = [] := List.length_eq_zero.1 hlen
    subst this
    rfl
  | cons a t ih =>
    cases m' with
    | nil => simp at hlen
    | cons b t' =>
      have ht := ih t' (by simpa using hlen) (fun p => by simpa using h (p + 1))
      have h0 : b = a ∨ (a = 1 ∧ b = -1) := by simpa using h 0
      rw [countPositive_cons, countPositive_cons, newlyRejected_cons]
      split_ifs <;> omega

theorem rejectOuliers_change (ext : Ext) (s : Sfm) (hle : ∀ x ∈ s.pts_optim_iter_, x ≤ 1)
    (p : Nat) :
    (rejectOuliers ext s).1.ptStatus p = s.ptStatus p ∨
      (s.ptStatus p = 1 ∧ (rejectOuliers ext s).1.ptStatus p = -1) := by
  rw [rejectOuliers_eq]
  exact penaltyFold_change (fun st => decide (st > 0)) (outlierFlag ext s)
    (fun i => s.point_index_.getD i 0) (fun st h => by simpa using h)
    (List.range s.num_observations_) (s.pts_optim_iter_, 0) hle p

/-- Claim C25. When every point status is at most 1 at entry, the value returned by
`rejectOuliers` is the number of points whose status went from registered to rejected
during the call; a point either keeps its status or goes from 1 to -1, so it is counted
once however many of its observations are beyond the threshold, and the value is at most
the number of registered points at entry. -/
theorem C25_outlier_count_is_newly_rejected (ext : Ext) (s : Sfm)
    (hle : ∀ x ∈ s.pts_optim_iter_, x ≤ 1) :
    (rejectOuliers ext s).2
        = (newlyRejected s.pts_optim_iter_ (rejectOuliers ext s).1.pts_optim_iter_ : Int) ∧
      (∀ p, (rejectOuliers ext s).1.ptStatus p = s.ptStatus p ∨
        (s.ptStatus p = 1 ∧ (rejectOuliers ext s).1.ptStatus p = -1)) ∧
      (rejectOuliers ext s).2 ≤ (registeredCount s : Int) := by
  have h1 := rejectOuliers_registeredCount ext s hle
  have h2 := newlyRejected_add s.pts_optim_iter_ (rejectOuliers ext s).1.pts_optim_iter_
    (rejectOuliers_frame ext s).2.2.2.1 (rejectOuliers_change ext s hle)
  have h3 : (registeredCount (rejectOuliers ext s).1 : Int)
      + (newlyRejected s.pts_optim_iter_ (rejectOuliers ext s).1.pts_optim_iter_ : Int)
      = (registeredCount s : Int) := by
    unfold registeredCount
    exact_mod_cast h2
  refine ⟨by omega, rejectOuliers_change ext s hle, by omega⟩

/-- Claim C25 on `misalignedSeedState`: the nine registered points have two observations
each beyond the threshold, 18 in all; `rejectOuliers` returns 9, the number of points that
went from registered to rejected. -/
theorem C25_outlier_count_is_newly_rejected_witness :
    (∀ x ∈ misalignedSeedState.pts_optim_iter_, x ≤ 1) ∧
      ((List.range misalignedSeedState.num_observations_).filter
        (fun i => outlierFlag stereoExt misalignedSeedState i &&
          decide (misalignedSeedState.ptStatus (misalignedSeedState.point_index_.getD i 0) > 0))).length
        = 18 ∧
      newlyRejected misalignedSeedState.pts_optim_iter_
        (rejectOuliers stereoExt misalignedSeedState).1.pts_optim_iter_ = 9 ∧
      (rejectOuliers stereoExt misalignedSeedState).2
        = (newlyRejected misalignedSeedState.pts_optim_iter_
            (rejectOuliers stereoExt misalignedSeedState).1.pts_optim_iter_ : Int) :=
  ⟨by decide!, by decide!, by decide!,
    (C25_outlier_count_is_newly_rejected stereoExt misalignedSeedState (by decide!)).1⟩

/-! ## The range of the statuses -/

theorem forall_mem_set {α : Type} (P : α → Prop) (l : List α) (i : Nat) (v : α)
    (h : ∀ x ∈ l, P x) (hv : P v) : ∀ x ∈ l.set i v, P x := by
  intro x hx
  rcases List.mem_or_eq_of_mem_set hx with hx | hx
  · exact h x hx
  · rw [hx]; exact hv

theorem penaltyStep_in_range (ok : Int → Bool) (flag : Nat → Bool) (ptOf : Nat → Nat)
    (hok : ∀ st, ok st = true → 0 < st) (acc : List Int × Int) (i : Nat)
    (h : ∀ x ∈ acc.1, x = -1 ∨ x = 0 ∨ x = 1) :
    ∀ x ∈ (penaltyStep ok flag ptOf acc i).1, x = -1 ∨ x = 0 ∨ x = 1 := by
  unfold penaltyStep
  split_ifs with hc
  · apply forall_mem_set _ _ _ _ h
    have h1 := hok _ hc.2
    have h2 := getD_le_one acc.1 (ptOf i) (fun x hx => by rcases h x hx with e | e | e <;> omega)
    left
    omega
  · exact h

theorem penaltyFold_in_range (ok : Int → Bool) (flag : Nat → Bool) (ptOf : Nat → Nat)
    (hok : ∀ st, ok st = true → 0 < st) (l : List Nat) (acc : List Int × Int)
    (h : ∀ x ∈ acc.1, x = -1 ∨ x = 0 ∨ x = 1) :
    ∀ x ∈ (l.foldl (penaltyStep ok flag ptOf) acc).1, x = -1 ∨ x = 0 ∨ x = 1 := by
  induction l generalizing acc with
  | nil => exact h
  | cons i rest ih =>
    rw [List.foldl_cons]
    exact ih _ (penaltyStep_in_range ok flag ptOf hok acc i h)

theorem cheiralityPass_in_range (ext : Ext) (s : Sfm)
    (h : ∀ x ∈ s.pts_optim_iter_, x = -1 ∨ x = 0 ∨ x = 1) :
    ∀ x ∈ (cheiralityPass ext s).1.pts_optim_iter_, x = -1 ∨ x = 0 ∨ x = 1 := by
  rw [cheiralityPass_eq]
  exact penaltyFold_in_range _ _ _ (fun st hst => by
    have : st = 1 := by simpa using hst
    omega) _ (s.pts_optim_iter_, 0) h

theorem rejectOuliers_in_range (ext : Ext) (s : Sfm)
    (h : ∀ x ∈ s.pts_optim_iter_, x = -1 ∨ x = 0 ∨ x = 1) :
    ∀ x ∈ (rejectOuliers ext s).1.pts_optim_iter_, x = -1 ∨ x = 0 ∨ x = 1 := by
  rw [rejectOuliers_eq]
  exact penaltyFold_in_range _ _ _ (fun st hst => by simpa using hst) _ (s.pts_optim_iter_, 0) h

theorem initPointStep_in_range (ext : Ext) (new_cam_pose_idx : Nat) (sp : SeedPose)
    (hpoints4D : List Vec4) (acc : Sfm × Nat) (co_iter : Nat × Nat)
    (h : ∀ x ∈ acc.1.pts_optim_iter_, x = -1 ∨ x = 0 ∨ x = 1) :
    ∀ x ∈ (initPointStep ext new_cam_pose_idx sp hpoints4D acc co_iter).1.pts_optim_iter_,
      x = -1 ∨ x = 0 ∨ x = 1 := by
  unfold initPointStep
  simp only []
  split_ifs
  · rw [(setPtStatus_masks _ _ _).2, (setPt_masks _ _ _).2]
    exact forall_mem_set _ _ _ _ h (Or.inr (Or.inr rfl))
  · rw [(setPtStatus_masks _ _ _).2, (setPt_masks _ _ _).2]
    exact forall_mem_set _ _ _ _ h (Or.inl rfl)
  · rw [(setPt_masks _ _ _).2]
    exact h
  · exact h
  · exact h

theorem initPointFold_in_range (ext : Ext) (new_cam_pose_idx : Nat) (sp : SeedPose)
    (hpoints4D : List Vec4) (l : List (Nat × Nat)) (acc : Sfm × Nat)
    (h : ∀ x ∈ acc.1.pts_optim_iter_, x = -1 ∨ x = 0 ∨ x = 1) :
    ∀ x ∈ (l.foldl (initPointStep ext new_cam_pose_idx sp hpoints4D) acc).1.pts_optim_iter_,
      x = -1 ∨ x = 0 ∨ x = 1 := by
  induction l generalizing acc with
  | nil => exact h
  | cons a rest ih =>
    rw [List.foldl_cons]
    exact ih _ (initPointStep_in_range ext new_cam_pose_idx sp hpoints4D acc a h)

theorem twoViewInit_in_range (ext : Ext) (s : Sfm) (ref_idx new_idx : Nat) (sp : SeedPose)
    (h : statusesInRange s) : statusesInRange (twoViewInit ext s ref_idx new_idx sp) := by
  constructor
  · unfold twoViewInit
    simp only []
    apply initPointFold_in_range
    rw [(initCamParams_masks _ _ _ _).2, (initCamParams_masks _ _ _ _).2,
      (setCamStatus_masks _ _ _).2, (setCamStatus_masks _ _ _).2]
    exact h.1
  · rw [twoViewInit_cam_mask]
    exact forall_mem_set _ _ _ _ (forall_mem_set _ _ _ _ h.2 (Or.inr rfl)) (Or.inr rfl)

theorem growStep_in_range (ext : Ext) (new_cam_pose_idx cam_idx : Nat) (acc : Sfm × Int)
    (co_iter : Nat × Nat) (h : ∀ x ∈ acc.1.pts_optim_iter_, x = -1 ∨ x = 0 ∨ x = 1) :
    ∀ x ∈ (growStep ext new_cam_pose_idx cam_idx acc co_iter).1.pts_optim_iter_,
      x = -1 ∨ x = 0 ∨ x = 1 := by
  unfold growStep
  simp only []
  split_ifs
  · rw [(setPt_masks _ _ _).2, (setPtStatus_masks _ _ _).2, (setPt_masks _ _ _).2]
    exact forall_mem_set _ _ _ _ h (Or.inr (Or.inr rfl))
  · rw [(setPt_masks _ _ _).2, (setPt_masks _ _ _).2]
    exact h
  · exact h

theorem growStep_fold_in_range (ext : Ext) (new_cam_pose_idx cam_idx : Nat)
    (l : List (Nat × Nat)) (acc : Sfm × Int)
    (h : ∀ x ∈ acc.1.pts_optim_iter_, x = -1 ∨ x = 0 ∨ x = 1) :
    ∀ x ∈ (l.foldl (growStep ext new_cam_pose_idx cam_idx) acc).1.pts_optim_iter_,
      x = -1 ∨ x = 0 ∨ x = 1 := by
  induction l generalizing acc with
  | nil => exact h
  | cons a rest ih =>
    rw [List.foldl_cons]
    exact ih _ (growStep_in_range ext new_cam_pose_idx cam_idx acc a h)

theorem growPoints_fold_in_range (ext : Ext) (new_cam_pose_idx : Nat) (l : List Nat)
    (acc : Sfm × Int) (h : ∀ x ∈ acc.1.pts_optim_iter_, x = -1 ∨ x = 0 ∨ x = 1) :
    ∀ x ∈ (l.foldl
        (fun (acc : Sfm × Int) cam_idx =>
          if acc.1.camStatus cam_idx > 0 then
            (acc.1.camObs cam_idx).foldl (growStep ext new_cam_pose_idx cam_idx) acc
          else acc) acc).1.pts_optim_iter_, x = -1 ∨ x = 0 ∨ x = 1 := by
  induction l generalizing acc with
  | nil => exact h
  | cons c rest ih =>
    rw [List.foldl_cons]
    apply ih
    split_ifs
    · exact growStep_fold_in_range ext new_cam_pose_idx c _ acc h
    · exact h

theorem growPoints_in_range (ext : Ext) (s : Sfm) (new_cam_pose_idx : Nat)
    (h : statusesInRange s) : statusesInRange (growPoints ext s new_cam_pose_idx).1 :=
  ⟨growPoints_fold_in_range ext new_cam_pose_idx (List.range s.num_cam_poses_) (s, 0) h.1, by
    rw [(growPoints_frame ext s new_cam_pose_idx).1]; exact h.2⟩

theorem farPointFold_in_range (max_dist : ℚ) (l : List Nat) (acc : Sfm)
    (h : ∀ x ∈ acc.pts_optim_iter_, x = -1 ∨ x = 0 ∨ x = 1) :
    ∀ x ∈ (l.foldl
        (fun (acc : Sfm) i =>
          if acc.ptStatus i > 0 ∧
              (|(acc.pt i).1| > max_dist ∨ |(acc.pt i).2.1| > max_dist ∨
                |(acc.pt i).2.2| > max_dist) then
            acc.setPtStatus i (-1)
          else acc) acc).pts_optim_iter_, x = -1 ∨ x = 0 ∨ x = 1 := by
  induction l generalizing acc with
  | nil => exact h
  | cons i rest ih =>
    rw [List.foldl_cons]
    apply ih
    split_ifs
    · rw [(setPtStatus_masks _ _ _).2]
      exact forall_mem_set _ _ _ _ h (Or.inl rfl)
    · exact h

theorem farPointFilter_in_range (ext : Ext) (s : Sfm) (h : statusesInRange s) :
    statusesInRange (farPointFilter ext s) :=
  ⟨farPointFold_in_range (maxDist ext s) (List.range s.num_points_) s h.1, by
    rw [(farPointFilter_frame ext s).1]; exact h.2⟩

theorem bundleAdjustmentRound_in_range (ext : Ext) (s : Sfm) (h : statusesInRange s) :
    statusesInRange (bundleAdjustmentRound ext s).1 := by
  have h0 : ∀ x ∈ (solvedState ext s).pts_optim_iter_, x = -1 ∨ x = 0 ∨ x = 1 := h.1
  have c2 := cheiralityPass_in_range ext (solvedState ext s) h0
  have r2 := rejectOuliers_in_range ext (cheiralityPass ext (solvedState ext s)).1 c2
  refine ⟨?_, by rw [(bundleAdjustmentRound_frame ext s).1]; exact h.2⟩
  rw [bundleAdjustmentRound_eq]
  split_ifs
  · exact c2
  · exact r2
  · exact r2

theorem bundleAdjustmentIter_in_range (ext : Ext) (fuel : Nat) (s s' : Sfm)
    (hrun : bundleAdjustmentIter ext fuel s = some s') (h : statusesInRange s) :
    statusesInRange s' := by
  induction fuel generalizing s with
  | zero => simp [bundleAdjustmentIter] at hrun
  | succ fuel ih =>
    rw [bundleAdjustmentIter_succ] at hrun
    have h1 := bundleAdjustmentRound_in_range ext s h
    by_cases hr : (bundleAdjustmentRound ext s).2 = true
    · rw [if_pos hr] at hrun
      exact ih _ hrun h1
    · rw [if_neg hr] at hrun
      injection hrun with hrun
      subst hrun
      exact h1

theorem registerNextCamera_in_range (ext : Ext) (s s1 : Sfm) (new_cam_pose_idx : Nat)
    (hreg : registerNextCamera ext s = some (new_cam_pose_idx, s1)) (h : statusesInRange s) :
    statusesInRange s1 := by
  obtain ⟨_, h1, h2⟩ := registerNextCamera_frame ext s s1 new_cam_pose_idx hreg
  constructor
  · rw [h1]; exact h.1
  · rw [h2]; exact forall_mem_set _ _ _ _ h.2 (Or.inr rfl)

theorem growthIter_in_range (ext : Ext) (fuel : Nat) (s s' : Sfm) (iter : Nat) (b : Bool)
    (hrun : growthIter ext fuel s iter = some (b, s')) (h : statusesInRange s) :
    statusesInRange s' := by
  unfold growthIter at hrun
  cases hreg : registerNextCamera ext s with
  | none =>
    rw [hreg] at hrun
    simp only [Option.some.injEq, Prod.mk.injEq] at hrun
    rw [← hrun.2]
    exact h
  | some ns =>
    obtain ⟨new_idx, s1⟩ := ns
    rw [hreg] at hrun
    simp only [] at hrun
    have h1 := registerNextCamera_in_range ext s s1 new_idx hreg h
    have h2 := growPoints_in_range ext s1 new_idx h1
    cases hba : bundleAdjustmentIter ext fuel (growPoints ext s1 new_idx).1 with
    | none => rw [hba] at hrun; simp at hrun
    | some s3 =>
      rw [hba] at hrun
      simp only [] at hrun
      have h3 := bundleAdjustmentIter_in_range ext fuel _ s3 hba h2
      have h4 := farPointFilter_in_range ext s3 h3
      have hs' : s' = farPointFilter ext s3 := by
        split_ifs at hrun
        · simp only [Option.some.injEq, Prod.mk.injEq] at hrun; exact hrun.2.symm
        · simp only [Option.some.injEq, Prod.mk.injEq] at hrun; exact hrun.2.symm
      rw [hs']
      exact h4

theorem growthLoop_in_range (ext : Ext) (fuel : Nat) (iters : List Nat) (s s' : Sfm) (b : Bool)
    (hrun : growthLoop ext fuel iters s = some (b, s')) (h : statusesInRange s) :
    statusesInRange s' := by
  induction iters generalizing s with
  | nil =>
    simp only [growthLoop, Option.some.injEq, Prod.mk.injEq] at hrun
    rw [← hrun.2]
    exact h
  | cons iter rest ih =>
    unfold growthLoop at hrun
    cases hit : growthIter ext fuel s iter with
    | none => rw [hit] at hrun; simp at hrun
    | some r =>
      obtain ⟨b1, s1⟩ := r
      rw [hit] at hrun
      have h1 := growthIter_in_range ext fuel s s1 iter b1 hit h
      cases b1 with
      | false =>
        simp only [Option.some.injEq, Prod.mk.injEq] at hrun
        rw [← hrun.2]
        exact h1
      | true => exact ih s1 hrun h1

theorem vectorResize_forall {α : Type} (P : α → Prop) (v : List α) (n : Nat) (val : α)
    (h : ∀ x ∈ v, P x) (hv : P val) : ∀ x ∈ vectorResize v n val, P x := by
  intro x hx
  unfold vectorResize at hx
  rcases List.mem_append.1 hx with hx | hx
  · exact h x (List.mem_of_mem_take hx)
  · rw [List.eq_of_mem_replicate hx]; exact hv

theorem resetForSeed_in_range (s : Sfm) (h : statusesInRange s) :
    statusesInRange (resetForSeed s) :=
  ⟨vectorResize_forall _ _ _ _ h.1 (Or.inr (Or.inl rfl)),
    vectorResize_forall _ _ _ _ h.2 (Or.inl rfl)⟩

theorem incrementalReconstruction_in_range (ext : Ext) (fuel : Nat) (s s' : Sfm)
    (idx0 idx1 : Nat) (b : Bool)
    (hrun : incrementalReconstruction ext fuel s idx0 idx1 = some (b, s'))
    (h : statusesInRange s) : statusesInRange s' := by
  unfold incrementalReconstruction at hrun
  have h0 := resetForSeed_in_range s h
  cases hseed : seedInit ext s idx0 idx1 with
  | none =>
    rw [hseed] at hrun
    simp only [Option.some.injEq, Prod.mk.injEq] at hrun
    rw [← hrun.2]
    exact h0
  | some s1 =>
    rw [hseed] at hrun
    simp only [] at hrun
    have h1 : statusesInRange s1 := by
      unfold seedInit at hseed
      cases hv : validateSeed ext (resetForSeed s) idx0 idx1 with
      | none => rw [hv] at hseed; simp at hseed
      | some sp =>
        rw [hv] at hseed
        simp only [Option.some.injEq] at hseed
        rw [← hseed]
        exact twoViewInit_in_range ext _ idx0 idx1 sp h0
    cases hba : bundleAdjustmentIter ext fuel s1 with
    | none => rw [hba] at hrun; simp at hrun
    | some s2 =>
      rw [hba] at hrun
      exact growthLoop_in_range ext fuel _ s2 s' b hrun
        (bundleAdjustmentIter_in_range ext fuel s1 s2 hba h1)

theorem run_in_range (ext : Ext) (op : EngineOp) (s : Sfm) (h : statusesInRange s) :
    statusesInRange (op.run ext s) := by
  cases op with
  | seed ref_idx new_idx sp => exact twoViewInit_in_range ext s ref_idx new_idx sp h
  | register =>
    show statusesInRange (((registerNextCamera ext s).map (fun ns => ns.2)).getD s)
    cases hreg : registerNextCamera ext s with
    | none => exact h
    | some ns => exact registerNextCamera_in_range ext s ns.2 ns.1 hreg h
  | triangulate new_idx => exact growPoints_in_range ext s new_idx h
  | solve => exact h
  | cheirality =>
    show statusesInRange (cheiralityPass ext s).1
    exact ⟨cheiralityPass_in_range ext s h.1, by
      rw [(cheiralityPass_frame ext s).1]; exact h.2⟩
  | outliers =>
    show statusesInRange (rejectOuliers ext s).1
    exact ⟨rejectOuliers_in_range ext s h.1, by
      rw [(rejectOuliers_frame ext s).1]; exact h.2⟩
  | adjust fuel =>
    show statusesInRange ((bundleAdjustmentIter ext fuel s).getD s)
    cases hba : bundleAdjustmentIter ext fuel s with
    | none => exact h
    | some s2 => exact bundleAdjustmentIter_in_range ext fuel s s2 hba h
  | farPoints => exact farPointFilter_in_range ext s h

/-- Claim C24. Let every point status be -1, 0 or 1 and every camera status 0 or 1, as
they are for masks of zeros and ones. Then the same holds after any sequence of operations
of the engine (two-view initialisation, registration of a camera, triangulation of new
points, solve, cheirality check, outlier rejection, a whole bundle adjustment, far-point
filter), and in the object that a call of `incrementalReconstruction` leaves: no status
goes below -1. -/
theorem C24_statuses_stay_in_range (ext : Ext) (s : Sfm) (h : statusesInRange s) :
    (∀ ops : List EngineOp, statusesInRange (ops.foldl (fun st op => op.run ext st) s)) ∧
      ∀ fuel idx0 idx1 b s', incrementalReconstruction ext fuel s idx0 idx1 = some (b, s') →
        statusesInRange s' := by
  constructor
  · intro ops
    induction ops generalizing s with
    | nil => exact h
    | cons op rest ih =>
      rw [List.foldl_cons]
      exact ih _ (run_in_range ext op s h)
  · intro fuel idx0 idx1 b s' hrun
    exact incrementalReconstruction_in_range ext fuel s s' idx0 idx1 b hrun h

/-- Claim C24 on `sideCameraScene`: the masks are all 0 at the start; the call
`incrementalReconstruction(0, 1)` returns with ten points registered, point 10 rejected
and the three cameras registered, all statuses in range. -/
theorem C24_statuses_stay_in_range_witness :
    statusesInRange (buildCamObservation sideCameraScene) ∧
      (incrementalReconstruction sideCameraExt 3 (buildCamObservation sideCameraScene) 0 1).map
          (fun r => (r.2.pts_optim_iter_, r.2.cam_pose_optim_iter_))
        = some ([1, 1, 1, 1, 1, 1, 1, 1, 1, 1, -1], [1, 1, 1]) ∧
      ∀ b s', incrementalReconstruction sideCameraExt 3 (buildCamObservation sideCameraScene) 0 1
          = some (b, s') → statusesInRange s' :=
  ⟨And.intro (by decide!) (by decide!), by decide!,
    (C24_statuses_stay_in_range sideCameraExt (buildCamObservation sideCameraScene)
      (And.intro (by decide!) (by decide!))).2 3 0 1⟩

/-! ## The statuses after the two-view initialisation -/

theorem getD_set_rat (l : List ℚ) (q p : Nat) (v : ℚ) :
    (l.set q v).getD p 0 = if q = p ∧ q < l.length then v else l.getD p 0 := by
  rw [List.getD_eq_getElem?_getD, List.getD_eq_getElem?_getD, List.getElem?_set]
  by_cases h : q = p
  · subst h
    by_cases h2 : q < l.length
    · simp [h2]
    · simp only [h2, if_false, true_and, if_true]
      rw [List.getElem?_eq_none (by omega)]
  · simp [h]

theorem setPt_frame (s : Sfm) (i : Nat) (v : Vec3) :
    (s.setPt i v).cam_observation_ = s.cam_observation_ ∧
      (s.setPt i v).max_reproj_err_ = s.max_reproj_err_ ∧
      (s.setPt i v).num_cam_poses_ = s.num_cam_poses_ ∧
      (s.setPt i v).parameters_.length = s.parameters_.length := by
  simp only [Sfm.setPt, Sfm.setVec3At, Sfm.setParam, List.length_set, and_self]

theorem setPtStatus_frame (s : Sfm) (i : Nat) (v : Int) :
    (s.setPtStatus i v).cam_observation_ = s.cam_observation_ ∧
      (s.setPtStatus i v).max_reproj_err_ = s.max_reproj_err_ ∧
      (s.setPtStatus i v).num_cam_poses_ = s.num_cam_poses_ ∧
      (s.setPtStatus i v).parameters_.length = s.parameters_.length := ⟨rfl, rfl, rfl, rfl⟩

theorem pt_setPt (s : Sfm) (i : Nat) (v : Vec3)
    (hin : pointBlockPtr s i + 2 < s.parameters_.length) : (s.setPt i v).pt i = v := by
  obtain ⟨v1, v2, v3⟩ := v
  simp only [Sfm.pt, Sfm.setPt, Sfm.setVec3At, Sfm.setParam, Sfm.vec3At, Sfm.param, pointBlockPtr]
  unfold pointBlockPtr at hin
  simp only [getD_set_rat, List.length_set]
  have e1 : ¬ (s.num_cam_poses_ * camera_block_size_ + i * point_block_size_ + 2
      = s.num_cam_poses_ * camera_block_size_ + i * point_block_size_) := by omega
  have e2 : ¬ (s.num_cam_poses_ * camera_block_size_ + i * point_block_size_ + 1
      = s.num_cam_poses_ * camera_block_size_ + i * point_block_size_) := by omega
  have e3 : ¬ (s.num_cam_poses_ * camera_block_size_ + i * point_block_size_ + 2
      = s.num_cam_poses_ * camera_block_size_ + i * point_block_size_ + 1) := by omega
  have l1 : s.num_cam_poses_ * camera_block_size_ + i * point_block_size_
      < s.parameters_.length := by omega
  have l2 : s.num_cam_poses_ * camera_block_size_ + i * point_block_size_ + 1
      < s.parameters_.length := by omega
  simp only [e1, e2, e3, l1, l2, hin, false_and, if_false, true_and, if_true, and_self]

theorem initPointStep_frame (ext : Ext) (new_cam_pose_idx : Nat) (sp : SeedPose)
    (hpoints4D : List Vec4) (acc : Sfm × Nat) (co_iter : Nat × Nat) :
    (initPointStep ext new_cam_pose_idx sp hpoints4D acc co_iter).1.cam_observation_
        = acc.1.cam_observation_ ∧
      (initPointStep ext new_cam_pose_idx sp hpoints4D acc co_iter).1.max_reproj_err_
        = acc.1.max_reproj_err_ ∧
      (initPointStep ext new_cam_pose_idx sp hpoints4D acc co_iter).1.num_cam_poses_
        = acc.1.num_cam_poses_ ∧
      (initPointStep ext new_cam_pose_idx sp hpoints4D acc co_iter).1.parameters_.length
        = acc.1.parameters_.length ∧
      (initPointStep ext new_cam_pose_idx sp hpoints4D acc co_iter).1.pts_optim_iter_.length
        = acc.1.pts_optim_iter_.length ∧
      (initPointStep ext new_cam_pose_idx sp hpoints4D acc co_iter).2 = acc.2 + 1 := by
  unfold initPointStep
  simp only []
  split_ifs <;>
    simp only [Sfm.setPt, Sfm.setVec3At, Sfm.setParam, Sfm.setPtStatus, List.length_set, and_self]

theorem initPointStep_pts (ext : Ext) (new_cam_pose_idx : Nat) (sp : SeedPose)
    (hpoints4D : List Vec4) (acc : Sfm × Nat) (co_iter : Nat × Nat)
    (hin : pointBlockPtr acc.1 co_iter.1 + 2 < acc.1.parameters_.length) :
    (initPointStep ext new_cam_pose_idx sp hpoints4D acc co_iter).1.pts_optim_iter_
      = if ((acc.1.camObs new_cam_pose_idx).find co_iter.1).isSome = true ∧
            sp.inlier_mask_E.getD acc.2 0 ≠ 0 ∧ (triangulatedPoint hpoints4D acc.2).2.2 > 0 then
          acc.1.pts_optim_iter_.set co_iter.1
            (if reprojectionOk ext sp acc.1.max_reproj_err_ acc.2
                (triangulatedPoint hpoints4D acc.2) = true then 1 else -1)
        else acc.1.pts_optim_iter_ := by
  have hpt := pt_setPt acc.1 co_iter.1 (triangulatedPoint hpoints4D acc.2) hin
  unfold triangulatedPoint at hpt ⊢
  unfold initPointStep reprojectionOk
  simp only []
  rw [hpt]
  by_cases h1 : ((acc.1.camObs new_cam_pose_idx).find co_iter.1).isSome = true
  · by_cases h2 : sp.inlier_mask_E.getD acc.2 0 = 0
    · simp only [h1, h2, ne_eq, not_true_eq_false, if_true, if_false, false_and, and_false]
    · by_cases h3 : (hNormalize (hpoints4D.getD acc.2 (0, 0, 0, 0))).2.2 > 0
      · simp only [h1, h2, h3, ne_eq, not_false_eq_true, if_true, and_self, decide_eq_true_eq]
        split_ifs
        · rw [(setPtStatus_masks _ _ _).2, (setPt_masks _ _ _).2]
        · rw [(setPtStatus_masks _ _ _).2, (setPt_masks _ _ _).2]
      · simp only [h1, h2, h3, ne_eq, not_false_eq_true, if_true, if_false, and_false]
        exact (setPt_masks _ _ _).2
  · simp only [h1, Bool.false_eq_true, if_false, false_and]

theorem initPointFold_frame (ext : Ext) (new_cam_pose_idx : Nat) (sp : SeedPose)
    (hpoints4D : List Vec4) (l : List (Nat × Nat)) (acc : Sfm × Nat) :
    (l.foldl (initPointStep ext new_cam_pose_idx sp hpoints4D) acc).1.cam_observation_
        = acc.1.cam_observation_ ∧
      (l.foldl (initPointStep ext new_cam_pose_idx sp hpoints4D) acc).1.max_reproj_err_
        = acc.1.max_reproj_err_ := by
  induction l generalizing acc with
  | nil => exact ⟨rfl, rfl⟩
  | cons a rest ih =>
    rw [List.foldl_cons]
    obtain ⟨f1, f2, _⟩ := initPointStep_frame ext new_cam_pose_idx sp hpoints4D acc a
    obtain ⟨i1, i2⟩ := ih (initPointStep ext new_cam_pose_idx sp hpoints4D acc a)
    exact ⟨by rw [i1, f1], by rw [i2, f2]⟩

theorem initPointFold_status (ext : Ext) (new_cam_pose_idx : Nat) (sp : SeedPose)
    (hpoints4D : List Vec4) (l : List (Nat × Nat)) (acc : Sfm × Nat)
    (hnodup : (l.map Prod.fst).Nodup)
    (hin : ∀ e ∈ l, pointBlockPtr acc.1 e.1 + 2 < acc.1.parameters_.length)
    (hlen : ∀ e ∈ l, e.1 < acc.1.pts_optim_iter_.length) :
    (∀ p, (∀ e ∈ l, e.1 ≠ p) →
        (l.foldl (initPointStep ext new_cam_pose_idx sp hpoints4D) acc).1.ptStatus p
          = acc.1.ptStatus p) ∧
      ∀ k e, l[k]? = some e →
        (l.foldl (initPointStep ext new_cam_pose_idx sp hpoints4D) acc).1.ptStatus e.1
          = if ((acc.1.camObs new_cam_pose_idx).find e.1).isSome = true ∧
                sp.inlier_mask_E.getD (acc.2 + k) 0 ≠ 0 ∧
                (triangulatedPoint hpoints4D (acc.2 + k)).2.2 > 0 then
              (if reprojectionOk ext sp acc.1.max_reproj_err_ (acc.2 + k)
                  (triangulatedPoint hpoints4D (acc.2 + k)) = true then 1 else -1)
            else acc.1.ptStatus e.1 := by
  induction l generalizing acc with
  | nil =>
    refine ⟨fun p _ => rfl, fun k e hk => ?_⟩
    simp at hk
  | cons a rest ih =>
    rw [List.foldl_cons]
    obtain ⟨f1, f2, f3, f4, f5, f6⟩ :=
      initPointStep_frame ext new_cam_pose_idx sp hpoints4D acc a
    have hpts := initPointStep_pts ext new_cam_pose_idx sp hpoints4D acc a
      (hin a (List.mem_cons_self _ _))
    have ha := hlen a (List.mem_cons_self _ _)
    have hnd : a.1 ∉ rest.map Prod.fst ∧ (rest.map Prod.fst).Nodup := by
      simpa using hnodup
    have hother : ∀ p, p ≠ a.1 →
        (initPointStep ext new_cam_pose_idx sp hpoints4D acc a).1.ptStatus p
          = acc.1.ptStatus p := by
      intro p hp
      unfold Sfm.ptStatus
      rw [hpts]
      split_ifs
      · rw [getD_set_int, if_neg (fun h => hp h.1.symm)]
      · rw [getD_set_int, if_neg (fun h => hp h.1.symm)]
      · rfl
    have hself : (initPointStep ext new_cam_pose_idx sp hpoints4D acc a).1.ptStatus a.1
        = if ((acc.1.camObs new_cam_pose_idx).find a.1).isSome = true ∧
              sp.inlier_mask_E.getD acc.2 0 ≠ 0 ∧
              (triangulatedPoint hpoints4D acc.2).2.2 > 0 then
            (if reprojectionOk ext sp acc.1.max_reproj_err_ acc.2
                (triangulatedPoint hpoints4D acc.2) = true then 1 else -1)
          else acc.1.ptStatus a.1 := by
      unfold Sfm.ptStatus
      rw [hpts]
      split_ifs
      · rw [getD_set_int, if_pos ⟨rfl, ha⟩]
      · rw [getD_set_int, if_pos ⟨rfl, ha⟩]
      · rfl
    have hcam : (initPointStep ext new_cam_pose_idx sp hpoints4D acc a).1.camObs new_cam_pose_idx
        = acc.1.camObs new_cam_pose_idx := by
      unfold Sfm.camObs
      rw [f1]
    obtain ⟨i1, i2⟩ := ih (initPointStep ext new_cam_pose_idx sp hpoints4D acc a) hnd.2
      (fun e he => by
        have := hin e (List.mem_cons_of_mem _ he)
        unfold pointBlockPtr at this ⊢
        rw [f3, f4]
        exact this)
      (fun e he => by rw [f5]; exact hlen e (List.mem_cons_of_mem _ he))
    constructor
    · intro p hp
      rw [i1 p (fun e he => hp e (List.mem_cons_of_mem _ he))]
      exact hother p (fun h => hp a (List.mem_cons_self _ _) h.symm)
    · intro k e hk
      cases k with
      | zero =>
        have hea : a = e := by simpa using hk
        subst hea
        rw [i1 a.1 (fun e he h => hnd.1 (List.mem_map.2 ⟨e, he, h⟩)), hself]
        rfl
      | succ k =>
        have hk2 : rest[k]? = some e := by simpa using hk
        have hne : e.1 ≠ a.1 := by
          intro h
          exact hnd.1 (List.mem_map.2 ⟨e, List.getElem?_mem hk2, h⟩)
        rw [i2 k e hk2, hcam, f2, f6, hother e.1 hne]
        have e1 : acc.2 + 1 + k = acc.2 + (k + 1) := by omega
        rw [e1]

theorem getD_zero_of_forall (l : List Int) (q : Nat) (h : ∀ x ∈ l, x = 0) : l.getD q 0 = 0 := by
  by_cases hq : q < l.length
  · rw [List.getD_eq_getElem _ _ hq]
    exact h _ (List.getElem_mem _)
  · rw [List.getD_eq_getElem?_getD, List.getElem?_eq_none (by omega)]
    rfl

theorem seedPrelude_frame (ext : Ext) (s : Sfm) (ref_idx new_idx : Nat) (sp : SeedPose) :
    (initCamParams
        (initCamParams ((s.setCamStatus new_idx 1).setCamStatus ref_idx 1) ref_idx (0, 0, 0)
          (0, 0, 0)) new_idx (ext.Rodrigues sp.init_r_mat) sp.init_t_vec).cam_observation_
        = s.cam_observation_ ∧
      (initCamParams
        (initCamParams ((s.setCamStatus new_idx 1).setCamStatus ref_idx 1) ref_idx (0, 0, 0)
          (0, 0, 0)) new_idx (ext.Rodrigues sp.init_r_mat) sp.init_t_vec).pts_optim_iter_
        = s.pts_optim_iter_ ∧
      (initCamParams
        (initCamParams ((s.setCamStatus new_idx 1).setCamStatus ref_idx 1) ref_idx (0, 0, 0)
          (0, 0, 0)) new_idx (ext.Rodrigues sp.init_r_mat) sp.init_t_vec).max_reproj_err_
        = s.max_reproj_err_ ∧
      (initCamParams
        (initCamParams ((s.setCamStatus new_idx 1).setCamStatus ref_idx 1) ref_idx (0, 0, 0)
          (0, 0, 0)) new_idx (ext.Rodrigues sp.init_r_mat) sp.init_t_vec).num_cam_poses_
        = s.num_cam_poses_ ∧
      (initCamParams
        (initCamParams ((s.setCamStatus new_idx 1).setCamStatus ref_idx 1) ref_idx (0, 0, 0)
          (0, 0, 0)) new_idx (ext.Rodrigues sp.init_r_mat) sp.init_t_vec).parameters_.length
        = s.parameters_.length := by
  simp only [initCamParams, Sfm.setVec3At, Sfm.setParam, Sfm.setCamStatus, List.length_set,
    and_self]

theorem seedLoop_status (ext : Ext) (s s3 : Sfm) (ref_idx new_idx : Nat) (sp : SeedPose)
    (c1 : s3.cam_observation_ = s.cam_observation_)
    (c2 : s3.pts_optim_iter_ = s.pts_optim_iter_)
    (c3 : s3.max_reproj_err_ = s.max_reproj_err_)
    (c4 : s3.num_cam_poses_ = s.num_cam_poses_)
    (c5 : s3.parameters_.length = s.parameters_.length)
    (hzero : ∀ x ∈ s.pts_optim_iter_, x = 0)
    (hnodup : ((s.camObs ref_idx).map Prod.fst).Nodup)
    (hpar : s.num_cam_poses_ * camera_block_size_ + s.num_points_ * point_block_size_
      ≤ s.parameters_.length)
    (hlen : s.pts_optim_iter_.length = s.num_points_)
    (hkeys : ∀ e ∈ s.camObs ref_idx, e.1 < s.num_points_) :
    (∀ p, (∀ e ∈ s.camObs ref_idx, e.1 ≠ p) →
        ((s3.camObs ref_idx).foldl
          (initPointStep ext new_idx sp (seedTriangulation ext sp)) (s3, 0)).1.ptStatus p = 0) ∧
      ∀ r e, (s.camObs ref_idx)[r]? = some e →
        ((s3.camObs ref_idx).foldl
          (initPointStep ext new_idx sp (seedTriangulation ext sp)) (s3, 0)).1.ptStatus e.1
          = if ((s.camObs new_idx).find e.1).isSome = true ∧ sp.inlier_mask_E.getD r 0 ≠ 0 ∧
                (triangulatedPoint (seedTriangulation ext sp) r).2.2 > 0 then
              (if reprojectionOk ext sp s.max_reproj_err_ r
                  (triangulatedPoint (seedTriangulation ext sp) r) = true then 1 else -1)
            else 0 := by
  have hco : ∀ i, s3.camObs i = s.camObs i := by
    intro i
    unfold Sfm.camObs
    rw [c1]
  have hst : ∀ p, s3.ptStatus p = 0 := by
    intro p
    unfold Sfm.ptStatus
    rw [c2]
    exact getD_zero_of_forall _ _ hzero
  obtain ⟨k1, k2⟩ := initPointFold_status ext new_idx sp (seedTriangulation ext sp)
    (s3.camObs ref_idx) (s3, 0) (by rw [hco]; exact hnodup)
    (fun e he => by
      rw [hco] at he
      have := hkeys e he
      show pointBlockPtr s3 e.1 + 2 < s3.parameters_.length
      unfold pointBlockPtr
      rw [c4, c5]
      unfold camera_block_size_ point_block_size_ at hpar ⊢
      omega)
    (fun e he => by
      rw [hco] at he
      show e.1 < s3.pts_optim_iter_.length
      rw [c2, hlen]
      exact hkeys e he)
  constructor
  · intro p hp
    rw [k1 p (by rw [hco]; exact hp)]
    exact hst p
  · intro r e hr
    rw [k2 r e (by rw [hco]; exact hr)]
    show (if ((s3.camObs new_idx).find e.1).isSome = true ∧
          sp.inlier_mask_E.getD (0 + r) 0 ≠ 0 ∧
          (triangulatedPoint (seedTriangulation ext sp) (0 + r)).2.2 > 0 then
        (if reprojectionOk ext sp s3.max_reproj_err_ (0 + r)
            (triangulatedPoint (seedTriangulation ext sp) (0 + r)) = true then 1 else -1)
      else s3.ptStatus e.1) = _
    rw [Nat.zero_add, hco, c3, hst]

/-- C22 (counterexample): in `skewMatchScene` the pair (0, 1) is accepted from masks that
are all 0; point 10 is an inlier with positive depth whose reprojection into camera 1 is
`1/10` off, beyond the threshold `1/1000`: it is not accepted, and its status after the
two-view initialisation is -1, not 0. -/
theorem C22_failed_reprojection_is_rejected :
    skewResetState.pts_optim_iter_ = List.replicate 11 0 ∧
      seedInit stereoExt (buildCamObservation skewMatchScene) 0 1
        = some (twoViewInit stereoExt skewResetState 0 1 skewSeedPose) ∧
      (triangulatedPoint (seedTriangulation stereoExt skewSeedPose) 10).2.2 = 4 ∧
      reprojectionOk stereoExt skewSeedPose skewResetState.max_reproj_err_ 10
        (triangulatedPoint (seedTriangulation stereoExt skewSeedPose) 10) = false ∧
      (twoViewInit stereoExt skewResetState 0 1 skewSeedPose).pts_optim_iter_
        = [1, 1, 1, 1, 1, 1, 1, 1, 1, 1, -1] :=
  ⟨by decide!, by decide!, by decide!, by decide!, by decide!⟩

/-- C22 (amended): after a two-view initialisation from point statuses that are all 0, a
point that the reference camera does not see has status 0, and the point of the `r`-th
entry of the reference camera has status 1 when it is accepted (seen by the second
camera, `inlier_mask_E[r]` set, triangulated depth positive, both reprojection errors
below the threshold), status -1 when only the reprojection test fails, and status 0
otherwise. -/
theorem C22_status_after_two_view_init (ext : Ext) (s : Sfm) (ref_idx new_idx : Nat)
    (sp : SeedPose) (hzero : ∀ x ∈ s.pts_optim_iter_, x = 0)
    (hnodup : ((s.camObs ref_idx).map Prod.fst).Nodup)
    (hpar : s.num_cam_poses_ * camera_block_size_ + s.num_points_ * point_block_size_
      ≤ s.parameters_.length)
    (hlen : s.pts_optim_iter_.length = s.num_points_)
    (hkeys : ∀ e ∈ s.camObs ref_idx, e.1 < s.num_points_) :
    (∀ p, (∀ e ∈ s.camObs ref_idx, e.1 ≠ p) →
        (twoViewInit ext s ref_idx new_idx sp).ptStatus p = 0) ∧
      ∀ r e, (s.camObs ref_idx)[r]? = some e →
        (twoViewInit ext s ref_idx new_idx sp).ptStatus e.1
          = if ((s.camObs new_idx).find e.1).isSome = true ∧ sp.inlier_mask_E.getD r 0 ≠ 0 ∧
                (triangulatedPoint (seedTriangulation ext sp) r).2.2 > 0 then
              (if reprojectionOk ext sp s.max_reproj_err_ r
                  (triangulatedPoint (seedTriangulation ext sp) r) = true then 1 else -1)
            else 0 := by
  obtain ⟨c1, c2, c3, c4, c5⟩ := seedPrelude_frame ext s ref_idx new_idx sp
  exact seedLoop_status ext s _ ref_idx new_idx sp c1 c2 c3 c4 c5 hzero hnodup hpar hlen hkeys

/-- C22 (witness): in `skewMatchScene` point 10 is the entry 10 of camera 0; it meets the
first three conditions and fails the reprojection test, and its status is -1; point 0 is
accepted and its status is 1. -/
theorem C22_status_after_two_view_init_witness :
    ((∀ x ∈ skewResetState.pts_optim_iter_, x = 0) ∧
      ((skewResetState.camObs 0).map Prod.fst).Nodup ∧
      skewResetState.num_cam_poses_ * camera_block_size_
          + skewResetState.num_points_ * point_block_size_ ≤ skewResetState.parameters_.length ∧
      skewResetState.pts_optim_iter_.length = skewResetState.num_points_ ∧
      ∀ e ∈ skewResetState.camObs 0, e.1 < skewResetState.num_points_) ∧
    (twoViewInit stereoExt skewResetState 0 1 skewSeedPose).ptStatus 10 = -1 ∧
    (twoViewInit stereoExt skewResetState 0 1 skewSeedPose).ptStatus 0 = 1 :=
  ⟨⟨by decide!, by decide!, by decide!, by decide!, by decide!⟩,
    ((C22_status_after_two_view_init stereoExt skewResetState 0 1 skewSeedPose (by decide!)
      (by decide!) (by decide!) (by decide!) (by decide!)).2 10 (10, 20) (by decide!)).trans
      (by decide!),
    ((C22_status_after_two_view_init stereoExt skewResetState 0 1 skewSeedPose (by decide!)
      (by decide!) (by decide!) (by decide!) (by decide!)).2 0 (0, 0) (by decide!)).trans
      (by decide!)⟩

/-! ## The counter of the two-view loop -/

theorem counterAtPoint_eq (ext : Ext) (s : Sfm) (ref_idx new_idx : Nat) (sp : SeedPose)
    (pt_idx : Nat) :
    counterAtPoint ext s ref_idx new_idx sp pt_idx
      = ((s.camObs ref_idx).takeWhile (fun co_iter => decide (co_iter.1 ≠ pt_idx))).length := by
  unfold counterAtPoint
  simp only []
  rw [initPointFold_counter, Nat.zero_add]
  unfold Sfm.camObs
  rw [(seedPrelude_frame ext s ref_idx new_idx sp).1]

/-- C23 (the code at a failing input): the counter `r` with which the loop processes a
point is the number of all entries of the reference camera before it, for every scene. In
`extraPointScene` camera 0 sees point 0, which camera 1 does not see, and the match lists
hold the ten points 1 to 10: point 1 is at position 0 of the lists and is processed with
`r = 1`, the position of point 2; point 10 is at position 9 and is processed with
`r = 10`, the number of matches, one past the end of the lists. -/
theorem C23_counter_is_not_match_position :
    (∀ (ext : Ext) (s : Sfm) (ref_idx new_idx : Nat) (sp : SeedPose) (pt_idx : Nat),
        counterAtPoint ext s ref_idx new_idx sp pt_idx
          = ((s.camObs ref_idx).takeWhile
              (fun co_iter => decide (co_iter.1 ≠ pt_idx))).length) ∧
      (sharedEntries (resetForSeed (buildCamObservation extraPointScene)) 0 1).map Prod.fst
        = [1, 2, 3, 4, 5, 6, 7, 8, 9, 10] ∧
      (seedPoints0 (resetForSeed (buildCamObservation extraPointScene)) 0 1).length = 10 ∧
      (seedPoints1 (resetForSeed (buildCamObservation extraPointScene)) 0 1).length = 10 ∧
      matchPosition (resetForSeed (buildCamObservation extraPointScene)) 0 1 1 = 0 ∧
      (∀ sp, counterAtPoint stereoExt (resetForSeed (buildCamObservation extraPointScene)) 0 1
        sp 1 = 1) ∧
      matchPosition (resetForSeed (buildCamObservation extraPointScene)) 0 1 10 = 9 ∧
      (∀ sp, counterAtPoint stereoExt (resetForSeed (buildCamObservation extraPointScene)) 0 1
        sp 10 = 10) :=
  ⟨counterAtPoint_eq, by decide!, by decide!, by decide!, by decide!,
    fun sp => (counterAtPoint_eq stereoExt _ 0 1 sp 1).trans (by decide!), by decide!,
    fun sp => (counterAtPoint_eq stereoExt _ 0 1 sp 10).trans (by decide!)⟩

/-! ## The divergence tests -/

theorem pointDistances_fold_count (ext : Ext) (s : Sfm) (l : List Nat) (acc : ℚ × Int) :
    (l.foldl
        (fun (acc : ℚ × Int) i =>
          if s.ptStatus i > 0 then (acc.1 + norm3 ext (s.pt i), acc.2 + 1) else acc) acc).2
      = acc.2 + ((l.filter (fun i => decide (s.ptStatus i > 0))).length : Int) := by
  induction l generalizing acc with
  | nil => simp
  | cons i rest ih =>
    rw [List.foldl_cons, ih, List.filter_cons]
    by_cases h : s.ptStatus i > 0
    · rw [if_pos h, if_pos (decide_eq_true h), List.length_cons]
      push_cast
      ring
    · rw [if_neg h, if_neg (by simpa using h)]

theorem pointDistances_count (ext : Ext) (s : Sfm) :
    (pointDistances ext s).2 = (registeredPoints s : Int) := by
  unfold pointDistances registeredPoints
  rw [pointDistances_fold_count]
  simp

theorem rejectedPoints_fold_count (s : Sfm) (l : List Nat) (acc : Int) :
    l.foldl (fun (acc : Int) i => if s.ptStatus i = -1 then acc + 1 else acc) acc
      = acc + ((l.filter (fun i => decide (s.ptStatus i = -1))).length : Int) := by
  induction l generalizing acc with
  | nil => simp
  | cons i rest ih =>
    rw [List.foldl_cons, ih, List.filter_cons]
    by_cases h : s.ptStatus i = -1
    · rw [if_pos h, if_pos (decide_eq_true h), List.length_cons]
      push_cast
      ring
    · rw [if_neg h, if_neg (by simpa using h)]

theorem rejectedPoints_count (s : Sfm) : rejectedPoints s = (rejectedCount s : Int) := by
  unfold rejectedPoints rejectedCount
  rw [rejectedPoints_fold_count]
  simp

theorem half_lt_fraction_iff (r v : Int) (hr : 0 < r) (hv : 0 < v) :
    (r : ℚ) / ((r + v : Int) : ℚ) > 1 / 2 ↔ v < r := by
  have hpos : (0 : ℚ) < ((r + v : Int) : ℚ) := by exact_mod_cast (by omega : 0 < r + v)
  rw [gt_iff_lt, lt_div_iff₀ hpos]
  push_cast
  constructor
  · intro h
    have : (v : ℚ) < (r : ℚ) := by linarith
    exact_mod_cast this
  · intro h
    have : (v : ℚ) < (r : ℚ) := by exact_mod_cast h
    linarith

theorem diverged_iff (ext : Ext) (s : Sfm) (iter : Nat)
    (hdist : avgPointDistance ext s ≤ 100 ∧ avgCameraDistance ext s ≤ 100)
    (hcount : ¬ (registeredPoints s < 20 ∧ iter > 3)) :
    diverged ext s iter = true ↔ 0 < registeredPoints s ∧ registeredPoints s < rejectedCount s := by
  have hv := pointDistances_count ext s
  have hr := rejectedPoints_count s
  have h1 : ¬ ((if (pointDistances ext s).2 > 0 then
        (pointDistances ext s).1 / (((pointDistances ext s).2 : Int) : ℚ)
      else (pointDistances ext s).1) > 100 ∨
      (if (cameraDistances ext s).2 > 0 then
        (cameraDistances ext s).1 / (((cameraDistances ext s).2 : Int) : ℚ)
      else (cameraDistances ext s).1) > 100) := by
    intro h
    unfold avgPointDistance avgCameraDistance at hdist
    rcases h with h | h
    · exact absurd hdist.1 (not_le.2 h)
    · exact absurd hdist.2 (not_le.2 h)
  have h2 : ¬ ((pointDistances ext s).2 < 20 ∧ iter > 3) := by
    intro h
    apply hcount
    rw [hv] at h
    exact ⟨by exact_mod_cast h.1, h.2⟩
  unfold diverged
  simp only []
  rw [if_neg h1, if_neg h2, hv, hr]
  by_cases hpos : (0 : Int) < rejectedCount s ∧ (0 : Int) < registeredPoints s
  · have := half_lt_fraction_iff _ _ hpos.1 hpos.2
    constructor
    · intro h
      split_ifs at h with hc
      exact ⟨by exact_mod_cast hpos.2, by exact_mod_cast this.1 hc.2.2⟩
    · intro h
      rw [if_pos ⟨hpos.1, hpos.2, this.2 (by exact_mod_cast h.2)⟩]
  · constructor
    · intro h
      split_ifs at h with hc
      exact absurd ⟨hc.1, hc.2.1⟩ hpos
    · intro h
      exfalso
      apply hpos
      have h1 := h.1
      have h2 := h.2
      constructor
      · exact_mod_cast (by omega : 0 < rejectedCount s)
      · exact_mod_cast h1

theorem growthIter_result (ext : Ext) (fuel : Nat) (s s' : Sfm) (iter : Nat) (b : Bool)
    (hstep : growthIter ext fuel s iter = some (b, s'))
    (hreg : (registerNextCamera ext s).isSome = true) :
    b = !diverged ext s' iter := by
  unfold growthIter at hstep
  cases hr : registerNextCamera ext s with
  | none => rw [hr] at hreg; simp at hreg
  | some ns =>
    obtain ⟨new_idx, s1⟩ := ns
    rw [hr] at hstep
    simp only [] at hstep
    cases hba : bundleAdjustmentIter ext fuel (growPoints ext s1 new_idx).1 with
    | none => rw [hba] at hstep; simp at hstep
    | some s3 =>
      rw [hba] at hstep
      simp only [] at hstep
      split_ifs at hstep with hd
      · simp only [Option.some.injEq, Prod.mk.injEq] at hstep
        rw [← hstep.1, ← hstep.2, hd]
        rfl
      · simp only [Option.some.injEq, Prod.mk.injEq] at hstep
        rw [← hstep.1, ← hstep.2]
        simp only [Bool.not_eq_true] at hd
        rw [hd]
        rfl

/-- C21 (counterexample): in `farPointsScene` the call `incrementalReconstruction(0, 1)`
registers camera 2 in its one growth round; the far-point filter then rejects all ten
points. The mean distances are within the bounds and `iter = 1`, so the step is not
stopped before; 10 points are rejected and none is registered, the rejected fraction is 1,
and the function returns true. -/
theorem C21_all_points_rejected_returns_true :
    (incrementalReconstruction stereoExt 3 (buildCamObservation farPointsScene) 0 1).map
        (fun r =>
          (r.1, r.2.pts_optim_iter_, r.2.cam_pose_optim_iter_, registeredPoints r.2,
            rejectedCount r.2,
            decide (avgPointDistance stereoExt r.2 ≤ 100 ∧ avgCameraDistance stereoExt r.2 ≤ 100)))
      = some (true, [-1, -1, -1, -1, -1, -1, -1, -1, -1, -1], [1, 1, 1], 0, 10, true) := by
  decide!

/-- C21 (amended): after a growth and refinement step in which a camera was registered and
which the distance tests and the minimum-count test do not stop, the step declares
divergence exactly when at least one point is registered and the points of status -1
outnumber the registered ones; when no registered point remains the step goes on. -/
theorem C21_divergence_needs_a_registered_point (ext : Ext) (fuel : Nat) (s s' : Sfm)
    (iter : Nat) (b : Bool) (hstep : growthIter ext fuel s iter = some (b, s'))
    (hreg : (registerNextCamera ext s).isSome = true)
    (hdist : avgPointDistance ext s' ≤ 100 ∧ avgCameraDistance ext s' ≤ 100)
    (hcount : ¬ (registeredPoints s' < 20 ∧ iter > 3)) :
    (b = false ↔ 0 < registeredPoints s' ∧ registeredPoints s' < rejectedCount s') ∧
      (registeredPoints s' = 0 → b = true) := by
  have hb := growthIter_result ext fuel s s' iter b hstep hreg
  have hd := diverged_iff ext s' iter hdist hcount
  constructor
  · rw [← hd, hb]
    cases diverged ext s' iter <;> simp
  · intro h0
    rw [hb]
    cases hdv : diverged ext s' iter with
    | false => rfl
    | true =>
      have := hd.1 hdv
      omega

/-- C21 (witness): in `mixedPointsScene` the first growth round registers camera 2 and the
far-point filter rejects six of the ten points; four are registered, and the round
declares divergence. -/
theorem C21_divergence_needs_a_registered_point_witness :
    (growthIter stereoExt 3 mixedSeedState 1 = some (false, mixedGrownState) ∧
      (registerNextCamera stereoExt mixedSeedState).isSome = true ∧
      (avgPointDistance stereoExt mixedGrownState ≤ 100 ∧
        avgCameraDistance stereoExt mixedGrownState ≤ 100) ∧
      ¬ (registeredPoints mixedGrownState < 20 ∧ 1 > 3)) ∧
    registeredPoints mixedGrownState = 4 ∧ rejectedCount mixedGrownState = 6 ∧
    (false = false ↔
      0 < registeredPoints mixedGrownState ∧
        registeredPoints mixedGrownState < rejectedCount mixedGrownState) :=
  ⟨⟨by decide!, by decide!, ⟨by decide!, by decide!⟩, by decide!⟩, by decide!, by decide!,
    (C21_divergence_needs_a_registered_point stereoExt 3 mixedSeedState mixedGrownState 1 false
      (by decide!) (by decide!) ⟨by decide!, by decide!⟩ (by decide!)).1⟩

end BasicSfM
